import Mathlib

/-!
naos: task table and descriptor table.

A shallow embedding of the process-lifecycle code of `kernel/src/task/task.c`
(`task_unblock`, `task_search`, `task_exit`, `sys_waitpid`, `get_free_task`,
`alloc_cpu_id`, `task_create`, `task_init`, `task_fork`, `sys_clone`,
`push_slice`, `push_infos`, `task_execve`, `ms_to_timeval`, `timeval_to_ms`,
`sched_update_itimer`, `sys_setitimer`, `sys_timer_create`,
`sys_timer_settime`) and of the system calls of
`kernel/src/fs/syscall/generic.c` (`sys_open`, `sys_close`, `sys_dup3`,
`sys_dup2`, `sys_dup`, `sys_fcntl`, `sys_read`, `sys_write`, `sys_lseek`,
`sys_getdents`, `sys_flock`, `sys_futex`).

Conventions of the embedding.

* C arrays (`tasks[]`, `idle_tasks[]`, `fds[]`) are functions from the index to
  the slot content; a `NULL` slot is `none`.  A pointer to a task is the slot
  that holds it (`task_ptr`); a pointer to a VFS node is a natural number that
  indexes the node store.
* `uint64_t` values are natural numbers; a negative `errno` return value
  `-E` is the 64-bit pattern `2^64 - E` (`neg_errno`).
* The headers that define the numeric constants are not part of the sources
  at hand; every such constant is a field of `Config`.
* The VFS backend (`vfs_open`, `vfs_mkdir`, `vfs_mkfile`, `vfs_dup`,
  `vfs_read`, `vfs_write`), the socket hook and the user-range check are
  external collaborators and are passed in as `vfs_ops`.
* The dereference of a null slot is the result `none` of the functions that
  can reach one (`sys_dup`, `sys_fcntl`, `sys_timer_settime`, `task_create`).
* The futex wait list lives in a memory of records indexed by address, 0 being
  `NULL`; a block handed to `free` is recorded and keeps its content.
* Page tables, kernel stacks and the arch context are outside the model; user
  memory appears only where `push_infos` builds the initial stack, as a map
  from addresses to bytes.  `malloc` is taken to succeed unless a function
  takes its result as an argument.
* The flag word and the offset of a handle and the size of a node are 64 bits
  wide.
-/

namespace Naos

/-! ## Constants and data model -/

/-- Scheduling states of a task. -/
inductive task_state_t where
  | TASK_READY
  | TASK_RUNNING
  | TASK_BLOCKING
  | TASK_DIED
  deriving DecidableEq, Repr

open task_state_t

/-- Constants and the macro `SIGMASK` that the C sources take from headers;
`TASK_STATE_ZERO` is the
state whose enumeration value is 0, the one a cleared `task_t` is in. -/
structure Config where
  MAX_TASK_NUM : Nat
  MAX_FD_NUM : Nat
  EOK : Nat
  ENOENT : Nat
  EBADF : Nat
  ECHILD : Nat
  EINVAL : Nat
  EMFILE : Nat
  ENOSPC : Nat
  WNOHANG : Nat
  O_CREAT : Nat
  O_DIRECTORY : Nat
  O_CLOEXEC : Nat
  F_UNLCK : Nat
  EFAULT : Nat
  EISDIR : Nat
  ENOTDIR : Nat
  ENOSYS : Nat
  EAGAIN : Nat
  EWOULDBLOCK : Nat
  EACCES : Nat
  O_APPEND : Nat
  O_DIRECT : Nat
  O_NOATIME : Nat
  O_NONBLOCK : Nat
  F_DUPFD : Nat
  F_GETFD : Nat
  F_SETFD : Nat
  F_GETFL : Nat
  F_SETFL : Nat
  F_DUPFD_CLOEXEC : Nat
  F_RDLCK : Nat
  F_WRLCK : Nat
  LOCK_SH : Nat
  LOCK_EX : Nat
  LOCK_NB : Nat
  LOCK_UN : Nat
  SEEK_SET : Nat
  SEEK_CUR : Nat
  SEEK_END : Nat
  file_none : Nat
  file_dir : Nat
  file_symlink : Nat
  file_socket : Nat
  DT_UNKNOWN : Nat
  DT_DIR : Nat
  DT_REG : Nat
  DT_LNK : Nat
  SIZEOF_DIRENT : Nat
  ENOMEM : Nat
  FUTEX_CMD_MASK : Nat
  FUTEX_WAIT : Nat
  FUTEX_WAKE : Nat
  MAX_TIMERS_NUM : Nat
  SIGEV_SIGNAL : Nat
  CLONE_SIGHAND : Nat
  PT_LOAD : Nat
  PT_INTERP : Nat
  DEFAULT_PAGE_SIZE : Nat
  INTERPRETER_BASE_ADDR : Nat
  TASK_NAME_MAX : Nat
  TASK_STATE_ZERO : task_state_t
  SIGALRM : Nat
  SIGMASK : Nat → Nat
  AT_PHDR : Nat
  AT_PHENT : Nat
  AT_PHNUM : Nat
  AT_ENTRY : Nat
  AT_EXECFN : Nat
  AT_BASE : Nat
  AT_PAGESZ : Nat

/-- The 64-bit pattern of `(uint64_t)-e`. -/
def neg_errno (e : Nat) : Nat := (2 ^ 64 - e) % 2 ^ 64

/-- The pattern of `(uint64_t)-1`, the "any child" selector of `sys_waitpid`. -/
def UINT64_MINUS_ONE : Nat := 2 ^ 64 - 1

/-- A `uint64_t` return value read as the signed value of the syscall convention. -/
def to_int64 (r : Nat) : Int := if r < 2 ^ 63 then (r : Int) else (r : Int) - 2 ^ 64

/-- The advisory lock record of a VFS node; `lock` is the word that waiters
of `sys_flock` poll. -/
structure flock_t where
  l_type : Nat
  l_pid : Nat
  lock : Nat
  deriving DecidableEq, Repr

/-- The fields of a VFS node that the descriptor code touches. -/
structure vfs_node where
  type : Nat
  refcount : Nat
  lock : flock_t
  inode : Nat
  size : Nat
  name : String
  child : List Nat
  deriving DecidableEq, Repr

/-- An open-file handle: node pointer, byte offset, flag word. -/
structure fd_t where
  node : Nat
  offset : Nat
  flags : Nat
  deriving DecidableEq, Repr

/-- The real interval timer of a task: expiry (`at` in the source) and reload
value in jiffies. -/
structure itimer_t where
  at_ : Nat
  reset : Nat
  deriving DecidableEq, Repr

/-- A POSIX timer (`kernel_timer_t`). -/
structure kernel_timer_t where
  clock_type : Nat
  sigev_signo : Nat
  sigev_value : Nat
  sigev_notify : Nat
  expires : Nat
  interval : Nat
  deriving DecidableEq, Repr

/-- The fields of `task_t` used by the modelled functions.  `status` holds the
64-bit value that `task_exit` assigns. -/
structure task_t where
  pid : Nat
  ppid : Nat
  pgid : Nat
  waitpid : Nat
  state : task_state_t
  status : Nat
  cpu_id : Nat
  jiffies : Nat
  fds : Nat → Option fd_t
  signal : Nat
  itimer_real : itimer_t
  timers : Nat → Option kernel_timer_t
  load_start : Nat
  load_end : Nat
  name : String
  cmdline : String

/-- The VFS state seen by the core: the node store and the name space. -/
structure vfs_t where
  nodes : Nat → vfs_node
  dentries : List (String × Nat)

/-- An ELF program header (`Elf64_Phdr`), the fields the loader reads. -/
structure elf_phdr where
  p_type : Nat
  p_offset : Nat
  p_vaddr : Nat
  p_filesz : Nat
  p_memsz : Nat
  deriving DecidableEq, Repr

/-- What `task_execve` reads from the buffer a file was loaded into: the first
two bytes, the fields `e_entry` and the `e_phnum` program headers at `e_phoff`
of the ELF header, the verdict of `arch_check_elf`, and the string found at a
given offset of the file. -/
structure exec_image where
  byte0 : Nat
  byte1 : Nat
  e_entry : Nat
  arch_ok : Bool
  phdrs : List elf_phdr
  string_at : Nat → String

/-- The operations of the external collaborators used by the descriptor
system calls: the VFS backend, the socket hook of `sys_dup2` and the user-range
check.  `vfs_read` and `vfs_write` take the node, the user buffer address, the
offset and the length, and give the `ssize_t` result.  `vfs_image` is the
content that `vfs_read` places in the buffer of `task_execve`, as far as the
loader reads it. -/
structure vfs_ops where
  vfs_open : vfs_t → String → Option Nat
  vfs_mkdir : vfs_t → String → Int × vfs_t
  vfs_mkfile : vfs_t → String → Int × vfs_t
  vfs_dup : vfs_t → fd_t → Option fd_t
  vfs_read : vfs_t → Nat → Nat → Nat → Nat → Int × vfs_t
  vfs_write : vfs_t → Nat → Nat → Nat → Nat → Int × vfs_t
  socket_on_dup_file : vfs_t → Nat → Nat → vfs_t
  check_user_overflow : Nat → Nat → Bool
  vfs_get_fullpath : vfs_t → Nat → String
  vfs_image : vfs_t → Nat → exec_image

/-- A pointer to a task object: a slot of `tasks[]` or of `idle_tasks[]`. -/
inductive task_ptr where
  | task (i : Nat)
  | idle (cpu : Nat)
  deriving DecidableEq, Repr

/-- The global state: both task arrays, the running task, the CPU, the VFS,
the number of CPUs, the round-robin counter `cpu_idx` and the flags
`can_schedule` and `execve_lock`. -/
structure Kernel where
  tasks : Nat → Option task_t
  idle_tasks : Nat → Option task_t
  current_task : task_ptr
  current_cpu_id : Nat
  vfs : vfs_t
  cpu_count : Nat
  cpu_idx : Nat
  can_schedule : Bool
  execve_lock : Bool

/-- Read the task object behind a pointer. -/
def Kernel.deref (k : Kernel) : task_ptr → Option task_t
  | .task i => k.tasks i
  | .idle c => k.idle_tasks c

/-- Write the task object behind a pointer. -/
def Kernel.store (k : Kernel) (p : task_ptr) (t : task_t) : Kernel :=
  match p with
  | .task i => { k with tasks := Function.update k.tasks i (some t) }
  | .idle c => { k with idle_tasks := Function.update k.idle_tasks c (some t) }

/-! ## task.c -/

/-- Modelled from the spec: `vfs_close` of the VFS backend, which is not among
the sources; "closing decrements" the reference count of the node. -/
def vfs_close (v : vfs_t) (n : Nat) : vfs_t :=
  let node := v.nodes n
  { v with nodes := Function.update v.nodes n { node with refcount := node.refcount - 1 } }

/-- `task_unblock(task, reason)`. -/
def task_unblock (t : task_t) (reason : Nat) : task_t :=
  { t with status := reason, state := TASK_READY }

/-- The loop of `task_search`: `n` slots left to visit from index `i`, `best`
the candidate found so far. -/
def task_search_loop (k : Kernel) (state : task_state_t) (cpu_id : Nat) :
    Nat → Nat → Option (Nat × task_t) → Option (Nat × task_t)
  | 0, _, best => best
  | n + 1, i, best =>
    match k.tasks i with
    | none => best
    | some ptr =>
      if ptr.state ≠ state then task_search_loop k state cpu_id n (i + 1) best
      else if k.current_task = .task i then task_search_loop k state cpu_id n (i + 1) best
      else if ptr.cpu_id ≠ cpu_id then task_search_loop k state cpu_id n (i + 1) best
      else
        match best with
        | none => task_search_loop k state cpu_id n (i + 1) (some (i, ptr))
        | some (j, task) =>
          if ptr.jiffies < task.jiffies then
            task_search_loop k state cpu_id n (i + 1) (some (i, ptr))
          else task_search_loop k state cpu_id n (i + 1) (some (j, task))

/-- `task_search(state, cpu_id)`; `none` is the `NULL` result. -/
def task_search (K : Config) (k : Kernel) (state : task_state_t) (cpu_id : Nat) :
    Option task_ptr :=
  match task_search_loop k state cpu_id (K.MAX_TASK_NUM - 1) 1 none with
  | some (i, _) => some (.task i)
  | none =>
    if state = TASK_READY then
      match k.idle_tasks cpu_id with
      | some _ => some (.idle cpu_id)
      | none => none
    else none

/-- The descriptor loop of `task_exit`: `n` slots left from index `i`. -/
def exit_close_fds : Nat → Nat → (Nat → Option fd_t) → vfs_t → (Nat → Option fd_t) × vfs_t
  | 0, _, fds, v => (fds, v)
  | n + 1, i, fds, v =>
    match fds i with
    | some h => exit_close_fds n (i + 1) (Function.update fds i none) (vfs_close v h.node)
    | none => exit_close_fds n (i + 1) fds v

/-- `task_exit(code)`, up to the context switch: the result is the state in
which the next task runs.  `none` when `current_task` is a null pointer. -/
def task_exit (K : Config) (k : Kernel) (code : Int) : Option Kernel :=
  match k.deref k.current_task with
  | none => none
  | some task =>
    let closed := exit_close_fds K.MAX_FD_NUM 0 task.fds k.vfs
    let task1 : task_t := { task with status := (code % 2 ^ 64).toNat, fds := closed.1 }
    let k1 : Kernel := { k.store k.current_task task1 with vfs := closed.2 }
    let k2 : Kernel :=
      if task1.waitpid ≠ 0 then
        match k1.tasks task1.waitpid with
        | some waiter => k1.store (.task task1.waitpid) (task_unblock waiter K.EOK)
        | none => k1
      else k1
    match k2.deref k2.current_task with
    | none => none
    | some task2 =>
      let k3 := k2.store k2.current_task { task2 with state := TASK_DIED }
      match task_search K k3 TASK_READY task2.cpu_id with
      | some next => some { k3 with current_task := next }
      | none => some { k3 with current_task := .idle k3.current_cpu_id }

/-- How one run of the `for` loop of `sys_waitpid` ends. -/
inductive scan_result where
  | rollback (child : Nat)
  | stop (child : Nat)
  | finished
  deriving DecidableEq, Repr

/-- The state check that ends the loop body ("检查进程状态"). -/
def waitpid_check_state (i : Nat) (ptr : task_t) : scan_result :=
  if ptr.state = TASK_DIED then .rollback i else .stop i

/-- One iteration of the `for` loop of `sys_waitpid` on slot `i`; `none` means
that the loop goes on with the next slot. -/
def waitpid_visit (cur : task_t) (pid : Nat) (i : Nat) (slot : Option task_t) :
    Option scan_result :=
  match slot with
  | none => none
  | some ptr =>
    if ptr.pid = ptr.ppid ∨ ptr.ppid ≠ cur.pid then none
    else if pid = UINT64_MINUS_ONE then
      if ptr.state = TASK_DIED then some (.rollback i) else some (.stop i)
    else if pid = 0 then
      if ptr.pgid = cur.pgid then some (.stop i)
      else some (waitpid_check_state i ptr)
    else if 0 < pid then
      if ptr.pid ≠ pid then none
      else some (waitpid_check_state i ptr)
    else some (waitpid_check_state i ptr)

/-- The `for` loop of `sys_waitpid`: `n` slots left from index `i`. -/
def waitpid_scan (k : Kernel) (cur : task_t) (pid : Nat) : Nat → Nat → scan_result
  | 0, _ => .finished
  | n + 1, i =>
    match waitpid_visit cur pid i (k.tasks i) with
    | some r => r
    | none => waitpid_scan k cur pid n (i + 1)

/-- The 32-bit pattern stored through the `status` pointer for a child status. -/
def wait_status (status : Nat) : Nat :=
  if status < 128 then ((status &&& 0xff) <<< 8) % 2 ^ 32
  else (((status - 128) % 2 ^ 32) ||| (0x80 <<< 8))

/-- What one pass through the body of `while (1)` does. -/
inductive pass_result where
  | returned (ret : Nat) (status_out : Option Nat) (k : Kernel)
  | blocked (child : Nat) (k : Kernel)
  | fault

/-- The code after the label `rollback`, with `child` the local pointer and
`status` telling whether the `status` pointer is non-null. -/
def waitpid_rollback (K : Config) (k : Kernel) (child : Option Nat) (status : Bool)
    (options : Nat) : pass_result :=
  match child with
  | some c =>
    match k.tasks c with
    | none => .fault
    | some ch =>
      .returned ch.pid (if status then some (wait_status ch.status) else none)
        { k with tasks := Function.update k.tasks ch.pid none }
  | none =>
    if options &&& K.WNOHANG ≠ 0 then .returned 0 none k
    else .returned (neg_errno K.ECHILD) none k

/-- One pass through the body of `while (1)` in `sys_waitpid`, entered with
the local `child` as left by the earlier passes. -/
def sys_waitpid_pass (K : Config) (k : Kernel) (child : Option Nat) (pid : Nat)
    (status : Bool) (options : Nat) : pass_result :=
  match k.deref k.current_task with
  | none => .fault
  | some cur =>
    match waitpid_scan k cur pid (K.MAX_TASK_NUM - 1) 1 with
    | .rollback c => waitpid_rollback K k (some c) status options
    | .finished =>
      if options &&& K.WNOHANG ≠ 0 then .returned 0 none k
      else waitpid_rollback K k child status options
    | .stop c =>
      match k.tasks c with
      | none => .fault
      | some ch =>
        let k1 : Kernel :=
          { k with tasks := Function.update k.tasks c (some { ch with waitpid := cur.pid }) }
        match k1.deref k1.current_task with
        | none => .fault
        | some cur1 => .blocked c (k1.store k1.current_task { cur1 with state := TASK_BLOCKING })

/-- The loop of `sys_waitpid`.  While the caller pauses, the rest of the system
runs: `env` is what it does to the state until the caller looks at its own
state again.  `paused` tells whether the caller is inside
`while (current_task->state == TASK_BLOCKING)`. -/
def sys_waitpid_loop (K : Config) (env : Kernel → Kernel) (pid : Nat) (status : Bool)
    (options : Nat) : Nat → Bool → Option Nat → Kernel → Option (Nat × Option Nat × Kernel)
  | 0, _, _, _ => none
  | n + 1, true, child, k =>
    let k1 : Kernel := { env k with current_task := k.current_task }
    match k1.deref k1.current_task with
    | none => none
    | some cur =>
      if cur.state = TASK_BLOCKING then sys_waitpid_loop K env pid status options n true child k1
      else sys_waitpid_loop K env pid status options n false child k1
  | n + 1, false, child, k =>
    match sys_waitpid_pass K k child pid status options with
    | .returned ret s k1 => some (ret, s, k1)
    | .blocked c k1 => sys_waitpid_loop K env pid status options n true (some c) k1
    | .fault => none

/-- `sys_waitpid(pid, status, options)` run for at most `fuel` steps against
the environment `env`: the return value, the word stored through `status`
(if any) and the final state. -/
def sys_waitpid (K : Config) (env : Kernel → Kernel) (fuel : Nat) (k : Kernel) (pid : Nat)
    (status : Bool) (options : Nat) : Option (Nat × Option Nat × Kernel) :=
  sys_waitpid_loop K env pid status options fuel false none k

/-- The task array after `task_exit` of the task in slot `ci`, when the task's
`waitpid` field does not name the task itself. -/
def exit_tasks (K : Config) (k : Kernel) (ci : Nat) (task : task_t) (code : Int) :
    Nat → Option task_t :=
  let task1 : task_t :=
    { task with status := (code % 2 ^ 64).toNat,
                fds := (exit_close_fds K.MAX_FD_NUM 0 task.fds k.vfs).1 }
  let tasks1 := Function.update k.tasks ci (some task1)
  let tasks2 :=
    if task.waitpid ≠ 0 then
      match tasks1 task.waitpid with
      | some waiter => Function.update tasks1 task.waitpid (some (task_unblock waiter K.EOK))
      | none => tasks1
    else tasks1
  Function.update tasks2 ci (some { task1 with state := TASK_DIED })

/-! ## generic.c -/

/-- The part of the state that the descriptor system calls work on: the
running task (`*current_task`) and the VFS. -/
structure fs_state where
  task : task_t
  vfs : vfs_t

/-- The 64-bit pattern of `~x`. -/
def not64 (x : Nat) : Nat := 2 ^ 64 - 1 - x

/-- The slot search of `sys_open` and `sys_dup`: `n` slots left from index
`i`; the result is the value of `i` when the `for` loop is left. -/
def fd_scan (fds : Nat → Option fd_t) : Nat → Nat → Nat
  | 0, i => i
  | n + 1, i => if fds i = none then i else fd_scan fds n (i + 1)

/-- The tail of `sys_open`: install a fresh handle for `node` in slot `i`. -/
def open_install (s : fs_state) (i node flags : Nat) : Nat × fs_state :=
  let fds1 := Function.update s.task.fds i (some { node := node, offset := 0, flags := flags })
  let n := s.vfs.nodes node
  (i, { task := { s.task with fds := fds1 },
        vfs := { s.vfs with
          nodes := Function.update s.vfs.nodes node { n with refcount := n.refcount + 1 } } })

/-- `sys_open(name, flags, mode)`. -/
def sys_open (K : Config) (B : vfs_ops) (s : fs_state) (name : String) (flags mode : Nat) :
    Nat × fs_state :=
  let i := fd_scan s.task.fds (K.MAX_FD_NUM - 3) 3
  if i = K.MAX_FD_NUM then (neg_errno K.EBADF, s)
  else
    let create_mode := flags &&& K.O_CREAT
    match B.vfs_open s.vfs name with
    | some node => open_install s i node flags
    | none =>
      if create_mode = 0 then (neg_errno K.ENOENT, s)
      else
        let made :=
          if mode &&& K.O_DIRECTORY ≠ 0 then B.vfs_mkdir s.vfs name else B.vfs_mkfile s.vfs name
        if made.1 < 0 then (neg_errno K.ENOSPC, { s with vfs := made.2 })
        else
          match B.vfs_open made.2 name with
          | none => (neg_errno K.ENOENT, { s with vfs := made.2 })
          | some node => open_install { s with vfs := made.2 } i node flags

/-- `sys_close(fd)`. -/
def sys_close (K : Config) (s : fs_state) (fd : Nat) : Nat × fs_state :=
  if K.MAX_FD_NUM ≤ fd then (neg_errno K.EBADF, s)
  else
    match s.task.fds fd with
    | none => (neg_errno K.EBADF, s)
    | some h =>
      let fds1 := Function.update s.task.fds fd (some { h with offset := 0 })
      let n := s.vfs.nodes h.node
      let v1 : vfs_t :=
        if n.lock.l_pid = s.task.pid then
          { s.vfs with
            nodes := Function.update s.vfs.nodes h.node
              { n with lock := { n.lock with l_type := K.F_UNLCK, l_pid := 0 } } }
        else s.vfs
      let v2 := vfs_close v1 h.node
      (0, { task := { s.task with fds := Function.update fds1 fd none }, vfs := v2 })

/-- `sys_dup3(oldfd, newfd, flags)`.  `O_CLOEXEC` is an `int` constant, so
`~O_CLOEXEC` widens to the 64-bit complement.  A null handle passed to `vfs_dup`
(not reachable after the checks) yields a null result. -/
def sys_dup3 (K : Config) (B : vfs_ops) (s : fs_state) (oldfd newfd flags : Nat) :
    Nat × fs_state :=
  if K.MAX_FD_NUM ≤ oldfd then (neg_errno K.EBADF, s)
  else if s.task.fds oldfd = none then (neg_errno K.EBADF, s)
  else if K.MAX_FD_NUM ≤ newfd then (neg_errno K.EBADF, s)
  else if flags &&& not64 K.O_CLOEXEC ≠ 0 then (neg_errno K.EINVAL, s)
  else if oldfd = newfd then (neg_errno K.EBADF, s)
  else
    let s1 := if s.task.fds newfd ≠ none then (sys_close K s newfd).2 else s
    match (s1.task.fds oldfd).bind (B.vfs_dup s1.vfs) with
    | none => (neg_errno K.EMFILE, s1)
    | some new_node =>
      let n := s1.vfs.nodes new_node.node
      let v2 : vfs_t :=
        { s1.vfs with
          nodes := Function.update s1.vfs.nodes new_node.node
            { n with refcount := n.refcount + 1 } }
      let h : fd_t :=
        if flags &&& K.O_CLOEXEC ≠ 0 then
          { new_node with flags := new_node.flags ||| K.O_CLOEXEC }
        else new_node
      (newfd, { task := { s1.task with fds := Function.update s1.task.fds newfd (some h) },
                vfs := v2 })

/-- The 64-bit pattern of a signed value converted to `uint64_t`. -/
def to_u64 (r : Int) : Nat := (r % 2 ^ 64).toNat

/-- `sys_dup2(fd, newfd)`. -/
def sys_dup2 (K : Config) (B : vfs_ops) (s : fs_state) (fd newfd : Nat) : Nat × fs_state :=
  match s.task.fds fd with
  | none => (neg_errno K.EBADF, s)
  | some h =>
    match B.vfs_dup s.vfs h with
    | none => (neg_errno K.ENOSPC, s)
    | some new =>
      let v1 : vfs_t :=
        match s.task.fds newfd with
        | some old => vfs_close s.vfs old.node
        | none => s.vfs
      let v2 : vfs_t :=
        if (v1.nodes new.node).type = K.file_socket then B.socket_on_dup_file v1 fd newfd
        else v1
      let n := v2.nodes new.node
      (newfd, { task := { s.task with fds := Function.update s.task.fds newfd (some new) },
                vfs := { v2 with
                  nodes := Function.update v2.nodes new.node
                    { n with refcount := n.refcount + 1 } } })

/-- `sys_dup(fd)`.  The first statement reads `fds[fd]->node`; `none` is the
dereference of a null slot.  A node pointer is null when it is 0. -/
def sys_dup (K : Config) (B : vfs_ops) (s : fs_state) (fd : Nat) : Option (Nat × fs_state) :=
  match s.task.fds fd with
  | none => none
  | some h =>
    if h.node = 0 then some (neg_errno K.EBADF, s)
    else
      let i := fd_scan s.task.fds (K.MAX_FD_NUM - 3) 3
      if i = K.MAX_FD_NUM then some (neg_errno K.EBADF, s)
      else some (sys_dup2 K B s fd i)

/-- The `uint32_t valid_flags` of the `F_SETFL` case. -/
def valid_flags (K : Config) : Nat :=
  (K.O_APPEND ||| K.O_DIRECT ||| K.O_NOATIME ||| K.O_NONBLOCK) % 2 ^ 32

/-- `sys_fcntl(fd, command, arg)`; `none` is the dereference of a null slot.
The flag word of a handle is 64 bits wide, and `~valid_flags` is a 32-bit
complement that is widened with zeros. -/
def sys_fcntl (K : Config) (B : vfs_ops) (s : fs_state) (fd command arg : Nat) :
    Option (Nat × fs_state) :=
  if K.MAX_FD_NUM < fd then some (neg_errno K.EBADF, s)
  else
    match s.task.fds fd with
    | none => some (neg_errno K.EBADF, s)
    | some h =>
      if command = K.F_GETFD then some (if h.flags &&& K.O_CLOEXEC ≠ 0 then 1 else 0, s)
      else if command = K.F_SETFD then
        let f := h.flags ||| K.O_CLOEXEC
        some (f, { s with task := { s.task with
          fds := Function.update s.task.fds fd (some { h with flags := f }) } })
      else if command = K.F_DUPFD_CLOEXEC then
        match sys_dup K B s fd with
        | none => none
        | some (newfd, s1) =>
          match s1.task.fds newfd with
          | none => none
          | some h1 =>
            some (newfd, { s1 with task := { s1.task with
              fds := Function.update s1.task.fds newfd
                (some { h1 with flags := h1.flags ||| K.O_CLOEXEC }) } })
      else if command = K.F_DUPFD then sys_dup K B s fd
      else if command = K.F_GETFL then some (h.flags, s)
      else if command = K.F_SETFL then
        let f1 := h.flags &&& (2 ^ 32 - 1 - valid_flags K)
        let f2 := f1 ||| (arg &&& valid_flags K)
        some (0, { s with task := { s.task with
          fds := Function.update s.task.fds fd (some { h with flags := f2 }) } })
      else some (neg_errno K.ENOSYS, s)

/-- The common body of `sys_read` and `sys_write`, with `io` the VFS transfer
function (`vfs_read` or `vfs_write`). -/
def sys_rw (K : Config) (B : vfs_ops) (io : vfs_t → Nat → Nat → Nat → Nat → Int × vfs_t)
    (s : fs_state) (fd buf len : Nat) : Nat × fs_state :=
  if buf = 0 ∨ B.check_user_overflow buf len = true then (neg_errno K.EFAULT, s)
  else if K.MAX_FD_NUM ≤ fd then (neg_errno K.EBADF, s)
  else
    match s.task.fds fd with
    | none => (neg_errno K.EBADF, s)
    | some h =>
      if (s.vfs.nodes h.node).type &&& K.file_dir ≠ 0 then (neg_errno K.EISDIR, s)
      else if buf = 0 then (neg_errno K.EFAULT, s)
      else
        let r := io s.vfs h.node buf h.offset len
        let task1 : task_t :=
          if 0 < r.1 then
            { s.task with
              fds := Function.update s.task.fds fd
                (some { h with offset := (h.offset + r.1.toNat) % 2 ^ 64 }) }
          else s.task
        if r.1 = -(K.EAGAIN : Int) then (neg_errno K.EAGAIN, { task := task1, vfs := r.2 })
        else (to_u64 r.1, { task := task1, vfs := r.2 })

/-- `sys_read(fd, buf, len)`. -/
def sys_read (K : Config) (B : vfs_ops) (s : fs_state) (fd buf len : Nat) : Nat × fs_state :=
  sys_rw K B B.vfs_read s fd buf len

/-- `sys_write(fd, buf, len)`. -/
def sys_write (K : Config) (B : vfs_ops) (s : fs_state) (fd buf len : Nat) : Nat × fs_state :=
  sys_rw K B B.vfs_write s fd buf len

/-- Store a new offset in the handle of slot `fd` and return it, as the end of
`sys_lseek` does. -/
def lseek_set (s : fs_state) (fd : Nat) (h : fd_t) (o : Nat) : Nat × fs_state :=
  (o, { s with task := { s.task with
    fds := Function.update s.task.fds fd (some { h with offset := o }) } })

/-- `sys_lseek(fd, offset, whence)`. -/
def sys_lseek (K : Config) (s : fs_state) (fd offset whence : Nat) : Nat × fs_state :=
  if K.MAX_FD_NUM ≤ fd then (neg_errno K.EBADF, s)
  else
    match s.task.fds fd with
    | none => (neg_errno K.EBADF, s)
    | some h =>
      let real_offset := to_int64 offset
      let node := s.vfs.nodes h.node
      if real_offset < 0 ∧ node.type &&& K.file_none ≠ 0 ∧ whence ≠ K.SEEK_CUR then
        (neg_errno K.EBADF, s)
      else if whence = K.SEEK_SET then lseek_set s fd h (to_u64 real_offset)
      else if whence = K.SEEK_CUR then
        let o1 := (h.offset + to_u64 real_offset) % 2 ^ 64
        if to_int64 o1 < 0 then lseek_set s fd h 0
        else if node.size < o1 then lseek_set s fd h node.size
        else lseek_set s fd h o1
      else if whence = K.SEEK_END then
        lseek_set s fd h ((node.size + (2 ^ 64 - to_u64 real_offset)) % 2 ^ 64)
      else (neg_errno K.ENOSYS, s)

/-- A `struct dirent` record. -/
structure dirent where
  d_ino : Nat
  d_off : Nat
  d_reclen : Nat
  d_type : Nat
  d_name : List Nat
  deriving DecidableEq, Repr

/-- The `d_type` that `sys_getdents` derives from the type flags of a node. -/
def getdents_type (K : Config) (type : Nat) : Nat :=
  if type &&& K.file_symlink ≠ 0 then K.DT_LNK
  else if type &&& K.file_none ≠ 0 then K.DT_REG
  else if type &&& K.file_dir ≠ 0 then K.DT_DIR
  else K.DT_UNKNOWN

/-- The record that `sys_getdents` writes for `child_node` while the handle
offset is `fd_offset`.  `d_name` holds the bytes that `strncpy` copies from the
name, at most 1024; the zero bytes that fill the rest of the field are left
out. -/
def getdents_record (K : Config) (child_node : vfs_node) (fd_offset : Nat) : dirent :=
  { d_ino := child_node.inode, d_off := fd_offset, d_reclen := K.SIZEOF_DIRENT,
    d_type := getdents_type K child_node.type,
    d_name := (child_node.name.toUTF8.data.toList.map UInt8.toNat).take 1024 }

/-- The variables of the loop of `sys_getdents`: the local `offset`, the
offset of the handle, `read_count` and the records written so far. -/
structure getdents_state where
  offset : Nat
  fd_offset : Nat
  read_count : Nat
  dents : List dirent

/-- The `list_foreach` loop of `sys_getdents` over the remaining children. -/
def getdents_loop (K : Config) (v : vfs_t) (child_count : Nat) (max_dents_num : Int) :
    List Nat → getdents_state → getdents_state
  | [], st => st
  | c :: rest, st =>
    if st.offset < st.fd_offset then
      getdents_loop K v child_count max_dents_num rest
        { st with offset := st.offset + K.SIZEOF_DIRENT }
    else if child_count * K.SIZEOF_DIRENT ≤ st.fd_offset then st
    else if max_dents_num ≤ (st.read_count : Int) then st
    else
      getdents_loop K v child_count max_dents_num rest
        { offset := st.offset + K.SIZEOF_DIRENT,
          fd_offset := st.fd_offset + K.SIZEOF_DIRENT,
          read_count := st.read_count + 1,
          dents := st.dents ++ [getdents_record K (v.nodes c) st.fd_offset] }

/-- `sys_getdents(fd, buf, size)`: the return value, the records stored in the
user buffer and the new state. -/
def sys_getdents (K : Config) (B : vfs_ops) (s : fs_state) (fd buf size : Nat) :
    Nat × List dirent × fs_state :=
  if B.check_user_overflow buf size = true then (neg_errno K.EFAULT, [], s)
  else if K.MAX_FD_NUM ≤ fd then (neg_errno K.EBADF, [], s)
  else
    match s.task.fds fd with
    | none => (neg_errno K.EBADF, [], s)
    | some h =>
      let node := s.vfs.nodes h.node
      if node.type &&& K.file_dir = 0 then (neg_errno K.ENOTDIR, [], s)
      else
        let st := getdents_loop K s.vfs node.child.length (to_int64 (size / K.SIZEOF_DIRENT))
          node.child { offset := 0, fd_offset := h.offset, read_count := 0, dents := [] }
        (st.read_count * K.SIZEOF_DIRENT, st.dents,
          { s with task := { s.task with
            fds := Function.update s.task.fds fd (some { h with offset := st.fd_offset }) } })

/-- The acquiring loop of `sys_flock` for the lock of `node`.  `inner` tells
whether control is inside `while (lock->lock)`; each pause there lets the rest
of the system run (`env`). -/
def flock_acquire (K : Config) (env : fs_state → fs_state) (node pid operation : Nat) :
    Nat → Bool → fs_state → Option (Nat × fs_state)
  | 0, _, _ => none
  | n + 1, false, s =>
    let lk := (s.vfs.nodes node).lock
    if lk.l_type ≠ K.F_UNLCK ∧ lk.l_pid ≠ pid then
      if operation &&& K.LOCK_NB ≠ 0 then some (neg_errno K.EWOULDBLOCK, s)
      else flock_acquire K env node pid operation n true s
    else
      let nd := s.vfs.nodes node
      some (0, { s with vfs := { s.vfs with
        nodes := Function.update s.vfs.nodes node
          { nd with lock := { nd.lock with
              l_type := if operation &&& K.LOCK_EX ≠ 0 then K.F_WRLCK else K.F_RDLCK,
              l_pid := pid } } } })
  | n + 1, true, s =>
    if ((s.vfs.nodes node).lock).lock ≠ 0 then
      flock_acquire K env node pid operation n true (env s)
    else flock_acquire K env node pid operation n false s

/-- `sys_flock(fd, operation)` run for at most `fuel` steps of its waiting
loops; `none` when the fuel runs out. -/
def sys_flock (K : Config) (env : fs_state → fs_state) (fuel : Nat) (s : fs_state) (fd : Int)
    (operation : Nat) : Option (Nat × fs_state) :=
  if fd < 0 ∨ (K.MAX_FD_NUM : Int) ≤ fd then some (neg_errno K.EBADF, s)
  else
    match s.task.fds fd.toNat with
    | none => some (neg_errno K.EBADF, s)
    | some h =>
      let pid := s.task.pid
      let op := operation &&& not64 K.LOCK_NB
      if ¬ (op = K.LOCK_SH ∨ op = K.LOCK_EX ∨ op = K.LOCK_UN) then some (neg_errno K.EINVAL, s)
      else if operation &&& K.LOCK_NB ≠ 0 ∧ operation &&& K.LOCK_SH ≠ 0 ∧
          ((s.vfs.nodes h.node).lock).l_type = K.F_WRLCK then
        some (neg_errno K.EWOULDBLOCK, s)
      else if operation &&& K.LOCK_NB ≠ 0 ∧ operation &&& K.LOCK_EX ≠ 0 ∧
          ((s.vfs.nodes h.node).lock).l_type ≠ K.F_UNLCK then
        some (neg_errno K.EWOULDBLOCK, s)
      else if op = K.LOCK_SH ∨ op = K.LOCK_EX then
        flock_acquire K env h.node pid operation fuel false s
      else
        let nd := s.vfs.nodes h.node
        if nd.lock.l_pid ≠ pid then some (neg_errno K.EACCES, s)
        else
          some (0, { s with vfs := { s.vfs with
            nodes := Function.update s.vfs.nodes h.node
              { nd with lock := { l_type := K.F_UNLCK, l_pid := 0, lock := 1 } } } })

/-- The records for the children `cs` in list order, the first one written
while the handle offset is `off`. -/
def getdents_records (K : Config) (v : vfs_t) : Nat → List Nat → List dirent
  | _, [] => []
  | off, c :: cs =>
    getdents_record K (v.nodes c) off :: getdents_records K v (off + K.SIZEOF_DIRENT) cs

/-- Repeated calls of `sys_getdents` with the same arguments, at most `n` of
them, until one returns 0: the records of all calls in order. -/
def getdents_repeat (K : Config) (B : vfs_ops) (fd buf size : Nat) : Nat → fs_state → List dirent
  | 0, _ => []
  | n + 1, s =>
    if (sys_getdents K B s fd buf size).1 = 0 then []
    else (sys_getdents K B s fd buf size).2.1 ++
      getdents_repeat K B fd buf size n (sys_getdents K B s fd buf size).2.2

/-! ## generic.c: futex -/

/-- A record of the futex wait list (`struct futex_wait`); `next` is the
address of the following record, 0 for `NULL`. -/
structure futex_wait where
  uaddr : Nat
  task : Option task_ptr
  next : Nat

/-- The state `sys_futex` works on: the kernel, the address `head` of the
global `futex_wait_list`, the memory holding wait records, the blocks handed
to `free` (most recent first; a freed block keeps its content), and the
`int` words of user memory. -/
structure futex_state where
  k : Kernel
  head : Nat
  mem : Nat → futex_wait
  freed : List Nat
  user_word : Nat → Int

/-- The loop `while (curr && curr->next) curr = curr->next;` of `FUTEX_WAIT`. -/
def futex_tail (mem : Nat → futex_wait) : Nat → Nat → Option Nat
  | 0, _ => none
  | n + 1, curr =>
    if curr ≠ 0 ∧ (mem curr).next ≠ 0 then futex_tail mem n (mem curr).next else some curr

/-- The loop `while (current_task->state == TASK_BLOCKING)` of `FUTEX_WAIT`;
each pause lets the rest of the system run (`env`). -/
def futex_block_wait (env : futex_state → futex_state) : Nat → futex_state → Option futex_state
  | 0, _ => none
  | n + 1, s =>
    match s.k.deref s.k.current_task with
    | none => none
    | some t => if t.state = TASK_BLOCKING then futex_block_wait env n (env s) else some s

/-- The scanning loop of `FUTEX_WAKE`; `curr` and `prev` are addresses (0 for
`NULL`), `count` the counter.  `none` on a `NULL` task pointer or when the
steps run out. -/
def futex_wake_loop (K : Config) (uaddr : Nat) (val : Int) :
    Nat → Nat → Nat → Int → futex_state → Option (Int × futex_state)
  | 0, _, _, _, _ => none
  | n + 1, curr, prev, count, s =>
    if curr = 0 then some (count, s)
    else if (s.mem curr).uaddr = uaddr then
      if count + 1 ≤ val then
        match (s.mem curr).task with
        | none => none
        | some p =>
          match s.k.deref p with
          | none => none
          | some t =>
            let k1 := s.k.store p (task_unblock t K.EOK)
            let mem1 :=
              if prev ≠ 0 then
                Function.update s.mem prev { uaddr := (s.mem prev).uaddr, task := (s.mem prev).task,
                                             next := (s.mem curr).next }
              else s.mem
            futex_wake_loop K uaddr val n (mem1 curr).next curr (count + 1)
              { s with k := k1, mem := mem1, freed := curr :: s.freed }
      else futex_wake_loop K uaddr val n (s.mem curr).next curr (count + 1) s
    else futex_wake_loop K uaddr val n (s.mem curr).next curr count s

/-- `sys_futex(uaddr, op, val, timeout, uaddr2, val3)`; the unused arguments
`uaddr2` and `val3` are left out.  `blk` is the block `malloc` returns (its
`next` field is whatever the memory holds there), `sizeof(int)` is 4 and
`sizeof(struct timespec)` is 16, `timeout` is an address (0 for `NULL`).  Every
loop runs for at most `fuel` steps. -/
def sys_futex (K : Config) (B : vfs_ops) (env : futex_state → futex_state) (fuel blk : Nat)
    (s : futex_state) (uaddr op : Nat) (val : Int) (timeout : Nat) :
    Option (Int × futex_state) :=
  if B.check_user_overflow uaddr 4 = true ∨
      (timeout ≠ 0 ∧ ¬ B.check_user_overflow timeout 16 = true) then
    some (-(K.EFAULT : Int), s)
  else if op &&& K.FUTEX_CMD_MASK = K.FUTEX_WAIT then
    if s.user_word uaddr ≠ val then some (-(K.EWOULDBLOCK : Int), s)
    else if blk = 0 then none
    else
      let mem1 := Function.update s.mem blk
        { uaddr := uaddr, task := some s.k.current_task, next := (s.mem blk).next }
      match futex_tail mem1 fuel s.head with
      | none => none
      | some curr =>
        if curr = 0 then none
        else
          let mem2 := Function.update mem1 curr
            { uaddr := (mem1 curr).uaddr, task := (mem1 curr).task, next := blk }
          match s.k.deref s.k.current_task with
          | none => none
          | some t =>
            let k1 := s.k.store s.k.current_task { t with state := TASK_BLOCKING }
            (futex_block_wait env fuel { s with k := k1, mem := mem2 }).map (fun r => ((0 : Int), r))
  else if op &&& K.FUTEX_CMD_MASK = K.FUTEX_WAKE then
    futex_wake_loop K uaddr val fuel s.head 0 0 s
  else some (-(K.ENOSYS : Int), s)

/-- The addresses of the records reached from `a` by following `next`. -/
def futex_list_from (mem : Nat → futex_wait) : Nat → Nat → List Nat
  | 0, _ => []
  | n + 1, a => if a = 0 then [] else a :: futex_list_from mem n (mem a).next

/-- The wait records reachable from the list head (the head itself left out),
following at most `fuel` links. -/
def futex_records (s : futex_state) (fuel : Nat) : List Nat :=
  futex_list_from s.mem fuel (s.mem s.head).next

/-! ## task.c: timers -/

/-- A `struct timeval`; both fields are signed 64-bit. -/
structure timeval where
  tv_sec : Int
  tv_usec : Int
  deriving DecidableEq, Repr

/-- A `struct itimerval`. -/
structure itimerval where
  it_interval : timeval
  it_value : timeval
  deriving DecidableEq, Repr

/-- The fields of `struct sigevent` that `sys_timer_create` copies. -/
structure sigevent where
  sigev_signo : Nat
  sigev_value : Nat
  sigev_notify : Nat
  deriving DecidableEq, Repr

/-- `ms_to_timeval(ms, tv)`: the value written to `*tv`. -/
def ms_to_timeval (ms : Nat) : timeval :=
  { tv_sec := to_int64 (ms / 1000), tv_usec := to_int64 (ms % 1000 * 1000) }

/-- `timeval_to_ms(tv)`, in 64-bit unsigned arithmetic; the division of the
signed `tv_usec` truncates. -/
def timeval_to_ms (tv : timeval) : Nat :=
  (to_u64 tv.tv_sec * 1000 + to_u64 (Int.tdiv tv.tv_usec 1000)) % 2 ^ 64

/-- `sys_setitimer(which, value, old)` for the running task `t` at the value
`jiffies` of the global counter.  `value` is `none` for a `NULL` pointer, `old`
tells whether the output pointer is non-null; the third component of the result
is what is written to `*old`. -/
def sys_setitimer (K : Config) (jiffies : Nat) (t : task_t) (which : Int)
    (value : Option itimerval) (old : Bool) : Nat × task_t × Option itimerval :=
  if which ≠ 0 then (neg_errno K.ENOSYS, t, none)
  else
    let rt_at := t.itimer_real.at_
    let rt_reset := t.itimer_real.reset
    let out :=
      if old then
        let realValue := (rt_at + 2 ^ 64 - jiffies % 2 ^ 64) % 2 ^ 64
        some { it_value := ms_to_timeval realValue, it_interval := ms_to_timeval rt_reset }
      else none
    match value with
    | none => (0, t, out)
    | some v =>
      let targValue := timeval_to_ms v.it_value
      let targInterval := timeval_to_ms v.it_interval
      let at1 := if targValue ≠ 0 then (jiffies + targValue) % 2 ^ 64 else 0
      (0, { t with itimer_real := { at_ := at1, reset := targInterval } }, out)

/-- The slot search of `sys_timer_create`: `n` slots left from index `i`; the
first null slot, if there is one. -/
def timer_scan (timers : Nat → Option kernel_timer_t) : Nat → Nat → Option Nat
  | 0, _ => none
  | n + 1, i => if timers i = none then some i else timer_scan timers n (i + 1)

/-- `sys_timer_create(clockid, sevp, timerid)` for the running task `t`;
`mem_ok` tells whether `malloc` returns a block, `sevp` is `none` for a `NULL`
pointer, and the third component of the result is what is written to
`*timerid`. -/
def sys_timer_create (K : Config) (mem_ok : Bool) (t : task_t) (clockid : Nat)
    (sevp : Option sigevent) : Int × task_t × Option Nat :=
  match timer_scan t.timers K.MAX_TIMERS_NUM 0 with
  | none => (-(K.ENOMEM : Int), t, none)
  | some i =>
    if mem_ok then
      let kt : kernel_timer_t :=
        match sevp with
        | none =>
          { clock_type := clockid, sigev_signo := 0, sigev_value := 0,
            sigev_notify := K.SIGEV_SIGNAL, expires := 0, interval := 0 }
        | some ksev =>
          { clock_type := clockid, sigev_signo := ksev.sigev_signo,
            sigev_value := ksev.sigev_value, sigev_notify := ksev.sigev_notify, expires := 0,
            interval := 0 }
      (0, { t with timers := Function.update t.timers i (some kt) }, some i)
    else (-(K.ENOMEM : Int), t, none)

/-- `sys_timer_settime(timerid, new_value, old_value)` for the running task `t`
at the value `jiffies` of the global counter; `old_value` tells whether the
output pointer is non-null.  `none` when the timer slot is null (the code
dereferences it). -/
def sys_timer_settime (K : Config) (jiffies : Nat) (t : task_t) (timerid : Nat)
    (new_value : itimerval) (old_value : Bool) : Option (Int × task_t × Option itimerval) :=
  if K.MAX_TIMERS_NUM ≤ timerid then some (-(K.EINVAL : Int), t, none)
  else
    match t.timers timerid with
    | none => none
    | some kt =>
      let now := jiffies
      let interval := to_u64 (new_value.it_interval.tv_sec * 1000 +
        Int.tdiv new_value.it_interval.tv_usec 1000000)
      let expires := to_u64 (new_value.it_value.tv_sec * 1000 +
        Int.tdiv new_value.it_value.tv_usec 1000000)
      let left := (kt.expires + 2 ^ 64 - now % 2 ^ 64) % 2 ^ 64
      let out : Option itimerval :=
        if old_value then
          some { it_interval := { tv_sec := to_int64 (kt.interval / 1000),
                                  tv_usec := to_int64 (kt.interval % 1000 * 1000000) },
                 it_value := { tv_sec := to_int64 (left / 1000),
                               tv_usec := to_int64 (left % 1000 * 1000000) } }
        else none
      let kt1 : kernel_timer_t :=
        { kt with interval := interval, expires := (now + expires) % 2 ^ 64 }
      some (0, { t with timers := Function.update t.timers timerid (some kt1) }, out)

/-! ## task.c: exec -/

/-- How `task_execve` ends: it returns `ret` to its caller, or it enters user
mode at `entry` (`arch_to_user_mode`), in the kernel state `k`. -/
inductive exec_result where
  | returned (ret : Nat) (k : Kernel)
  | user_mode (entry : Nat) (k : Kernel)

/-- The loop `while (execve_lock)` at the entry of `task_execve`; each pause
lets the rest of the system run (`env`). -/
def execve_wait (env : Kernel → Kernel) : Nat → Kernel → Option Kernel
  | 0, _ => none
  | n + 1, k => if k.execve_lock = true then execve_wait env n (env k) else some k

/-- The counting loops over `argv` and `envp`: `n` entries of the copy left
from index `i`; the index of the first `NULL` entry.  `none` when the copy would
run past its buffer. -/
def count_args (a : Nat → Option String) : Nat → Nat → Option Nat
  | 0, _ => none
  | n + 1, i => if a i = none then some i else count_args a n (i + 1)

/-- The strings of the first `count` entries of a pointer array. -/
def arg_list (a : Nat → Option String) (count : Nat) : List String :=
  (List.range count).filterMap a

/-- The loop `for (i = 0; i < argv_count; i++) argvs[i + 2] = argv[i];`: `n`
rounds left from index `i`. -/
def shebang_fill (argv : Nat → Option String) :
    Nat → Nat → (Nat → Option String) → (Nat → Option String)
  | 0, _, argvs => argvs
  | n + 1, i, argvs => shebang_fill argv n (i + 1) (Function.update argvs (i + 2) (argv i))

/-- The array `argvs` that the `#!` branch of `task_execve` passes on: cleared,
entries 0 and 1 set, the `argv_count` entries of `argv` copied from index 2,
and `argvs[i] = NULL` at the final value `argv_count` of `i`. -/
def shebang_argv (path : String) (argv : Nat → Option String) (argv_count : Nat) :
    Nat → Option String :=
  let argvs0 : Nat → Option String := fun _ => none
  let argvs1 := Function.update argvs0 0 (some "/bin/sh")
  let argvs2 := Function.update argvs1 1 (some path)
  let argvs3 := shebang_fill argv argv_count 0 argvs2
  Function.update argvs3 argv_count none

/-- The values the program-header loop of `task_execve` carries. -/
structure load_state where
  load_start : Nat
  load_end : Nat
  interpreter_entry : Nat
  vfs : vfs_t

/-- The program-header loop of `task_execve`, in 64-bit arithmetic; page
mappings and segment copies are outside the model.  `Except.error v` when an
interpreter cannot be opened (the function then returns `-ENOENT`). -/
def execve_phdrs (K : Config) (B : vfs_ops) (img : exec_image) :
    List elf_phdr → load_state → Except vfs_t load_state
  | [], st => .ok st
  | ph :: rest, st =>
    if ph.p_type = K.PT_INTERP then
      match B.vfs_open st.vfs (img.string_at ph.p_offset) with
      | none => .error st.vfs
      | some interpreter_node =>
        let interpreter_ehdr := B.vfs_image st.vfs interpreter_node
        execve_phdrs K B img rest
          { st with
            vfs := vfs_close st.vfs interpreter_node,
            interpreter_entry := (K.INTERPRETER_BASE_ADDR + interpreter_ehdr.e_entry) % 2 ^ 64 }
    else if ph.p_type ≠ K.PT_LOAD then execve_phdrs K B img rest st
    else
      let seg_addr := ph.p_vaddr
      let seg_size := ph.p_memsz
      let page_mask := (K.DEFAULT_PAGE_SIZE + 2 ^ 64 - 1) % 2 ^ 64
      let aligned_addr := seg_addr &&& not64 page_mask
      let size_diff := (seg_addr + 2 ^ 64 - aligned_addr) % 2 ^ 64
      let alloc_size := ((seg_size + size_diff + page_mask) % 2 ^ 64) &&& not64 page_mask
      if aligned_addr < st.load_start then
        execve_phdrs K B img rest { st with load_start := aligned_addr }
      else if (aligned_addr + alloc_size) % 2 ^ 64 > st.load_end then
        execve_phdrs K B img rest { st with load_end := (aligned_addr + alloc_size) % 2 ^ 64 }
      else execve_phdrs K B img rest st

/-- The close-on-exec loop of `task_execve`: `n` slots left from index `i`. -/
def execve_close_fds (K : Config) :
    Nat → Nat → (Nat → Option fd_t) → vfs_t → (Nat → Option fd_t) × vfs_t
  | 0, _, fds, v => (fds, v)
  | n + 1, i, fds, v =>
    match fds i with
    | none => execve_close_fds K n (i + 1) fds v
    | some h =>
      if h.flags &&& K.O_CLOEXEC ≠ 0 then
        execve_close_fds K n (i + 1) (Function.update fds i none) (vfs_close v h.node)
      else execve_close_fds K n (i + 1) fds v

/-- The part of `task_execve` after the `#!` test: the ELF checks, the
program-header loop, and the update of the running task.  `k` is the state
after the file was read and closed, `fullpath` its resolved path, `new_argv`
the copied argument strings.  `none` when `current_task` is a null pointer or
the command line does not fit its page-sized buffer. -/
def execve_load (K : Config) (B : vfs_ops) (k : Kernel) (img : exec_image) (fullpath : String)
    (new_argv : List String) : Option exec_result :=
  if img.e_entry = 0 then
    some (.returned (neg_errno K.EINVAL) { k with can_schedule := true, execve_lock := false })
  else if img.arch_ok = false then
    some (.returned (neg_errno K.EINVAL) { k with can_schedule := true, execve_lock := false })
  else
    match execve_phdrs K B img img.phdrs
        { load_start := 2 ^ 64 - 1, load_end := 0, interpreter_entry := 0, vfs := k.vfs } with
    | .error v =>
      some (.returned (neg_errno K.ENOENT)
        { k with vfs := v, can_schedule := true, execve_lock := false })
    | .ok st =>
      match k.deref k.current_task with
      | none => none
      | some t =>
        let cmdline := String.join (new_argv.map (fun a => a ++ " "))
        if K.DEFAULT_PAGE_SIZE ≤ cmdline.utf8ByteSize then none
        else
          let closed := execve_close_fds K (K.MAX_FD_NUM - 3) 3 t.fds st.vfs
          let t1 : task_t :=
            { t with name := fullpath.take K.TASK_NAME_MAX, fds := closed.1, cmdline := cmdline,
                     load_start := st.load_start, load_end := st.load_end }
          let k1 : Kernel :=
            { k.store k.current_task t1 with
              vfs := closed.2, execve_lock := false, can_schedule := true }
          some (.user_mode
            (if st.interpreter_entry ≠ 0 then st.interpreter_entry else img.e_entry) k1)

/-- The body of `task_execve` once the waiting loop is left, in the state `k0`;
`reenter` stands for the call of `task_execve` itself in the `#!` branch. -/
def execve_body (K : Config) (B : vfs_ops)
    (reenter : Kernel → String → Option (Nat → Option String) → Option (Nat → Option String) →
      Option exec_result)
    (k0 : Kernel) (path : String) (argv envp : Option (Nat → Option String)) :
    Option exec_result :=
  let k1 : Kernel := { k0 with can_schedule := false, execve_lock := true }
  match B.vfs_open k1.vfs path with
  | none =>
    some (.returned (neg_errno K.ENOENT) { k1 with can_schedule := true, execve_lock := false })
  | some node =>
    let argv_count :=
      match argv with
      | none => some 0
      | some a => count_args a 128 0
    let envp_count :=
      match envp with
      | none => some 0
      | some e => count_args e 128 0
    match argv_count, envp_count with
    | some argv_count, some _ =>
      let new_argv := arg_list (argv.getD (fun _ => none)) argv_count
      let img := B.vfs_image k1.vfs node
      let fullpath := B.vfs_get_fullpath k1.vfs node
      let k2 : Kernel := { k1 with vfs := vfs_close k1.vfs node }
      if img.byte0 = 35 ∧ img.byte1 = 33 then
        if 64 < argv_count + 2 then none
        else
          reenter { k2 with execve_lock := false } "/bin/sh"
            (some (shebang_argv path (argv.getD (fun _ => none)) argv_count)) envp
      else execve_load K B k2 img fullpath new_argv
    | _, _ => none

/-- `task_execve(path, argv, envp)`.  `argv` and `envp` are `none` for a `NULL`
pointer and otherwise arrays of string pointers (`none` for a `NULL` entry);
every non-null pointer is taken to be mapped.  The copies `new_argv` and
`new_envp` have room for 128 pointers, `argvs` for 64.  `fuel` bounds the waiting
loop and the number of `#!` re-entries; `none` when it runs out or the code
writes outside an array or dereferences a null pointer. -/
def task_execve (K : Config) (B : vfs_ops) (env : Kernel → Kernel) :
    Nat → Kernel → String → Option (Nat → Option String) → Option (Nat → Option String) →
      Option exec_result
  | 0, _, _, _, _ => none
  | fuel + 1, k, path, argv, envp =>
    match execve_wait env (fuel + 1) k with
    | none => none
    | some k0 => execve_body K B (task_execve K B env fuel) k0 path argv envp

/-! ## task.c: task creation -/

/-- A `task_t` after `memset(.., 0, sizeof(task_t))`. -/
def zero_task (K : Config) : task_t :=
  { pid := 0, ppid := 0, pgid := 0, waitpid := 0, state := K.TASK_STATE_ZERO, status := 0,
    cpu_id := 0, jiffies := 0, fds := fun _ => none, signal := 0,
    itimer_real := { at_ := 0, reset := 0 }, timers := fun _ => none, load_start := 0,
    load_end := 0, name := "", cmdline := "" }

/-- The two search loops of `get_free_task`: `n` slots left from index `i`; the
first null slot, if there is one. -/
def slot_scan (a : Nat → Option task_t) : Nat → Nat → Option Nat
  | 0, _ => none
  | n + 1, i =>
    match a i with
    | none => some i
    | some _ => slot_scan a n (i + 1)

/-- `get_free_task()`: the pointer returned (`none` for `NULL`) and the state
left; `malloc` is taken to succeed. -/
def get_free_task (K : Config) (k : Kernel) : Option task_ptr × Kernel :=
  match slot_scan k.idle_tasks k.cpu_count 0 with
  | some i => (some (.idle i), k.store (.idle i) { zero_task K with pid := 0 })
  | none =>
    match slot_scan k.tasks (K.MAX_TASK_NUM - 1) 1 with
    | some i => (some (.task i), k.store (.task i) { zero_task K with pid := i })
    | none => (none, k)

/-- `alloc_cpu_id()`, in 32-bit arithmetic. -/
def alloc_cpu_id (k : Kernel) : Nat × Kernel :=
  (k.cpu_idx, { k with cpu_idx := (k.cpu_idx + 1) % 2 ^ 32 % k.cpu_count })

/-- The three standard descriptors that `task_create`, `task_fork` and
`sys_clone` install in a cleared table: fresh handles on the nodes that
`vfs_open` gives (0 for `NULL`), with offset 0 and flags 0. -/
def std_fds (B : vfs_ops) (v : vfs_t) : Nat → Option fd_t :=
  let fds0 : Nat → Option fd_t := fun _ => none
  let fds1 := Function.update fds0 0
    (some { node := (B.vfs_open v "/dev/stdin").getD 0, offset := 0, flags := 0 })
  let fds2 := Function.update fds1 1
    (some { node := (B.vfs_open v "/dev/stdout").getD 0, offset := 0, flags := 0 })
  Function.update fds2 2
    (some { node := (B.vfs_open v "/dev/stderr").getD 0, offset := 0, flags := 0 })

/-- `task_create(name, entry, arg)`: the task pointer returned and the state
left.  Stacks, the arch context, termios, rlimits and the socket hook are
outside the model.  `none` when the code dereferences a null pointer. -/
def task_create (K : Config) (B : vfs_ops) (k : Kernel) (name : String) :
    Option (task_ptr × Kernel) :=
  let k0 : Kernel := { k with can_schedule := false }
  match get_free_task K k0 with
  | (none, _) => none
  | (some p, k1) =>
    let k2 := (alloc_cpu_id k1).2
    match k2.deref p with
    | none => none
    | some task =>
      let task1 : task_t :=
        { task with cpu_id := (alloc_cpu_id k1).1, ppid := task.pid, pgid := 0, waitpid := 0,
                    state := TASK_READY, jiffies := 0, signal := 0, status := 0,
                    fds := std_fds B k2.vfs, name := name.take K.TASK_NAME_MAX, cmdline := "" }
      some (p, { k2.store p task1 with can_schedule := true })

/-- The descriptor loop of `task_fork` and `sys_clone`: `n` slots left from
index `i`; `parent` is the table of the running task. -/
def fork_dup_fds (B : vfs_ops) (v : vfs_t) (parent : Nat → Option fd_t) :
    Nat → Nat → (Nat → Option fd_t) → (Nat → Option fd_t)
  | 0, _, fds => fds
  | n + 1, i, fds =>
    fork_dup_fds B v parent n (i + 1)
      (Function.update fds i
        (match parent i with
         | some fd => B.vfs_dup v fd
         | none => none))

/-- `task_fork(regs, vfork)`: the value returned and the state left.  Stacks,
the arch context, credentials, termios, rlimits and the socket hook are outside
the model.  `none` when the code dereferences a null pointer. -/
def task_fork (K : Config) (B : vfs_ops) (k : Kernel) (vfork : Bool) : Option (Nat × Kernel) :=
  let k0 : Kernel := { k with can_schedule := false }
  match get_free_task K k0 with
  | (none, k1) => some (neg_errno K.ENOMEM, { k1 with can_schedule := true })
  | (some p, k1) =>
    match k1.deref k1.current_task, k1.deref p with
    | some cur, some child =>
      let k2 := (alloc_cpu_id k1).2
      let fds0 := std_fds B k2.vfs
      let fds1 :=
        if vfork = true then fds0 else fork_dup_fds B k2.vfs cur.fds (K.MAX_FD_NUM - 3) 3 fds0
      let child1 : task_t :=
        { child with name := cur.name.take K.TASK_NAME_MAX, state := TASK_READY,
                     cpu_id := (alloc_cpu_id k1).1, ppid := cur.pid, pgid := cur.pgid,
                     jiffies := cur.jiffies, cmdline := cur.cmdline,
                     load_start := cur.load_start, load_end := cur.load_end, fds := fds1,
                     signal := cur.signal }
      some (child1.pid, { k2.store p child1 with can_schedule := true })
    | _, _ => none

/-- `sys_clone(regs, flags, newsp, parent_tid, child_tid, tls)`: the value
returned and the state left.  Of the arguments only `flags` acts on the
modelled state; the words written through `parent_tid` and `child_tid` are
outside the model.  `none` when the code dereferences a null pointer. -/
def sys_clone (K : Config) (B : vfs_ops) (k : Kernel) (flags : Nat) : Option (Nat × Kernel) :=
  let k0 : Kernel := { k with can_schedule := false }
  match get_free_task K k0 with
  | (none, k1) => some (neg_errno K.ENOMEM, k1)
  | (some p, k1) =>
    match k1.deref k1.current_task, k1.deref p with
    | some cur, some child =>
      let k2 := (alloc_cpu_id k1).2
      let fds1 := fork_dup_fds B k2.vfs cur.fds (K.MAX_FD_NUM - 3) 3 (std_fds B k2.vfs)
      let child1 : task_t :=
        { child with name := cur.name.take K.TASK_NAME_MAX, state := TASK_READY,
                     cpu_id := (alloc_cpu_id k1).1, ppid := cur.pid, pgid := cur.pgid,
                     jiffies := cur.jiffies, cmdline := cur.cmdline,
                     load_start := cur.load_start, load_end := cur.load_end, fds := fds1,
                     signal := if flags &&& K.CLONE_SIGHAND ≠ 0 then cur.signal else child.signal }
      some (child1.pid, { k2.store p child1 with can_schedule := true })
    | _, _ => none

/-! ## task.c: timer tick -/

/-- The inner loop of `sched_update_itimer` for the task `t` found in slot `i`:
`n` timers left from index `j`.  The test reads `timers[i]`, the timer used is
`timers[j]`; `none` when that one is a null pointer.  The timerfd bookkeeping
of the loop acts on objects outside the model. -/
def itimer_timers_loop (K : Config) (jiffies i : Nat) : Nat → Nat → task_t → Option task_t
  | 0, _, t => some t
  | n + 1, j, t =>
    if t.timers i = none then itimer_timers_loop K jiffies i n (j + 1) t
    else
      match t.timers j with
      | none => none
      | some kt =>
        if kt.expires ≠ 0 ∧ kt.expires ≤ jiffies then
          let kt1 : kernel_timer_t :=
            { kt with expires := if kt.interval ≠ 0 then (kt.expires + kt.interval) % 2 ^ 64 else 0 }
          itimer_timers_loop K jiffies i n (j + 1)
            { t with signal := t.signal ||| K.SIGMASK kt.sigev_signo,
                     timers := Function.update t.timers j (some kt1) }
        else itimer_timers_loop K jiffies i n (j + 1) t

/-- What `sched_update_itimer` does to the real timer of one task. -/
def itimer_real_tick (K : Config) (jiffies : Nat) (ptr : task_t) : task_t :=
  let rtAt := ptr.itimer_real.at_
  let rtReset := ptr.itimer_real.reset
  if rtAt ≠ 0 ∧ rtAt ≤ jiffies then
    let p1 : task_t := { ptr with signal := ptr.signal ||| K.SIGMASK K.SIGALRM }
    let p2 : task_t := if p1.state = TASK_BLOCKING then task_unblock p1 K.EOK else p1
    { p2 with itimer_real :=
        { at_ := if rtReset ≠ 0 then (jiffies + rtReset) % 2 ^ 64 else 0, reset := rtReset } }
  else ptr

/-- The outer loop of `sched_update_itimer`: `n` slots left from index `i`. -/
def sched_update_itimer_loop (K : Config) (jiffies : Nat) : Nat → Nat → Kernel → Option Kernel
  | 0, _, k => some k
  | n + 1, i, k =>
    match k.tasks i with
    | none => some k
    | some ptr =>
      match itimer_timers_loop K jiffies i K.MAX_TIMERS_NUM 0 (itimer_real_tick K jiffies ptr) with
      | none => none
      | some ptr1 =>
        sched_update_itimer_loop K jiffies n (i + 1)
          { k with tasks := Function.update k.tasks i (some ptr1) }

/-- `sched_update_itimer()` at the value `jiffies` of the global counter;
`none` when the code dereferences a null timer. -/
def sched_update_itimer (K : Config) (jiffies : Nat) (k : Kernel) : Option Kernel :=
  sched_update_itimer_loop K jiffies (K.MAX_TASK_NUM - 1) 1 k

/-! ## task.c: initialisation -/

/-- The loop of `task_init` over the CPUs: `n` CPUs left from index `cpu`.  The
pointer that `task_create` returns is stored in `idle_tasks[cpu]`, and the task
is then written through that slot; in every run of the loop the pointer is the
slot `cpu` itself, which `get_free_task` has just filled. -/
def task_init_loop (K : Config) (B : vfs_ops) : Nat → Nat → Kernel → Option Kernel
  | 0, _, k => some k
  | n + 1, cpu, k =>
    match task_create K B k "idle" with
    | none => none
    | some (p, k1) =>
      match k1.deref p with
      | none => none
      | some t =>
        task_init_loop K B n (cpu + 1)
          (k1.store (.idle cpu) { t with cpu_id := cpu, state := TASK_RUNNING })

/-- `task_init()`, from any state `k0` of the memory at boot.  `none` when
`task_create` dereferences a null pointer. -/
def task_init (K : Config) (B : vfs_ops) (k0 : Kernel) : Option Kernel :=
  let k : Kernel := { k0 with tasks := fun _ => none, idle_tasks := fun _ => none }
  match task_init_loop K B k.cpu_count 0 k with
  | none => none
  | some k1 =>
    match task_create K B { k1 with current_task := .idle 0 } "init" with
    | none => none
    | some r => some { r.2 with can_schedule := true }

/-! ## task.c: the initial user stack -/

/-- User memory after `memcpy(addr, bs, len)`: a map from addresses to bytes. -/
def write_bytes (mem : Nat → Nat) (addr : Nat) (bs : List Nat) : Nat → Nat :=
  fun a => if addr ≤ a ∧ a < addr + bs.length then bs.getD (a - addr) 0 else mem a

/-- The `n` bytes of user memory from `addr` upward. -/
def read_bytes (mem : Nat → Nat) (addr n : Nat) : List Nat :=
  (List.range n).map (fun i => mem (addr + i))

/-- The eight bytes of a `uint64_t` in memory (little-endian). -/
def word_bytes (w : Nat) : List Nat :=
  (List.range 8).map (fun i => w / 256 ^ i % 256)

/-- The bytes of a C string, the terminating 0 included: `strlen(s) + 1` bytes. -/
def cstring (s : String) : List Nat :=
  s.toUTF8.data.toList.map UInt8.toNat ++ [0]

/-- `push_slice(ustack, slice, len)` with `slice` the `len` bytes copied: the
address returned and the memory left, in 64-bit arithmetic. -/
def push_slice (mem : Nat → Nat) (ustack : Nat) (slice : List Nat) : Nat × (Nat → Nat) :=
  let tmp_stack := (ustack + 2 ^ 64 - slice.length % 2 ^ 64) % 2 ^ 64
  (tmp_stack - tmp_stack % 8, write_bytes mem (tmp_stack - tmp_stack % 8) slice)

/-- The loops of `push_infos` that push the strings of `envp` and of `argv`:
the stack pointer, the memory, and the addresses recorded in `envps` or
`argvps`, in order. -/
def push_strings : List String → Nat → (Nat → Nat) → List Nat → Nat × (Nat → Nat) × List Nat
  | [], sp, mem, ptrs => (sp, mem, ptrs)
  | s :: rest, sp, mem, ptrs =>
    push_strings rest (push_slice mem sp (cstring s)).1 (push_slice mem sp (cstring s)).2
      (ptrs ++ [(push_slice mem sp (cstring s)).1])

/-- A run of `push_slice` calls, one after the other, for the slices `ls`. -/
def push_list : List (List Nat) → Nat → (Nat → Nat) → Nat × (Nat → Nat)
  | [], sp, mem => (sp, mem)
  | sl :: rest, sp, mem => push_list rest (push_slice mem sp sl).1 (push_slice mem sp sl).2

/-- The slices that `push_infos` pushes after the alignment, in the order of
the calls: the terminator pair, the seven pairs of the auxiliary vector, a null
word, the array `envps`, a null word, the array `argvps`, and `argc`.
`sizeof(Elf64_Phdr)` is 56. -/
def vector_slices (K : Config) (argvps envps : List Nat)
    (argv_i execfn_ptr e_entry phdr phnum at_base : Nat) : List (List Nat) :=
  [word_bytes 0 ++ word_bytes 0,
   word_bytes K.AT_PHDR ++ word_bytes phdr,
   word_bytes K.AT_PHENT ++ word_bytes 56,
   word_bytes K.AT_PHNUM ++ word_bytes phnum,
   word_bytes K.AT_ENTRY ++ word_bytes e_entry,
   word_bytes K.AT_EXECFN ++ word_bytes execfn_ptr,
   word_bytes K.AT_BASE ++ word_bytes at_base,
   word_bytes K.AT_PAGESZ ++ word_bytes K.DEFAULT_PAGE_SIZE,
   word_bytes 0,
   envps.flatMap word_bytes,
   word_bytes 0,
   argvps.flatMap word_bytes,
   word_bytes argv_i]

/-- The part of `push_infos` after the alignment of the stack pointer `sp`. -/
def push_vectors (K : Config) (mem : Nat → Nat) (sp : Nat) (argvps envps : List Nat)
    (argv_i execfn_ptr e_entry phdr phnum at_base : Nat) : Nat × (Nat → Nat) :=
  push_list (vector_slices K argvps envps argv_i execfn_ptr e_entry phdr phnum at_base) sp mem

/-- `push_infos(task, current_stack, argv, envp, e_entry, phdr, phnum,
at_base)`: the stack pointer returned and the user memory left.  A `NULL`
`argv` or `envp` is the empty list.  `none` when more than 128 strings are
given, for which the code writes past the arrays `envps` and `argvps`. -/
def push_infos (K : Config) (mem : Nat → Nat) (task : task_t) (current_stack : Nat)
    (argv envp : List String) (e_entry phdr phnum at_base : Nat) :
    Option (Nat × (Nat → Nat)) :=
  if 128 < envp.length ∨ 128 < argv.length then none
  else
    let r0 := push_slice mem current_stack (cstring task.name)
    let execfn_ptr := r0.1
    let re := push_strings envp r0.1 r0.2 []
    let ra := push_strings argv re.1 re.2.1 []
    let env_i := envp.length
    let argv_i := argv.length
    let total_length := 2 * 8 + 7 * 2 * 8 + (env_i + 0) * 8 + 8 + (argv_i + 0) * 8 + 8 + 8
    let tmp_stack :=
      (ra.1 + 2 ^ 64 - (ra.1 + 2 ^ 64 - total_length) % 2 ^ 64 % 16) % 2 ^ 64
    some (push_vectors K ra.2.1 tmp_stack ra.2.2 re.2.2 argv_i execfn_ptr e_entry phdr phnum
      at_base)

/-! ## Specification vocabulary -/

/-- The child test of `sys_waitpid`: `t` is not self-parented and its parent
is `cur`. -/
def is_child_of (cur t : task_t) : Prop := t.pid ≠ t.ppid ∧ t.ppid = cur.pid

instance (cur t : task_t) : Decidable (is_child_of cur t) := by
  unfold is_child_of; infer_instance

/-- The selector semantics of the specification: `-1` any child, `0` any child
in the caller's process group, any other value the child with that PID. -/
def selector_matches (cur : task_t) (pid : Nat) (t : task_t) : Prop :=
  pid = UINT64_MINUS_ONE ∨ (pid = 0 ∧ t.pgid = cur.pgid) ∨
    (pid ≠ 0 ∧ pid ≠ UINT64_MINUS_ONE ∧ t.pid = pid)

instance (cur : task_t) (pid : Nat) (t : task_t) : Decidable (selector_matches cur pid t) := by
  unfold selector_matches; infer_instance

/-- A configuration with the Linux values of the ABI constants and small
tables. -/
def sample_config : Config :=
  { MAX_TASK_NUM := 16, MAX_FD_NUM := 16, EOK := 0, ENOENT := 2, EBADF := 9, ECHILD := 10,
    EINVAL := 22, EMFILE := 24, ENOSPC := 28, WNOHANG := 1, O_CREAT := 64,
    O_DIRECTORY := 65536, O_CLOEXEC := 524288, F_UNLCK := 2,
    EFAULT := 14, EISDIR := 21, ENOTDIR := 20, ENOSYS := 38, EAGAIN := 11, EWOULDBLOCK := 11,
    EACCES := 13, O_APPEND := 1024, O_DIRECT := 16384, O_NOATIME := 262144, O_NONBLOCK := 2048,
    F_DUPFD := 0, F_GETFD := 1, F_SETFD := 2, F_GETFL := 3, F_SETFL := 4,
    F_DUPFD_CLOEXEC := 1030, F_RDLCK := 0, F_WRLCK := 1,
    LOCK_SH := 1, LOCK_EX := 2, LOCK_NB := 4, LOCK_UN := 8,
    SEEK_SET := 0, SEEK_CUR := 1, SEEK_END := 2,
    file_none := 1, file_dir := 2, file_symlink := 4, file_socket := 128,
    DT_UNKNOWN := 0, DT_DIR := 4, DT_REG := 8, DT_LNK := 10, SIZEOF_DIRENT := 1048,
    ENOMEM := 12, FUTEX_CMD_MASK := 127, FUTEX_WAIT := 0, FUTEX_WAKE := 1, MAX_TIMERS_NUM := 8,
    SIGEV_SIGNAL := 0, CLONE_SIGHAND := 2048, PT_LOAD := 1, PT_INTERP := 3,
    DEFAULT_PAGE_SIZE := 4096, INTERPRETER_BASE_ADDR := 549755813888, TASK_NAME_MAX := 128,
    TASK_STATE_ZERO := TASK_READY, SIGALRM := 14, SIGMASK := fun sig => 2 ^ (sig - 1),
    AT_PHDR := 3, AT_PHENT := 4, AT_PHNUM := 5, AT_ENTRY := 9, AT_EXECFN := 31, AT_BASE := 7,
    AT_PAGESZ := 6 }

/-- A task with every field zero and no open descriptor. -/
def blank_task : task_t :=
  { pid := 0, ppid := 0, pgid := 0, waitpid := 0, state := TASK_READY, status := 0,
    cpu_id := 0, jiffies := 0, fds := fun _ => none, signal := 0,
    itimer_real := { at_ := 0, reset := 0 }, timers := fun _ => none, load_start := 0,
    load_end := 0, name := "", cmdline := "" }

/-- A VFS with unlocked nodes and two names. -/
def sample_vfs : vfs_t :=
  { nodes := fun _ =>
      { type := 1, refcount := 1, lock := { l_type := 2, l_pid := 0, lock := 0 },
        inode := 0, size := 0, name := "", child := [] },
    dentries := [("/a", 40), ("/b", 41)] }

/-- A backend that resolves names through `dentries`, cannot create files,
copies handles and transfers every byte asked for. -/
def sample_ops : vfs_ops :=
  { vfs_open := fun v name => v.dentries.lookup name,
    vfs_mkdir := fun v _ => (-1, v),
    vfs_mkfile := fun v _ => (-1, v),
    vfs_dup := fun _ h => some h,
    vfs_read := fun v _ _ _ len => ((len : Int), v),
    vfs_write := fun v _ _ _ len => ((len : Int), v),
    socket_on_dup_file := fun v _ _ => v,
    check_user_overflow := fun addr len => decide (2 ^ 47 ≤ addr + len),
    vfs_get_fullpath := fun v n => (v.nodes n).name,
    vfs_image := fun _ _ =>
      { byte0 := 0, byte1 := 0, e_entry := 0, arch_ok := false, phdrs := [],
        string_at := fun _ => "" } }

/-- A backend like `sample_ops` whose `vfs_dup` fails. -/
def failing_dup_ops : vfs_ops := { sample_ops with vfs_dup := fun _ _ => none }

/-- A task table from a list of `(slot, task)` pairs. -/
def table_of (l : List (Nat × task_t)) : Nat → Option task_t := fun i => l.lookup i

/-- A kernel state with the given task table and running task. -/
def kernel_of (l : List (Nat × task_t)) (cur : Nat) : Kernel :=
  { tasks := table_of l, idle_tasks := fun _ => none, current_task := .task cur,
    current_cpu_id := 0, vfs := sample_vfs, cpu_count := 1, cpu_idx := 0,
    can_schedule := true, execve_lock := false }

/-- A descriptor state of task 1 with slots 0 to 3 taken and the rest free. -/
def sample_fs : fs_state :=
  { task := { blank_task with
                pid := 1, fds := fun i => if i ≤ 3 then some ⟨7, 0, 0⟩ else none },
    vfs := sample_vfs }

/-- A VFS in which node 50 is a directory with the children 51 (regular
file), 52 (symlink) and 53 (directory); the inode of a node is its number. -/
def sample_dir_vfs : vfs_t :=
  { nodes := fun i =>
      { type := if i = 50 ∨ i = 53 then 2 else if i = 52 then 4 else 1, refcount := 1,
        lock := { l_type := 2, l_pid := 0, lock := 0 }, inode := i, size := 0, name := "n",
        child := if i = 50 then [51, 52, 53] else [] },
    dentries := [] }

/-- A descriptor state of task 1 whose descriptor 3 is the directory 50 at
offset 0. -/
def sample_dir_fs : fs_state :=
  { task := { blank_task with pid := 1, fds := fun i => if i = 3 then some ⟨50, 0, 0⟩ else none },
    vfs := sample_dir_vfs }

/-- The state `sample_fs` in which every node has size 100. -/
def sample_sized_fs : fs_state :=
  { sample_fs with vfs := { sample_fs.vfs with nodes := fun _ =>
      { type := 1, refcount := 1, lock := { l_type := 2, l_pid := 0, lock := 0 },
        inode := 0, size := 100, name := "", child := [] } } }

/-- The state `sample_fs` in which every node's lock is held in shared mode
(`F_RDLCK`) by PID 9, free of the inner spin flag. -/
def sample_shared_fs : fs_state :=
  { sample_fs with vfs := { sample_fs.vfs with nodes := fun _ =>
      { type := 1, refcount := 1, lock := { l_type := 0, l_pid := 9, lock := 0 },
        inode := 0, size := 0, name := "", child := [] } } }

/-- Task 1 runs; tasks 2, 3 and 4 are blocked.  The wait list, headed at
address 100, holds in enqueue order the records 101, 102 and 103 of the tasks
2, 3 and 4, all waiting on the address 4096. -/
def sample_futex : futex_state :=
  { k := kernel_of [(1, { blank_task with pid := 1, state := TASK_RUNNING }),
                    (2, { blank_task with pid := 2, state := TASK_BLOCKING }),
                    (3, { blank_task with pid := 3, state := TASK_BLOCKING }),
                    (4, { blank_task with pid := 4, state := TASK_BLOCKING })] 1,
    head := 100,
    mem := fun a =>
      if a = 101 then { uaddr := 4096, task := some (.task 2), next := 102 }
      else if a = 102 then { uaddr := 4096, task := some (.task 3), next := 103 }
      else if a = 103 then { uaddr := 4096, task := some (.task 4), next := 0 }
      else if a = 100 then { uaddr := 0, task := none, next := 101 }
      else { uaddr := 0, task := none, next := 0 },
    freed := [],
    user_word := fun _ => 0 }

/-- A VFS with the shell at node 60 (path "/bin/sh") and a script at node 61
(path "/home/s", opened as "./s"). -/
def sample_exec_vfs : vfs_t :=
  { nodes := fun i =>
      { type := 1, refcount := 1, lock := { l_type := 2, l_pid := 0, lock := 0 }, inode := i,
        size := 0, name := if i = 60 then "/bin/sh" else if i = 61 then "/home/s" else "",
        child := [] },
    dentries := [("/bin/sh", 60), ("./s", 61)] }

/-- The backend `sample_ops` with file contents: node 61 starts with `#!`, every
other node is an accepted ELF file with entry 4198400 and one `PT_LOAD` segment
at 4194304 of 8192 bytes. -/
def sample_exec_ops : vfs_ops :=
  { sample_ops with
    vfs_image := fun _ n =>
      if n = 61 then
        { byte0 := 35, byte1 := 33, e_entry := 0, arch_ok := false, phdrs := [],
          string_at := fun _ => "" }
      else
        { byte0 := 127, byte1 := 69, e_entry := 4198400, arch_ok := true,
          phdrs := [{ p_type := 1, p_offset := 0, p_vaddr := 4194304, p_filesz := 4096,
                      p_memsz := 8192 }],
          string_at := fun _ => "" } }

/-- Task 1 runs with the descriptors 1 and 5 marked `O_CLOEXEC` and the
descriptor 6 unmarked; no exec is in progress. -/
def sample_exec_kernel : Kernel :=
  { kernel_of [(1, { blank_task with
                       pid := 1, state := TASK_RUNNING,
                       fds := fun i =>
                         if i = 1 ∨ i = 5 then some ⟨7, 0, 524288⟩
                         else if i = 6 then some ⟨7, 0, 0⟩ else none })] 1 with
    vfs := sample_exec_vfs }

/-- The argument vector "./s", "a" followed by `NULL`. -/
def sample_argv : Nat → Option String := fun i =>
  if i = 0 then some "./s" else if i = 1 then some "a" else none

/-- The kernel state in which `task_execve` ended, if it ended. -/
def exec_kernel : Option exec_result → Option Kernel
  | some (.returned _ k) => some k
  | some (.user_mode _ k) => some k
  | none => none

/-- What exec leaves in a descriptor slot it visits: nothing when the slot was
null or its handle carries `O_CLOEXEC`, the same handle otherwise. -/
def after_exec_slot (K : Config) : Option fd_t → Option fd_t
  | none => none
  | some h => if h.flags &&& K.O_CLOEXEC ≠ 0 then none else some h

/-- Task 1 runs with the descriptors 0 to 3 open on node 7; the idle slot of
the only CPU is taken, the slots from 2 on are free. -/
def sample_fork_kernel : Kernel :=
  { kernel_of [(1, { blank_task with
                       pid := 1, ppid := 1, state := TASK_RUNNING,
                       fds := fun i => if i ≤ 3 then some ⟨7, 0, 0⟩ else none })] 1 with
    idle_tasks := fun c => if c = 0 then some blank_task else none }

/-- A full table: the idle slot of the only CPU and the slots 1 to 15 of
`tasks[]` are taken (`MAX_TASK_NUM` is 16); task 1 runs. -/
def sample_full_kernel : Kernel :=
  { tasks := fun i => if 1 ≤ i ∧ i < 16 then some { blank_task with pid := i, ppid := 1 } else none,
    idle_tasks := fun c => if c = 0 then some blank_task else none,
    current_task := .task 1, current_cpu_id := 0, vfs := sample_vfs, cpu_count := 1,
    cpu_idx := 0, can_schedule := true, execve_lock := false }

/-- A table with a hole, as reaping leaves it: task 1 runs, slot 2 is null,
task 3 is READY on CPU 0 and task 4 is BLOCKING on CPU 0 with its real timer
due at jiffies 5; the idle slot of CPU 0 is taken. -/
def sample_hole_kernel : Kernel :=
  { kernel_of [(1, { blank_task with pid := 1, ppid := 1, state := TASK_RUNNING }),
               (3, { blank_task with pid := 3, ppid := 1, state := TASK_READY, jiffies := 7 }),
               (4, { blank_task with pid := 4, ppid := 1, state := TASK_BLOCKING,
                                     itimer_real := { at_ := 5, reset := 0 } })] 1 with
    idle_tasks := fun c => if c = 0 then some blank_task else none }

/-- Task 2 runs and task 1 is READY, both on CPU 0; the idle slot of CPU 0 is
taken.  The futex wait list, headed at address 100, is empty and every user
word is 0.  Task 2 has armed its real timer by `sys_setitimer` at jiffies 0
with the value 1 ms. -/
def sample_trace_start : futex_state :=
  { k := { kernel_of
             [(1, { blank_task with pid := 1, ppid := 1, state := TASK_READY }),
              (2, (sys_setitimer sample_config 0
                    { blank_task with pid := 2, ppid := 1, state := TASK_RUNNING } 0
                    (some ⟨⟨0, 0⟩, ⟨0, 1000⟩⟩) false).2.1)] 2 with
           idle_tasks := fun c => if c = 0 then some blank_task else none },
    head := 100,
    mem := fun _ => { uaddr := 0, task := none, next := 0 },
    freed := [],
    user_word := fun _ => 0 }

/-- The timer tick at jiffies 1, as the rest of the system seen from a waiting
task. -/
def sample_tick (s : futex_state) : futex_state :=
  { s with k := (sched_update_itimer sample_config 1 s.k).getD s.k }

/-! ## The task-table invariant and the reachable states -/

/-- What the table invariant asks of the task behind a pointer. -/
def slot_ok : task_ptr → task_t → Prop
  | .task i, t => 1 ≤ i ∧ t.pid = i
  | .idle _, t => t.pid = 0

/-- The task-table invariant: a non-null `tasks[i]` has `i ≥ 1` and PID `i`,
`tasks[0]` is null, and a non-null `idle_tasks[c]` has PID 0. -/
def table_inv (k : Kernel) : Prop :=
  (∀ (i : Nat) (t : task_t), k.tasks i = some t → 1 ≤ i ∧ t.pid = i) ∧
  k.tasks 0 = none ∧
  (∀ (c : Nat) (t : task_t), k.idle_tasks c = some t → t.pid = 0)

/-- The states reachable from `task_init` through the lifecycle operations.
`sys_waitpid` enters by the passes through its loop body, between which the
other tasks run; the scheduler may make any task the running one. -/
inductive reachable (K : Config) (B : vfs_ops) : Kernel → Prop where
  | init (k0 k : Kernel) : task_init K B k0 = some k → reachable K B k
  | create (k : Kernel) (name : String) (p : task_ptr) (k1 : Kernel) :
      reachable K B k → task_create K B k name = some (p, k1) → reachable K B k1
  | fork (k : Kernel) (vfork : Bool) (r : Nat) (k1 : Kernel) :
      reachable K B k → task_fork K B k vfork = some (r, k1) → reachable K B k1
  | clone (k : Kernel) (flags r : Nat) (k1 : Kernel) :
      reachable K B k → sys_clone K B k flags = some (r, k1) → reachable K B k1
  | exit (k : Kernel) (code : Int) (k1 : Kernel) :
      reachable K B k → task_exit K k code = some k1 → reachable K B k1
  | waitpid_returned (k : Kernel) (child : Option Nat) (pid : Nat) (status : Bool)
      (options ret : Nat) (out : Option Nat) (k1 : Kernel) :
      reachable K B k →
      sys_waitpid_pass K k child pid status options = .returned ret out k1 → reachable K B k1
  | waitpid_blocked (k : Kernel) (child : Option Nat) (pid : Nat) (status : Bool)
      (options c : Nat) (k1 : Kernel) :
      reachable K B k →
      sys_waitpid_pass K k child pid status options = .blocked c k1 → reachable K B k1
  | schedule (k : Kernel) (p : task_ptr) :
      reachable K B k → reachable K B { k with current_task := p }

/-- The arguments of the sample call of `push_infos`: the task "sh" with the
vector "sh", "-c" and the environment "A=1", from the stack top 65536. -/
def sample_push : Option (Nat × (Nat → Nat)) :=
  push_infos sample_config (fun _ => 0) { blank_task with name := "sh" } 65536 ["sh", "-c"]
    ["A=1"] 4198400 4194368 1 0

/-! ## The room that `push_infos` takes -/

/-- An upper bound of the bytes that the string loops of `push_infos` take for
the strings `l`, alignment included. -/
def strings_need (l : List String) : Nat :=
  (l.map (fun s => (cstring s).length + 7)).sum

/-- An upper bound of the bytes that `push_infos` takes below the stack top:
the name, the strings, the alignment and the vectors. -/
def stack_need (name : String) (argv envp : List String) : Nat :=
  (cstring name).length + 7 + strings_need envp + strings_need argv + 15 +
    (152 + 8 * envp.length + 8 * argv.length)

/-- The layout of the initial user stack in the memory `m`, read upward from
`sp`: the word `argc`; the `argc` pointers `argvps`, the `i`-th at a copy of
`argv[i]`; a null word; the pointers `envps`, each at a copy of its string; a
null word; the pairs of the auxiliary vector in the order PAGESZ, BASE, EXECFN
(whose value `execfn` is the address of a copy of the task name), ENTRY, PHNUM,
PHENT (56), PHDR; and the terminator pair. -/
def stack_layout (K : Config) (m : Nat → Nat) (sp : Nat) (name : String)
    (argv envp : List String) (argvps envps : List Nat)
    (execfn e_entry phdr phnum at_base : Nat) : Prop :=
  argvps.length = argv.length ∧ envps.length = envp.length ∧
  read_bytes m sp 8 = word_bytes argv.length ∧
  read_bytes m (sp + 8) (8 * argv.length) = argvps.flatMap word_bytes ∧
  (∀ i : Nat, i < argv.length →
    read_bytes m (argvps.getD i 0) (cstring (argv.getD i "")).length =
      cstring (argv.getD i "")) ∧
  read_bytes m (sp + 8 + 8 * argv.length) 8 = word_bytes 0 ∧
  read_bytes m (sp + 16 + 8 * argv.length) (8 * envp.length) = envps.flatMap word_bytes ∧
  (∀ j : Nat, j < envp.length →
    read_bytes m (envps.getD j 0) (cstring (envp.getD j "")).length =
      cstring (envp.getD j "")) ∧
  read_bytes m (sp + 16 + 8 * argv.length + 8 * envp.length) 8 = word_bytes 0 ∧
  read_bytes m (sp + 24 + 8 * argv.length + 8 * envp.length) 16 =
    word_bytes K.AT_PAGESZ ++ word_bytes K.DEFAULT_PAGE_SIZE ∧
  read_bytes m (sp + 40 + 8 * argv.length + 8 * envp.length) 16 =
    word_bytes K.AT_BASE ++ word_bytes at_base ∧
  read_bytes m (sp + 56 + 8 * argv.length + 8 * envp.length) 16 =
    word_bytes K.AT_EXECFN ++ word_bytes execfn ∧
  read_bytes m execfn (cstring name).length = cstring name ∧
  read_bytes m (sp + 72 + 8 * argv.length + 8 * envp.length) 16 =
    word_bytes K.AT_ENTRY ++ word_bytes e_entry ∧
  read_bytes m (sp + 88 + 8 * argv.length + 8 * envp.length) 16 =
    word_bytes K.AT_PHNUM ++ word_bytes phnum ∧
  read_bytes m (sp + 104 + 8 * argv.length + 8 * envp.length) 16 =
    word_bytes K.AT_PHENT ++ word_bytes 56 ∧
  read_bytes m (sp + 120 + 8 * argv.length + 8 * envp.length) 16 =
    word_bytes K.AT_PHDR ++ word_bytes phdr ∧
  read_bytes m (sp + 136 + 8 * argv.length + 8 * envp.length) 16 =
    word_bytes 0 ++ word_bytes 0

/-! # Theorems -/

/-! ## Facts about `task_exit` -/

theorem task_exit_tasks (K : Config) (k : Kernel) (ci : Nat) (task : task_t) (code : Int)
    (hcur : k.current_task = .task ci) (htask : k.tasks ci = some task)
    (hw : task.waitpid ≠ ci) :
    ∃ k1, task_exit K k code = some k1 ∧ k1.tasks = exit_tasks K k ci task code ∧
      k1.idle_tasks = k.idle_tasks := by
  obtain ⟨tasks, idle, cur, cpu, vfs, ncpu, icpu, sched, elock⟩ := k
  simp only at hcur htask
  subst hcur
  unfold task_exit
  simp only [Kernel.deref, htask, Kernel.store]
  by_cases h0 : task.waitpid = 0
  · simp only [h0, ne_eq, not_true_eq_false, if_false, Function.update_same, exit_tasks]
    split <;> simp
  · simp only [ne_eq, h0, not_false_eq_true, if_true, Function.update_noteq hw, exit_tasks]
    cases hwt : tasks task.waitpid with
    | none =>
      simp only [Function.update_same]
      split <;> simp
    | some waiter =>
      simp only [Function.update_noteq (Ne.symm hw), Function.update_same]
      split <;> simp

/-! ## Facts about the scan of `sys_waitpid` -/

theorem waitpid_scan_hit (k : Kernel) (cur : task_t) (pid : Nat) (r : scan_result) (c : Nat) :
    ∀ (n i : Nat), i ≤ c → c < i + n →
      (∀ j, i ≤ j → j < c → waitpid_visit cur pid j (k.tasks j) = none) →
      waitpid_visit cur pid c (k.tasks c) = some r →
      waitpid_scan k cur pid n i = r := by
  intro n
  induction n with
  | zero => intro i h1 h2; omega
  | succ n ih =>
    intro i h1 h2 hskip hhit
    unfold waitpid_scan
    by_cases hic : i = c
    · subst hic
      simp [hhit]
    · have hnone := hskip i (le_refl i) (by omega)
      simp only [hnone]
      exact ih (i + 1) (by omega) (by omega) (fun j hj1 hj2 => hskip j (by omega) hj2) hhit

theorem waitpid_scan_none (k : Kernel) (cur : task_t) (pid : Nat) :
    ∀ (n i : Nat),
      (∀ j, i ≤ j → j < i + n → waitpid_visit cur pid j (k.tasks j) = none) →
      waitpid_scan k cur pid n i = .finished := by
  intro n
  induction n with
  | zero => intro i _; rfl
  | succ n ih =>
    intro i hskip
    unfold waitpid_scan
    have hnone := hskip i (le_refl i) (by omega)
    simp only [hnone]
    exact ih (i + 1) (fun j hj1 hj2 => hskip j (by omega) (by omega))

theorem exit_tasks_self (K : Config) (k : Kernel) (ci : Nat) (task : task_t) (code : Int) :
    exit_tasks K k ci task code ci =
      some { task with status := (code % 2 ^ 64).toNat,
                       fds := (exit_close_fds K.MAX_FD_NUM 0 task.fds k.vfs).1,
                       state := TASK_DIED } := by
  simp [exit_tasks]

theorem exit_tasks_other (K : Config) (k : Kernel) (ci : Nat) (task : task_t) (code : Int)
    (hw : task.waitpid ≠ ci) (i : Nat) (hi : i ≠ ci) :
    exit_tasks K k ci task code i =
      if task.waitpid ≠ 0 ∧ i = task.waitpid then
        (k.tasks i).map (fun waiter => task_unblock waiter K.EOK)
      else k.tasks i := by
  simp only [exit_tasks, Function.update_noteq hi, Function.update_noteq hw]
  by_cases h0 : task.waitpid = 0
  · simp [h0, Function.update_noteq hi]
  · simp only [ne_eq, h0, not_false_eq_true, if_true, true_and]
    by_cases hiw : i = task.waitpid
    · subst hiw
      cases hwt : k.tasks task.waitpid <;> simp [hwt, Function.update_noteq hi]
    · cases hwt : k.tasks task.waitpid <;>
        simp [hwt, hiw, Function.update_noteq hi, Function.update_noteq hiw]

/-- `task_exit` neither creates nor removes a task and keeps every identity field. -/
theorem exit_tasks_ident (K : Config) (k : Kernel) (ci : Nat) (task : task_t) (code : Int)
    (htask : k.tasks ci = some task) (hw : task.waitpid ≠ ci) (i : Nat) :
    (k.tasks i = none → exit_tasks K k ci task code i = none) ∧
    (∀ t, k.tasks i = some t → ∃ t1, exit_tasks K k ci task code i = some t1 ∧
        t1.pid = t.pid ∧ t1.ppid = t.ppid ∧ t1.pgid = t.pgid) := by
  by_cases hi : i = ci
  · subst hi
    rw [exit_tasks_self, htask]
    constructor
    · intro h; cases h
    · intro t ht
      cases ht
      exact ⟨_, rfl, rfl, rfl, rfl⟩
  · rw [exit_tasks_other K k ci task code hw i hi]
    constructor
    · intro h
      split <;> simp [h]
    · intro t ht
      split
      · exact ⟨task_unblock t K.EOK, by simp [ht], rfl, rfl, rfl⟩
      · exact ⟨t, ht, rfl, rfl, rfl⟩

theorem waitpid_visit_other_pid (cur : task_t) (pid i : Nat) (slot : Option task_t)
    (h1 : pid ≠ UINT64_MINUS_ONE) (h0 : pid ≠ 0) (hslot : ∀ t, slot = some t → t.pid ≠ pid) :
    waitpid_visit cur pid i slot = none := by
  cases slot with
  | none => rfl
  | some t =>
    have ht := hslot t rfl
    have hpos : 0 < pid := Nat.pos_of_ne_zero h0
    simp only [waitpid_visit, h1, h0, hpos, if_true, if_false, ht, ne_eq, not_false_eq_true]
    split <;> rfl

theorem wait_status_byte (c : Nat) (hc : c ≤ 255) :
    wait_status c = if c < 128 then (c &&& 0xff) <<< 8 else (c - 128) ||| 0x8000 := by
  unfold wait_status
  split
  · apply Nat.mod_eq_of_lt
    have h1 : c &&& 0xff ≤ 0xff := Nat.and_le_right
    rw [Nat.shiftLeft_eq]
    omega
  · have h2 : (c - 128) % 2 ^ 32 = c - 128 := Nat.mod_eq_of_lt (by omega)
    rw [h2]
    rfl

/-- A table built from pairs whose tasks carry their slot as PID satisfies the
PID invariant. -/
theorem table_of_pid_ok (l : List (Nat × task_t)) (h : ∀ p ∈ l, p.2.pid = p.1) :
    ∀ i t, table_of l i = some t → t.pid = i := by
  induction l with
  | nil => intro i t ht; cases ht
  | cons p l ih =>
    intro i t ht
    obtain ⟨a, b⟩ := p
    unfold table_of at ht
    rw [List.lookup_cons] at ht
    by_cases hia : i = a
    · subst hia
      simp only [beq_self_eq_true] at ht
      cases ht
      exact h (i, t) (List.mem_cons_self _ _)
    · have : (i == a) = false := by simpa using hia
      simp only [this] at ht
      exact ih (fun q hq => h q (List.mem_cons_of_mem _ hq)) i t ht

/-! ## C1: exit-code round trip -/

/-- C1: exit-code round trip.  In a task table whose tasks carry their slot
index as PID, let the running task in slot `ci` be a child of the task in slot
`pi` and let its `waitpid` field be 0 or the parent's PID.  For every exit code
`c <= 255`, `task_exit(c)` by the child followed by
`sys_waitpid(ci, &s, 0)` by the parent returns the child's PID `ci` and stores
`s = (c & 0xff) << 8` when `c < 128` and `s = (c - 128) | 0x8000` otherwise;
`c = 7` gives 1792 and `c = 139` gives 0x800B.  The child's slot is empty
afterwards. -/
theorem C1_exit_code_round_trip (K : Config) (env : Kernel → Kernel) (fuel : Nat) (k : Kernel)
    (ci pi : Nat) (child : task_t) (c : Nat)
    (hK : K.MAX_TASK_NUM < 2 ^ 64)
    (hcur : k.current_task = .task ci) (hchild : k.tasks ci = some child)
    (hparent : (k.tasks pi).isSome = true)
    (hpid : ∀ i t, k.tasks i = some t → t.pid = i)
    (hppid : child.ppid = pi) (hne : ci ≠ pi) (h1 : 1 ≤ ci) (hlt : ci < K.MAX_TASK_NUM)
    (hw : child.waitpid = 0 ∨ child.waitpid = pi) (hc : c ≤ 255) :
    ∃ k1 k2 s, task_exit K k (c : Int) = some k1 ∧
      sys_waitpid K env (fuel + 1) { k1 with current_task := .task pi } ci true 0
        = some (ci, some s, k2) ∧
      s = (if c < 128 then (c &&& 0xff) <<< 8 else (c - 128) ||| 0x8000) ∧
      (c = 7 → s = 1792) ∧ (c = 139 → s = 0x800B) ∧ k2.tasks ci = none := by
  have hwne : child.waitpid ≠ ci := by
    rcases hw with h | h <;> omega
  obtain ⟨k1, hk1, htasks, -⟩ := task_exit_tasks K k ci child (c : Int) hcur hchild hwne
  obtain ⟨tasks1, idle1, cur1, cpu1, vfs1, ncpu1, icpu1, sched1, elock1⟩ := k1
  simp only at htasks
  subst htasks
  have hcpid : child.pid = ci := hpid ci child hchild
  -- the parent after the exit
  obtain ⟨parent, hparent⟩ := Option.isSome_iff_exists.mp hparent
  obtain ⟨parent1, hparent1, hp1pid, -, -⟩ :=
    (exit_tasks_ident K k ci child (c : Int) hchild hwne pi).2 parent hparent
  have hppid1 : parent1.pid = pi := by rw [hp1pid]; exact hpid pi parent hparent
  -- the scan stops at the child
  have hsel1 : ci ≠ UINT64_MINUS_ONE := by
    unfold UINT64_MINUS_ONE; omega
  have hsel0 : ci ≠ 0 := by omega
  have hscan : waitpid_scan ⟨exit_tasks K k ci child (c : Int), idle1, .task pi, cpu1, vfs1,
        ncpu1, icpu1, sched1, elock1⟩
      parent1 ci
      (K.MAX_TASK_NUM - 1) 1 = .rollback ci := by
    apply waitpid_scan_hit _ _ _ _ ci _ _ h1 (by omega)
    · intro j hj1 hj2
      apply waitpid_visit_other_pid _ _ _ _ hsel1 hsel0
      intro t ht
      simp only at ht
      cases hkj : k.tasks j with
      | none =>
        rw [(exit_tasks_ident K k ci child (c : Int) hchild hwne j).1 hkj] at ht
        cases ht
      | some t0 =>
        obtain ⟨t1, ht1, hpid1, -, -⟩ :=
          (exit_tasks_ident K k ci child (c : Int) hchild hwne j).2 t0 hkj
        rw [ht1] at ht
        cases ht
        rw [hpid1, hpid j t0 hkj]
        omega
    · simp only [exit_tasks_self]
      have hpos : 0 < ci := by omega
      simp [waitpid_visit, hcpid, hppid, hppid1, hne, hsel1, hsel0, hpos, waitpid_check_state]
  have hstat : ((c : Int) % 2 ^ 64).toNat = c := by
    have : (c : Int) % 2 ^ 64 = ((c % 2 ^ 64 : Nat) : Int) := by push_cast; rfl
    rw [this, Int.toNat_ofNat]
    exact Nat.mod_eq_of_lt (by omega)
  refine ⟨_, ⟨Function.update (exit_tasks K k ci child (c : Int)) ci none, idle1, .task pi,
    cpu1, vfs1, ncpu1, icpu1, sched1, elock1⟩, wait_status c, hk1, ?_, wait_status_byte c hc,
    ?_, ?_, ?_⟩
  · unfold sys_waitpid sys_waitpid_loop sys_waitpid_pass
    simp only [Kernel.deref, hparent1, hscan, waitpid_rollback, exit_tasks_self, hcpid,
      hstat, if_true]
  · intro h; subst h; decide
  · intro h; subst h; decide
  · simp

/-- C1 at a concrete table: init in slot 1, its running child in slot 2,
exit code 7. -/
theorem C1_exit_code_round_trip_witness :
    ∃ k1 k2 s,
      task_exit sample_config
        (kernel_of [(1, { blank_task with pid := 1, ppid := 1 }),
          (2, { blank_task with pid := 2, ppid := 1, state := TASK_RUNNING })] 2)
        ((7 : Nat) : Int) = some k1 ∧
      sys_waitpid sample_config id (0 + 1) { k1 with current_task := .task 1 } 2 true 0
        = some (2, some s, k2) ∧
      s = (if 7 < 128 then (7 &&& 0xff) <<< 8 else (7 - 128) ||| 0x8000) ∧
      ((7 : Nat) = 7 → s = 1792) ∧ ((7 : Nat) = 139 → s = 0x800B) ∧ k2.tasks 2 = none :=
  C1_exit_code_round_trip sample_config id 0
    (kernel_of [(1, { blank_task with pid := 1, ppid := 1 }),
      (2, { blank_task with pid := 2, ppid := 1, state := TASK_RUNNING })] 2)
    2 1 { blank_task with pid := 2, ppid := 1, state := TASK_RUNNING } 7
    (by decide) rfl rfl rfl
    (table_of_pid_ok _ (by simp))
    rfl (by decide) (by decide) (by decide) (Or.inl rfl) (by decide)

/-! ## C2: no matching child -/

/-- C2 as stated fails: the caller in slot 1 has no child at all, yet
`sys_waitpid(-1, &s, WNOHANG)` returns 0, which is not `-ECHILD`. -/
theorem C2_wnohang_no_child_returns_zero :
    (∀ i t, (kernel_of [(1, { blank_task with pid := 1, ppid := 1 })] 1).tasks i = some t →
      ¬ (is_child_of { blank_task with pid := 1, ppid := 1 } t ∧
         selector_matches { blank_task with pid := 1, ppid := 1 } UINT64_MINUS_ONE t)) ∧
    (sys_waitpid sample_config id 1 (kernel_of [(1, { blank_task with pid := 1, ppid := 1 })] 1)
      UINT64_MINUS_ONE true sample_config.WNOHANG).map (fun r => r.1) = some 0 ∧
    (0 : Nat) ≠ neg_errno sample_config.ECHILD := by
  refine ⟨?_, by rfl, by decide⟩
  intro i t ht
  have hp := table_of_pid_ok [(1, { blank_task with pid := 1, ppid := 1 })] (by simp) i t ht
  simp only [kernel_of, table_of, List.lookup] at ht
  split at ht
  · cases ht
    simp [is_child_of]
  · cases ht

/-- C2, amended: if no child of the caller matches the selector (and, for
`pid = 0`, the caller has no child at all), `sys_waitpid` returns at once and
leaves the state unchanged; the value is `-ECHILD` when `WNOHANG` is not set in
`options` and 0 when it is. -/
theorem C2_no_matching_child (K : Config) (env : Kernel → Kernel) (fuel : Nat) (k : Kernel)
    (cur : task_t) (pid : Nat) (status : Bool) (options : Nat)
    (hcur : k.deref k.current_task = some cur)
    (hnone : ∀ i t, 1 ≤ i → i < K.MAX_TASK_NUM → k.tasks i = some t → is_child_of cur t →
      ¬ selector_matches cur pid t)
    (hzero : pid = 0 → ∀ i t, 1 ≤ i → i < K.MAX_TASK_NUM → k.tasks i = some t →
      ¬ is_child_of cur t) :
    sys_waitpid K env (fuel + 1) k pid status options =
      some (if options &&& K.WNOHANG ≠ 0 then 0 else neg_errno K.ECHILD, none, k) := by
  have hscan : waitpid_scan k cur pid (K.MAX_TASK_NUM - 1) 1 = .finished := by
    apply waitpid_scan_none
    intro j hj1 hj2
    have hjlt : j < K.MAX_TASK_NUM := by omega
    cases hslot : k.tasks j with
    | none => rfl
    | some t =>
      by_cases hch : is_child_of cur t
      · have hsel := hnone j t hj1 hjlt hslot hch
        by_cases hp0 : pid = 0
        · exact absurd hch (hzero hp0 j t hj1 hjlt hslot)
        · have hpu : pid ≠ UINT64_MINUS_ONE := fun h => hsel (Or.inl h)
          have hpp : t.pid ≠ pid := fun h => hsel (Or.inr (Or.inr ⟨hp0, hpu, h⟩))
          exact waitpid_visit_other_pid cur pid j (some t) hpu hp0
            (fun t1 ht1 => by cases ht1; exact hpp)
      · have : t.pid = t.ppid ∨ t.ppid ≠ cur.pid := by
          unfold is_child_of at hch
          by_cases h1 : t.pid = t.ppid
          · exact Or.inl h1
          · exact Or.inr (fun h2 => hch ⟨h1, h2⟩)
        simp [waitpid_visit, this]
  unfold sys_waitpid sys_waitpid_loop sys_waitpid_pass
  simp only [hcur, hscan, waitpid_rollback]
  by_cases hopt : options &&& K.WNOHANG ≠ 0
  · simp [hopt]
  · simp [hopt]

/-- C2 amended, at a concrete table: the caller in slot 1 has the single child
3 and waits for PID 5 without `WNOHANG`. -/
theorem C2_no_matching_child_witness :
    sys_waitpid sample_config id (0 + 1)
      (kernel_of [(1, { blank_task with pid := 1, ppid := 1 }),
        (3, { blank_task with pid := 3, ppid := 1 })] 1) 5 true 0 =
      some (if 0 &&& sample_config.WNOHANG ≠ 0 then 0 else neg_errno sample_config.ECHILD, none,
        kernel_of [(1, { blank_task with pid := 1, ppid := 1 }),
          (3, { blank_task with pid := 3, ppid := 1 })] 1) :=
  C2_no_matching_child sample_config id 0
    (kernel_of [(1, { blank_task with pid := 1, ppid := 1 }),
      (3, { blank_task with pid := 3, ppid := 1 })] 1)
    { blank_task with pid := 1, ppid := 1 } 5 true 0 rfl
    (by
      intro i t _ _ ht _ hsel
      have hp := table_of_pid_ok [(1, { blank_task with pid := 1, ppid := 1 }),
        (3, { blank_task with pid := 3, ppid := 1 })] (by simp) i t ht
      simp only [kernel_of, table_of, List.lookup] at ht
      split at ht
      · cases ht
        simp [selector_matches, UINT64_MINUS_ONE] at hsel
      · split at ht
        · cases ht
          simp [selector_matches, UINT64_MINUS_ONE] at hsel
        · cases ht)
    (by intro h; cases h)

/-! ## C3, C4, C5, C7: what the code does at the failing inputs -/

/-- A caller that pauses in state `TASK_BLOCKING` while nothing else runs
never leaves `sys_waitpid`. -/
theorem sys_waitpid_loop_stuck (K : Config) (pid : Nat) (status : Bool) (options : Nat) :
    ∀ (n : Nat) (child : Option Nat) (k : Kernel) (cur : task_t),
      k.deref k.current_task = some cur → cur.state = TASK_BLOCKING →
      sys_waitpid_loop K id pid status options n true child k = none := by
  intro n
  induction n with
  | zero => intro child k cur _ _; rfl
  | succ n ih =>
    intro child k cur hcur hst
    unfold sys_waitpid_loop
    have hk : ({ id k with current_task := k.current_task } : Kernel) = k := rfl
    simp only [hk, hcur, hst, if_true]
    exact ih child k cur hcur hst

/-- C3, the code at the failing input: the caller in slot 1 has the single
child 2, which is READY, and calls `sys_waitpid(-1, &s, WNOHANG)`.  The pass
does not return 0: it stores the caller's PID in the child's `waitpid` field and
sets the caller to `TASK_BLOCKING`; with nothing else running the call never
returns. -/
theorem C3_wnohang_blocks_on_live_child :
    ∃ k1,
      sys_waitpid_pass sample_config
        (kernel_of [(1, { blank_task with pid := 1, ppid := 1, state := TASK_RUNNING }),
          (2, { blank_task with pid := 2, ppid := 1 })] 1)
        none UINT64_MINUS_ONE true sample_config.WNOHANG = .blocked 2 k1 ∧
      (k1.tasks 1).map (fun t => t.state) = some TASK_BLOCKING ∧
      (k1.tasks 2).map (fun t => t.waitpid) = some 1 ∧
      ∀ fuel, sys_waitpid sample_config id fuel
        (kernel_of [(1, { blank_task with pid := 1, ppid := 1, state := TASK_RUNNING }),
          (2, { blank_task with pid := 2, ppid := 1 })] 1)
        UINT64_MINUS_ONE true sample_config.WNOHANG = none := by
  refine ⟨_, rfl, rfl, rfl, ?_⟩
  intro fuel
  cases fuel with
  | zero => rfl
  | succ n =>
    unfold sys_waitpid sys_waitpid_loop
    have hpass : sys_waitpid_pass sample_config
        (kernel_of [(1, { blank_task with pid := 1, ppid := 1, state := TASK_RUNNING }),
          (2, { blank_task with pid := 2, ppid := 1 })] 1)
        none UINT64_MINUS_ONE true sample_config.WNOHANG = .blocked 2 _ := rfl
    simp only [hpass]
    exact sys_waitpid_loop_stuck sample_config _ _ _ n _ _ _ rfl rfl

/-- C4, the code at the failing inputs.  (a) The caller in slot 1 has a READY
child in slot 2 and a DIED child in slot 3; `sys_waitpid(-1, &s, 0)` does not
reap child 3 but blocks on child 2.  (b) The caller has a single DIED child in
its own process group; `sys_waitpid(0, &s, 0)` does not reap it but blocks on
it. -/
theorem C4_died_child_not_reaped :
    (∃ k1,
      sys_waitpid_pass sample_config
        (kernel_of [(1, { blank_task with pid := 1, ppid := 1, state := TASK_RUNNING }),
          (2, { blank_task with pid := 2, ppid := 1 }),
          (3, { blank_task with pid := 3, ppid := 1, state := TASK_DIED })] 1)
        none UINT64_MINUS_ONE true 0 = .blocked 2 k1 ∧
      (k1.tasks 1).map (fun t => t.state) = some TASK_BLOCKING ∧
      (k1.tasks 3).map (fun t => t.state) = some TASK_DIED) ∧
    (∃ k1,
      sys_waitpid_pass sample_config
        (kernel_of [(1, { blank_task with pid := 1, ppid := 1, state := TASK_RUNNING }),
          (2, { blank_task with pid := 2, ppid := 1, state := TASK_DIED })] 1)
        none 0 true 0 = .blocked 2 k1 ∧
      (k1.tasks 1).map (fun t => t.state) = some TASK_BLOCKING ∧
      (k1.tasks 2).map (fun t => t.state) = some TASK_DIED) :=
  ⟨⟨_, rfl, rfl, rfl⟩, ⟨_, rfl, rfl, rfl⟩⟩

/-- C5, the code at the failing input: the caller in slot 1 has process group
0, its DIED child in slot 2 has process group 7; `sys_waitpid(0, &s, 0)` reaps
that child and returns its PID 2. -/
theorem C5_pid_zero_reaps_other_group :
    (sys_waitpid sample_config id 1
      (kernel_of [(1, { blank_task with pid := 1, ppid := 1, pgid := 0, state := TASK_RUNNING }),
        (2, { blank_task with pid := 2, ppid := 1, pgid := 7, state := TASK_DIED })] 1)
      0 true 0).map (fun r => (r.1, (r.2.2.tasks 2).isSome)) = some (2, false) := by
  rfl

/-- C7, the code at the failing input: the parent in slot 1 has the READY child
2 and the running child 3.  The parent enters `sys_waitpid(-1, &s, 0)` and
blocks; the `waitpid` field is set on child 2 only.  Child 3 then runs
`task_exit(0)`: the parent is still `TASK_BLOCKING`. -/
theorem C7_exit_of_other_child_leaves_parent_blocked :
    ∃ k1 k2,
      sys_waitpid_pass sample_config
        (kernel_of [(1, { blank_task with pid := 1, ppid := 1, state := TASK_RUNNING }),
          (2, { blank_task with pid := 2, ppid := 1 }),
          (3, { blank_task with pid := 3, ppid := 1, state := TASK_RUNNING, cpu_id := 1 })] 1)
        none UINT64_MINUS_ONE true 0 = .blocked 2 k1 ∧
      (k1.tasks 1).map (fun t => t.state) = some TASK_BLOCKING ∧
      task_exit sample_config { k1 with current_task := .task 3 } 0 = some k2 ∧
      (k2.tasks 3).map (fun t => t.state) = some TASK_DIED ∧
      (k2.tasks 1).map (fun t => t.state) = some TASK_BLOCKING :=
  ⟨_, _, rfl, rfl, rfl, rfl, rfl⟩

/-! ## C6: `sys_waitpid(-1)` returns only children of the caller -/

/-- The slot search stops at the first null slot of the range, or at the end
of the range when there is none. -/
theorem fd_scan_spec (fds : Nat → Option fd_t) :
    ∀ (n i : Nat), i ≤ fd_scan fds n i ∧ fd_scan fds n i ≤ i + n ∧
      (∀ j, i ≤ j → j < fd_scan fds n i → fds j ≠ none) ∧
      (fd_scan fds n i < i + n → fds (fd_scan fds n i) = none) := by
  intro n
  induction n with
  | zero =>
    intro i
    simp only [fd_scan]
    exact ⟨le_refl i, le_refl i, fun j h1 h2 => by omega, fun h => by omega⟩
  | succ n ih =>
    intro i
    unfold fd_scan
    by_cases hi : fds i = none
    · rw [if_pos hi]
      exact ⟨le_refl i, by omega, fun j h1 h2 => by omega, fun _ => hi⟩
    · rw [if_neg hi]
      obtain ⟨h1, h2, h3, h4⟩ := ih (i + 1)
      refine ⟨by omega, by omega, ?_, fun h => h4 (by omega)⟩
      intro j hj1 hj2
      by_cases hji : j = i
      · subst hji; exact hi
      · exact h3 j (by omega) hj2

/-- C8: with `MAX_FD_NUM >= 3`, for a path that resolves to the node `n`,
`sys_open` returns the least index `i` with `3 <= i < MAX_FD_NUM` whose slot is
null, puts the handle `(n, offset 0, flags)` there, adds one to the reference
count of `n` and changes no other slot, no other node and nothing else in the
task; when every slot from 3 up is taken it returns `-EBADF` and the state,
name space included, is unchanged for every path and every flag word. -/
theorem C8_sys_open_allocates_least_slot (K : Config) (B : vfs_ops) (s : fs_state)
    (name : String) (flags mode : Nat) (h3 : 3 ≤ K.MAX_FD_NUM) :
    (∀ n, B.vfs_open s.vfs name = some n →
      (∃ i, 3 ≤ i ∧ i < K.MAX_FD_NUM ∧ s.task.fds i = none) →
      ∃ i, 3 ≤ i ∧ i < K.MAX_FD_NUM ∧ s.task.fds i = none ∧
        (∀ j, 3 ≤ j → j < i → s.task.fds j ≠ none) ∧
        (sys_open K B s name flags mode).1 = i ∧
        (sys_open K B s name flags mode).2.task.fds i =
          some { node := n, offset := 0, flags := flags } ∧
        (∀ j, j ≠ i → (sys_open K B s name flags mode).2.task.fds j = s.task.fds j) ∧
        (sys_open K B s name flags mode).2.task =
          { s.task with fds := (sys_open K B s name flags mode).2.task.fds } ∧
        ((sys_open K B s name flags mode).2.vfs.nodes n).refcount =
          (s.vfs.nodes n).refcount + 1 ∧
        ((sys_open K B s name flags mode).2.vfs.nodes n).lock = (s.vfs.nodes n).lock ∧
        ((sys_open K B s name flags mode).2.vfs.nodes n).type = (s.vfs.nodes n).type ∧
        (∀ m, m ≠ n → (sys_open K B s name flags mode).2.vfs.nodes m = s.vfs.nodes m) ∧
        (sys_open K B s name flags mode).2.vfs.dentries = s.vfs.dentries) ∧
    ((∀ i, 3 ≤ i → i < K.MAX_FD_NUM → s.task.fds i ≠ none) →
      sys_open K B s name flags mode = (neg_errno K.EBADF, s)) := by
  obtain ⟨h1, h2, hbefore, hfree⟩ := fd_scan_spec s.task.fds (K.MAX_FD_NUM - 3) 3
  have hsum : 3 + (K.MAX_FD_NUM - 3) = K.MAX_FD_NUM := by omega
  rw [hsum] at h2 hfree
  constructor
  · intro n hn hex
    obtain ⟨i0, hi1, hi2, hi3⟩ := hex
    have hlt : fd_scan s.task.fds (K.MAX_FD_NUM - 3) 3 < K.MAX_FD_NUM := by
      by_contra hge
      exact hbefore i0 hi1 (by omega) hi3
    have hne : fd_scan s.task.fds (K.MAX_FD_NUM - 3) 3 ≠ K.MAX_FD_NUM := by omega
    refine ⟨fd_scan s.task.fds (K.MAX_FD_NUM - 3) 3, h1, hlt, hfree hlt, hbefore, ?_⟩
    have hres : sys_open K B s name flags mode =
        open_install s (fd_scan s.task.fds (K.MAX_FD_NUM - 3) 3) n flags := by
      simp only [sys_open, hne, if_false, hn]
    rw [hres]
    refine ⟨rfl, by simp [open_install], fun j hj => by simp [open_install, hj], rfl,
      by simp [open_install], by simp [open_install], by simp [open_install],
      fun m hm => by simp [open_install, hm], rfl⟩
  · intro hfull
    have heq : fd_scan s.task.fds (K.MAX_FD_NUM - 3) 3 = K.MAX_FD_NUM := by
      by_contra hne
      have hlt : fd_scan s.task.fds (K.MAX_FD_NUM - 3) 3 < K.MAX_FD_NUM := by omega
      exact hfull _ h1 hlt (hfree hlt)
    simp only [sys_open, heq, if_true]

/-- C8 at a concrete table: slots 0 to 3 are taken, slot 4 is free, "/a"
resolves to node 40. -/
theorem C8_sys_open_allocates_least_slot_witness :
    (sys_open sample_config sample_ops sample_fs "/a" 2 0).1 = 4 := by
  obtain ⟨i, h1, _, hnone, hbefore, hret, _⟩ :=
    (C8_sys_open_allocates_least_slot sample_config sample_ops sample_fs "/a" 2 0
      (by decide)).1 40 rfl ⟨4, by decide, by decide, rfl⟩
  rw [hret]
  by_contra hne
  by_cases hlt : i < 4
  · have h3 : i = 3 := by omega
    subst h3
    simp [sample_fs] at hnone
  · exact hbefore 4 (by decide) (by omega) rfl

/-! ## C9: `sys_close` -/

/-- What `sys_close` does to a live descriptor. -/
theorem sys_close_live (K : Config) (s : fs_state) (fd : Nat) (h : fd_t)
    (hlt : fd < K.MAX_FD_NUM) (hfd : s.task.fds fd = some h) :
    (sys_close K s fd).1 = 0 ∧
    (sys_close K s fd).2.task.fds fd = none ∧
    (∀ j, j ≠ fd → (sys_close K s fd).2.task.fds j = s.task.fds j) ∧
    (sys_close K s fd).2.task = { s.task with fds := (sys_close K s fd).2.task.fds } ∧
    ((sys_close K s fd).2.vfs.nodes h.node).lock =
      (if (s.vfs.nodes h.node).lock.l_pid = s.task.pid then
        { (s.vfs.nodes h.node).lock with l_type := K.F_UNLCK, l_pid := 0 }
      else (s.vfs.nodes h.node).lock) ∧
    (∀ m, m ≠ h.node → (sys_close K s fd).2.vfs.nodes m = s.vfs.nodes m) := by
  have hge : ¬ K.MAX_FD_NUM ≤ fd := by omega
  simp only [sys_close, hge, if_false, hfd, Function.update_idem]
  refine ⟨trivial, by simp, fun j hj => by simp [hj], trivial, ?_, ?_⟩
  · by_cases hl : (s.vfs.nodes h.node).lock.l_pid = s.task.pid
    · simp [hl, vfs_close]
    · simp [hl, vfs_close]
  · intro m hm
    by_cases hl : (s.vfs.nodes h.node).lock.l_pid = s.task.pid
    · simp [hl, vfs_close, hm]
    · simp [hl, vfs_close, hm]

/-- C9: `sys_close(fd)` returns `-EBADF` with the state unchanged if and only
if `fd >= MAX_FD_NUM` or slot `fd` is null.  Otherwise it returns 0, slot `fd`
becomes null, every other slot and every other field of the caller is
unchanged, and the lock of the node becomes `(F_UNLCK, 0)` when its `l_pid` was
the caller's PID and keeps its value when it was not; no other node
changes. -/
theorem C9_sys_close (K : Config) (s : fs_state) (fd : Nat) :
    (((sys_close K s fd).1 = neg_errno K.EBADF ∧ (sys_close K s fd).2 = s) ↔
      (K.MAX_FD_NUM ≤ fd ∨ s.task.fds fd = none)) ∧
    (∀ h, fd < K.MAX_FD_NUM → s.task.fds fd = some h →
      (sys_close K s fd).1 = 0 ∧
      (sys_close K s fd).2.task.fds fd = none ∧
      (∀ j, j ≠ fd → (sys_close K s fd).2.task.fds j = s.task.fds j) ∧
      (sys_close K s fd).2.task = { s.task with fds := (sys_close K s fd).2.task.fds } ∧
      ((sys_close K s fd).2.vfs.nodes h.node).lock =
        (if (s.vfs.nodes h.node).lock.l_pid = s.task.pid then
          { (s.vfs.nodes h.node).lock with l_type := K.F_UNLCK, l_pid := 0 }
        else (s.vfs.nodes h.node).lock) ∧
      (∀ m, m ≠ h.node → (sys_close K s fd).2.vfs.nodes m = s.vfs.nodes m)) := by
  refine ⟨⟨?_, ?_⟩, fun h hlt hfd => sys_close_live K s fd h hlt hfd⟩
  · rintro ⟨-, hsame⟩
    by_contra hcon
    have hlt : fd < K.MAX_FD_NUM := by
      by_contra hge
      exact hcon (Or.inl (by omega))
    cases hfd : s.task.fds fd with
    | none => exact hcon (Or.inr hfd)
    | some h =>
      have hnull := (sys_close_live K s fd h hlt hfd).2.1
      rw [hsame, hfd] at hnull
      cases hnull
  · rintro (hge | hnull)
    · simp [sys_close, hge]
    · by_cases hge : K.MAX_FD_NUM ≤ fd
      · simp [sys_close, hge]
      · simp [sys_close, hge, hnull]

/-- C9 at a concrete state: task 1 closes its live descriptor 3. -/
theorem C9_sys_close_witness :
    (sys_close sample_config sample_fs 3).1 = 0 ∧
    (sys_close sample_config sample_fs 3).2.task.fds 3 = none :=
  ⟨((C9_sys_close sample_config sample_fs 3).2 ⟨7, 0, 0⟩ (by decide) rfl).1,
   ((C9_sys_close sample_config sample_fs 3).2 ⟨7, 0, 0⟩ (by decide) rfl).2.1⟩

/-! ## C10: `sys_dup3` -/

/-- The test `flags & ~O_CLOEXEC` is non-zero exactly when `flags` has a bit
that `O_CLOEXEC` does not have. -/
theorem flags_outside_iff (flags o : Nat) (hf : flags < 2 ^ 64) (ho : o < 2 ^ 64) :
    flags &&& not64 o ≠ 0 ↔ ∃ b, flags.testBit b = true ∧ o.testBit b = false := by
  have hnot : not64 o = 2 ^ 64 - (o + 1) := by unfold not64; omega
  constructor
  · intro hne
    obtain ⟨i, hi⟩ := Nat.ne_zero_implies_bit_true hne
    rw [Nat.testBit_and, hnot, Nat.testBit_two_pow_sub_succ ho] at hi
    simp only [Bool.and_eq_true, decide_eq_true_eq, Bool.not_eq_true'] at hi
    exact ⟨i, hi.1, hi.2.2⟩
  · rintro ⟨b, hb1, hb2⟩ hzero
    have hb : b < 64 := by
      by_contra hge
      have hlt : flags < 2 ^ b :=
        lt_of_lt_of_le hf (Nat.pow_le_pow_right (by decide) (by omega))
      rw [Nat.testBit_lt_two_pow hlt] at hb1
      cases hb1
    have hbit : (flags &&& not64 o).testBit b = true := by
      rw [Nat.testBit_and, hnot, Nat.testBit_two_pow_sub_succ ho]
      simp [hb1, hb2, hb]
    rw [hzero, Nat.zero_testBit] at hbit
    cases hbit

/-- C10 as stated fails: descriptor 3 is live, 5 is a free slot below
`MAX_FD_NUM`, the flag word is 0 and `3 ≠ 5`, so none of the four failure
conditions holds; with a backend whose `vfs_dup` fails, `sys_dup3(3, 5, 0)`
returns `-EMFILE`, not 5. -/
theorem C10_dup3_vfs_dup_failure :
    (3 < sample_config.MAX_FD_NUM ∧ sample_fs.task.fds 3 ≠ none ∧
      5 < sample_config.MAX_FD_NUM ∧ 0 &&& not64 sample_config.O_CLOEXEC = 0 ∧ (3 : Nat) ≠ 5) ∧
    (sys_dup3 sample_config failing_dup_ops sample_fs 3 5 0).1 = neg_errno sample_config.EMFILE ∧
    neg_errno sample_config.EMFILE ≠ 5 := by
  refine ⟨⟨by decide, by simp [sample_fs], by decide, by decide, by decide⟩, by rfl, by decide⟩

/-- C10, amended: `sys_dup3(oldfd, newfd, flags)` fails with the state
unchanged (so `newfd` is not closed) whenever `oldfd` is not a live descriptor
below `MAX_FD_NUM`, `newfd >= MAX_FD_NUM`, `flags` has a bit outside
`O_CLOEXEC`, or `oldfd = newfd`; the value is that of the first of these
conditions that holds, in this order: `-EBADF`, `-EBADF`, `-EINVAL`, `-EBADF`.
In every other case `newfd` is closed first if it is live: with `s1` the state
that `sys_close(newfd)` leaves (`s1` is the state before the call if `newfd` is
free), slot `newfd` of `s1` is null and every other slot is as before.  When
`vfs_dup` on `s1` yields none the call returns `-EMFILE` and leaves `s1`, so a
live `newfd` stays closed.  When `vfs_dup` yields a handle the call returns
`newfd`, slot `newfd` holds that handle, with `O_CLOEXEC` added to its flags if
`flags` has it, every other slot is as before the call, nothing else of the task
differs from `s1`, and the VFS is that of `s1` with the reference count of the
handle's node one higher. -/
theorem C10_sys_dup3 (K : Config) (B : vfs_ops) (s : fs_state) (oldfd newfd flags : Nat)
    (hflags : flags < 2 ^ 64) (hO : K.O_CLOEXEC < 2 ^ 64) :
    ((K.MAX_FD_NUM ≤ oldfd ∨ s.task.fds oldfd = none) ∨ K.MAX_FD_NUM ≤ newfd ∨
        (∃ b, flags.testBit b = true ∧ K.O_CLOEXEC.testBit b = false) ∨ oldfd = newfd →
      (sys_dup3 K B s oldfd newfd flags).2 = s ∧
      ((sys_dup3 K B s oldfd newfd flags).1 = neg_errno K.EBADF ∨
       (sys_dup3 K B s oldfd newfd flags).1 = neg_errno K.EINVAL)) ∧
    ((K.MAX_FD_NUM ≤ oldfd ∨ s.task.fds oldfd = none) →
      (sys_dup3 K B s oldfd newfd flags).1 = neg_errno K.EBADF) ∧
    (K.MAX_FD_NUM ≤ newfd → (sys_dup3 K B s oldfd newfd flags).1 = neg_errno K.EBADF) ∧
    (oldfd < K.MAX_FD_NUM → s.task.fds oldfd ≠ none → newfd < K.MAX_FD_NUM →
      (∃ b, flags.testBit b = true ∧ K.O_CLOEXEC.testBit b = false) →
      (sys_dup3 K B s oldfd newfd flags).1 = neg_errno K.EINVAL) ∧
    (oldfd < K.MAX_FD_NUM → s.task.fds oldfd ≠ none → newfd < K.MAX_FD_NUM →
      (¬ ∃ b, flags.testBit b = true ∧ K.O_CLOEXEC.testBit b = false) → oldfd = newfd →
      (sys_dup3 K B s oldfd newfd flags).1 = neg_errno K.EBADF) ∧
    (oldfd < K.MAX_FD_NUM → newfd < K.MAX_FD_NUM →
      (¬ ∃ b, flags.testBit b = true ∧ K.O_CLOEXEC.testBit b = false) → oldfd ≠ newfd →
      ∀ h0, s.task.fds oldfd = some h0 →
      ∃ s1 : fs_state,
        (s.task.fds newfd ≠ none → s1 = (sys_close K s newfd).2) ∧
        (s.task.fds newfd = none → s1 = s) ∧
        s1.task.fds newfd = none ∧
        (∀ j, j ≠ newfd → s1.task.fds j = s.task.fds j) ∧
        (B.vfs_dup s1.vfs h0 = none →
          sys_dup3 K B s oldfd newfd flags = (neg_errno K.EMFILE, s1)) ∧
        (∀ new_node, B.vfs_dup s1.vfs h0 = some new_node →
          (sys_dup3 K B s oldfd newfd flags).1 = newfd ∧
          (sys_dup3 K B s oldfd newfd flags).2.task.fds newfd =
            some (if flags &&& K.O_CLOEXEC ≠ 0 then
              { new_node with flags := new_node.flags ||| K.O_CLOEXEC } else new_node) ∧
          (∀ j, j ≠ newfd → (sys_dup3 K B s oldfd newfd flags).2.task.fds j = s.task.fds j) ∧
          (sys_dup3 K B s oldfd newfd flags).2.task =
            { s1.task with fds := (sys_dup3 K B s oldfd newfd flags).2.task.fds } ∧
          (sys_dup3 K B s oldfd newfd flags).2.vfs =
            { s1.vfs with nodes := Function.update s1.vfs.nodes new_node.node { s1.vfs.nodes new_node.node with refcount := (s1.vfs.nodes new_node.node).refcount + 1 } })) := by
  have hiff := flags_outside_iff flags K.O_CLOEXEC hflags hO
  have hA : (K.MAX_FD_NUM ≤ oldfd ∨ s.task.fds oldfd = none) →
      sys_dup3 K B s oldfd newfd flags = (neg_errno K.EBADF, s) := by
    intro h
    unfold sys_dup3
    by_cases h1 : K.MAX_FD_NUM ≤ oldfd
    · rw [if_pos h1]
    · rw [if_neg h1, if_pos (h.resolve_left h1)]
  have hB : K.MAX_FD_NUM ≤ newfd →
      sys_dup3 K B s oldfd newfd flags = (neg_errno K.EBADF, s) := by
    intro h
    by_cases hold : K.MAX_FD_NUM ≤ oldfd ∨ s.task.fds oldfd = none
    · exact hA hold
    · unfold sys_dup3
      rw [if_neg (fun h1 => hold (Or.inl h1)), if_neg (fun h1 => hold (Or.inr h1)), if_pos h]
  have hC : ¬ (K.MAX_FD_NUM ≤ oldfd ∨ s.task.fds oldfd = none) → ¬ K.MAX_FD_NUM ≤ newfd →
      (∃ b, flags.testBit b = true ∧ K.O_CLOEXEC.testBit b = false) →
      sys_dup3 K B s oldfd newfd flags = (neg_errno K.EINVAL, s) := by
    intro hold hnew hbad
    unfold sys_dup3
    rw [if_neg (fun h1 => hold (Or.inl h1)), if_neg (fun h1 => hold (Or.inr h1)), if_neg hnew,
      if_pos (hiff.mpr hbad)]
  have hD : ¬ (K.MAX_FD_NUM ≤ oldfd ∨ s.task.fds oldfd = none) → ¬ K.MAX_FD_NUM ≤ newfd →
      (¬ ∃ b, flags.testBit b = true ∧ K.O_CLOEXEC.testBit b = false) → oldfd = newfd →
      sys_dup3 K B s oldfd newfd flags = (neg_errno K.EBADF, s) := by
    intro hold hnew hbad heq
    unfold sys_dup3
    rw [if_neg (fun h1 => hold (Or.inl h1)), if_neg (fun h1 => hold (Or.inr h1)), if_neg hnew,
      if_neg (fun h1 => hbad (hiff.mp h1)), if_pos heq]
  refine ⟨?_, fun h => by rw [hA h], fun h => by rw [hB h], ?_, ?_, ?_⟩
  · intro h
    by_cases hold : K.MAX_FD_NUM ≤ oldfd ∨ s.task.fds oldfd = none
    · rw [hA hold]; exact ⟨rfl, Or.inl rfl⟩
    · by_cases hnew : K.MAX_FD_NUM ≤ newfd
      · rw [hB hnew]; exact ⟨rfl, Or.inl rfl⟩
      · by_cases hbad : ∃ b, flags.testBit b = true ∧ K.O_CLOEXEC.testBit b = false
        · rw [hC hold hnew hbad]; exact ⟨rfl, Or.inr rfl⟩
        · have heq : oldfd = newfd := by
            rcases h with h | h | h | h
            · exact absurd h hold
            · exact absurd h hnew
            · exact absurd h hbad
            · exact h
          rw [hD hold hnew hbad heq]; exact ⟨rfl, Or.inl rfl⟩
  · intro h1 h2 h3 hbad
    rw [hC (fun h => h.elim (fun h => by omega) h2) (by omega) hbad]
  · intro h1 h2 h3 hbad heq
    rw [hD (fun h => h.elim (fun h => by omega) h2) (by omega) hbad heq]
  · intro h1 h3 hbad hne h0 hfd
    have hs1 : (if s.task.fds newfd ≠ none then (sys_close K s newfd).2 else s).task.fds oldfd
        = some h0 := by
      by_cases hlive : s.task.fds newfd ≠ none
      · rw [if_pos hlive]
        obtain ⟨hn, hhn⟩ := Option.ne_none_iff_exists'.mp hlive
        rw [(sys_close_live K s newfd hn h3 hhn).2.2.1 oldfd hne, hfd]
      · rw [if_neg hlive, hfd]
    have hnull : (if s.task.fds newfd ≠ none then (sys_close K s newfd).2 else s).task.fds newfd
        = none := by
      by_cases hlive : s.task.fds newfd ≠ none
      · rw [if_pos hlive]
        obtain ⟨hn, hhn⟩ := Option.ne_none_iff_exists'.mp hlive
        exact (sys_close_live K s newfd hn h3 hhn).2.1
      · rw [if_neg hlive]
        exact not_not.mp hlive
    have hrest : ∀ j, j ≠ newfd →
        (if s.task.fds newfd ≠ none then (sys_close K s newfd).2 else s).task.fds j
          = s.task.fds j := by
      intro j hj
      by_cases hlive : s.task.fds newfd ≠ none
      · rw [if_pos hlive]
        obtain ⟨hn, hhn⟩ := Option.ne_none_iff_exists'.mp hlive
        exact (sys_close_live K s newfd hn h3 hhn).2.2.1 j hj
      · rw [if_neg hlive]
    have g1 : ¬ K.MAX_FD_NUM ≤ oldfd := by omega
    have g2 : ¬ s.task.fds oldfd = none := by rw [hfd]; simp
    have g3 : ¬ K.MAX_FD_NUM ≤ newfd := by omega
    have g4 : ¬ (flags &&& not64 K.O_CLOEXEC ≠ 0) := fun h => hbad (hiff.mp h)
    refine ⟨if s.task.fds newfd ≠ none then (sys_close K s newfd).2 else s,
      fun hl => if_pos hl, fun hl => if_neg (not_not.mpr hl), hnull, hrest, ?_, ?_⟩
    · intro hnone
      unfold sys_dup3
      rw [if_neg g1, if_neg g2, if_neg g3, if_neg g4, if_neg hne]
      simp only [hs1, Option.some_bind, hnone]
    · intro new_node hsome
      unfold sys_dup3
      rw [if_neg g1, if_neg g2, if_neg g3, if_neg g4, if_neg hne]
      simp only [hs1, Option.some_bind, hsome, Function.update_same, true_and]
      refine ⟨fun j hj => ?_, trivial⟩
      rw [Function.update_noteq hj]
      exact hrest j hj

/-- C10 amended, at two concrete calls of task 1, whose descriptors 2 and 3 are
live.  With a backend whose `vfs_dup` succeeds, `sys_dup3(3, 2, O_CLOEXEC)`
returns 2 and leaves in slot 2 the copied handle with `O_CLOEXEC` set.  With a
backend whose `vfs_dup` fails, `sys_dup3(3, 2, 0)` returns `-EMFILE` and leaves
the state of `sys_close(2)`: descriptor 2 is closed. -/
theorem C10_sys_dup3_witness :
    sample_fs.task.fds 2 ≠ none ∧
    (sys_dup3 sample_config sample_ops sample_fs 3 2 524288).1 = 2 ∧
    (sys_dup3 sample_config sample_ops sample_fs 3 2 524288).2.task.fds 2
      = some ⟨7, 0, 524288⟩ ∧
    (sys_dup3 sample_config failing_dup_ops sample_fs 3 2 0).1 = neg_errno sample_config.EMFILE ∧
    (sys_dup3 sample_config failing_dup_ops sample_fs 3 2 0).2
      = (sys_close sample_config sample_fs 2).2 ∧
    (sys_dup3 sample_config failing_dup_ops sample_fs 3 2 0).2.task.fds 2 = none := by
  have hbits : ∀ f : Nat, f = 0 ∨ f = 524288 →
      ¬ ∃ b, f.testBit b = true ∧ sample_config.O_CLOEXEC.testBit b = false := by
    rintro f hf ⟨b, hb1, hb2⟩
    rw [show sample_config.O_CLOEXEC = 524288 from rfl] at hb2
    rcases hf with hf | hf
    · rw [hf, Nat.zero_testBit] at hb1
      cases hb1
    · rw [hf, hb2] at hb1
      cases hb1
  have hlive : sample_fs.task.fds 2 ≠ none := by decide
  obtain ⟨s1, -, -, -, -, -, hok⟩ :=
    (C10_sys_dup3 sample_config sample_ops sample_fs 3 2 524288 (by decide) (by decide)).2.2.2.2.2
      (by decide) (by decide) (hbits _ (Or.inr rfl)) (by decide) ⟨7, 0, 0⟩ rfl
  obtain ⟨t1, hclose, -, hnull, -, hfail, -⟩ :=
    (C10_sys_dup3 sample_config failing_dup_ops sample_fs 3 2 0 (by decide) (by decide)).2.2.2.2.2
      (by decide) (by decide) (hbits _ (Or.inl rfl)) (by decide) ⟨7, 0, 0⟩ rfl
  have e1 := hok ⟨7, 0, 0⟩ rfl
  have e2 := hfail rfl
  refine ⟨hlive, e1.1, e1.2.1, ?_, ?_, ?_⟩
  · rw [e2]
  · rw [e2, hclose hlive]
  · rw [e2]
    exact hnull

/-! ## C11: close-on-exec after `sys_dup3` and `sys_dup2` -/

theorem or_and_self (x o : Nat) : (x ||| o) &&& o = o := by
  apply Nat.eq_of_testBit_eq
  intro i
  rw [Nat.testBit_and, Nat.testBit_or]
  cases x.testBit i <;> cases o.testBit i <;> rfl

theorem and_not64_self (o : Nat) (ho : o < 2 ^ 64) : o &&& not64 o = 0 := by
  by_contra hne
  obtain ⟨b, hb1, hb2⟩ := (flags_outside_iff o o ho ho).mp hne
  rw [hb1] at hb2
  cases hb2

/-- The handle that a successful `sys_dup3` leaves in slot `newfd`. -/
theorem sys_dup3_success (K : Config) (B : vfs_ops) (s : fs_state) (oldfd newfd flags : Nat)
    (h new_node : fd_t) (h1 : oldfd < K.MAX_FD_NUM) (hfd : s.task.fds oldfd = some h)
    (h3 : newfd < K.MAX_FD_NUM) (hfl : flags &&& not64 K.O_CLOEXEC = 0) (hne : oldfd ≠ newfd)
    (hdup : B.vfs_dup (if s.task.fds newfd ≠ none then (sys_close K s newfd).2 else s).vfs h
      = some new_node) :
    (sys_dup3 K B s oldfd newfd flags).1 = newfd ∧
    (sys_dup3 K B s oldfd newfd flags).2.task.fds newfd =
      some (if flags &&& K.O_CLOEXEC ≠ 0 then
        { new_node with flags := new_node.flags ||| K.O_CLOEXEC } else new_node) := by
  have hs1 : (if s.task.fds newfd ≠ none then (sys_close K s newfd).2 else s).task.fds oldfd
      = some h := by
    by_cases hlive : s.task.fds newfd ≠ none
    · rw [if_pos hlive]
      obtain ⟨hn, hhn⟩ := Option.ne_none_iff_exists'.mp hlive
      rw [(sys_close_live K s newfd hn h3 hhn).2.2.1 oldfd hne, hfd]
    · rw [if_neg hlive, hfd]
  have g1 : ¬ K.MAX_FD_NUM ≤ oldfd := by omega
  have g2 : ¬ s.task.fds oldfd = none := by rw [hfd]; simp
  have g3 : ¬ K.MAX_FD_NUM ≤ newfd := by omega
  have g4 : ¬ (flags &&& not64 K.O_CLOEXEC ≠ 0) := fun h => h hfl
  unfold sys_dup3
  rw [if_neg g1, if_neg g2, if_neg g3, if_neg g4, if_neg hne]
  simp only [hs1, Option.some_bind, hdup, Function.update_same, and_self]

/-- Close-on-exec after a duplication onto a slot `b` of the table,
`b < MAX_FD_NUM`: let `vfs_dup` return handles with the flags of their source
and let `O_CLOEXEC` be a non-zero constant.  A `sys_dup3(a, b, O_CLOEXEC)` whose
checks pass and whose `vfs_dup` succeeds returns `b`, and `sys_fcntl(b, F_GETFD)`
then returns 1.  A `sys_dup2(a, b)` whose `vfs_dup` succeeds returns `b`, and
`sys_fcntl(b, F_GETFD)` then returns 1 if the handle at `a` had `O_CLOEXEC` set
and 0 otherwise.  Neither `sys_fcntl` call changes the state. -/
theorem cloexec_after_dup_in_table (K : Config) (B : vfs_ops) (s : fs_state) (a b : Nat) (h : fd_t)
    (hO : K.O_CLOEXEC ≠ 0) (hO64 : K.O_CLOEXEC < 2 ^ 64)
    (hflags : ∀ v x y, B.vfs_dup v x = some y → y.flags = x.flags)
    (ha : s.task.fds a = some h) (hb : b < K.MAX_FD_NUM) :
    (a < K.MAX_FD_NUM → a ≠ b →
      B.vfs_dup (if s.task.fds b ≠ none then (sys_close K s b).2 else s).vfs h ≠ none →
      (sys_dup3 K B s a b K.O_CLOEXEC).1 = b ∧
      sys_fcntl K B (sys_dup3 K B s a b K.O_CLOEXEC).2 b K.F_GETFD 0 =
        some (1, (sys_dup3 K B s a b K.O_CLOEXEC).2)) ∧
    (B.vfs_dup s.vfs h ≠ none →
      (sys_dup2 K B s a b).1 = b ∧
      sys_fcntl K B (sys_dup2 K B s a b).2 b K.F_GETFD 0 =
        some (if h.flags &&& K.O_CLOEXEC ≠ 0 then 1 else 0, (sys_dup2 K B s a b).2)) := by
  have hnb : ¬ K.MAX_FD_NUM < b := by omega
  constructor
  · intro ha1 hab hdup
    obtain ⟨y, hy⟩ := Option.ne_none_iff_exists'.mp hdup
    obtain ⟨hret, hslot⟩ := sys_dup3_success K B s a b K.O_CLOEXEC h y ha1 ha hb
      (and_not64_self K.O_CLOEXEC hO64) hab hy
    refine ⟨hret, ?_⟩
    have hself : K.O_CLOEXEC &&& K.O_CLOEXEC ≠ 0 := by rw [Nat.and_self]; exact hO
    rw [if_pos hself] at hslot
    unfold sys_fcntl
    rw [if_neg hnb]
    simp only [hslot, if_true, or_and_self, hO, ne_eq, not_false_eq_true]
  · intro hdup
    obtain ⟨y, hy⟩ := Option.ne_none_iff_exists'.mp hdup
    have hyf : y.flags = h.flags := hflags _ _ _ hy
    have hres : (sys_dup2 K B s a b).1 = b ∧ (sys_dup2 K B s a b).2.task.fds b = some y := by
      unfold sys_dup2
      simp only [ha, hy, Function.update_same, and_self]
    refine ⟨hres.1, ?_⟩
    unfold sys_fcntl
    rw [if_neg hnb]
    simp only [hres.2, if_true, hyf]

/-- Task 1 duplicates descriptor 3 (flags 0) onto slot 5, once with `sys_dup3`
and `O_CLOEXEC`, once with `sys_dup2`. -/
theorem cloexec_after_dup_in_table_sample :
    (sys_fcntl sample_config sample_ops
        (sys_dup3 sample_config sample_ops sample_fs 3 5 sample_config.O_CLOEXEC).2 5
        sample_config.F_GETFD 0).map (fun r => r.1) = some 1 ∧
    (sys_fcntl sample_config sample_ops
        (sys_dup2 sample_config sample_ops sample_fs 3 5).2 5
        sample_config.F_GETFD 0).map (fun r => r.1) = some 0 := by
  have hw := cloexec_after_dup_in_table sample_config sample_ops sample_fs 3 5 ⟨7, 0, 0⟩
    (by decide) (by decide) (fun _ x y hxy => by cases hxy; rfl) rfl (by decide)
  obtain ⟨h3, h2⟩ := hw
  have e3 := (h3 (by decide) (by decide) (Option.some_ne_none _)).2
  have e2 := (h2 (Option.some_ne_none _)).2
  rw [e3, e2]
  exact ⟨rfl, rfl⟩

/-- C11, the code at the failing input: the table of task 1 has
`MAX_FD_NUM = 16` slots, descriptor 3 is live with the flag word 0, and `vfs_dup`
copies the handle, flags included.  `sys_dup2(3, 20)` makes no range test on
`newfd`: it succeeds, returns 20 and stores the handle at index 20, past the
table.  `sys_fcntl(20, F_GETFD)` then returns `-EBADF`, neither 0 nor 1.  The
sibling `sys_dup3(3, 20, 0)` rejects the same `newfd` with `-EBADF`. -/
theorem C11_dup2_beyond_table :
    sample_fs.task.fds 3 = some ⟨7, 0, 0⟩ ∧
    sample_ops.vfs_dup sample_fs.vfs ⟨7, 0, 0⟩ = some ⟨7, 0, 0⟩ ∧
    sample_config.MAX_FD_NUM = 16 ∧
    (sys_dup2 sample_config sample_ops sample_fs 3 20).1 = 20 ∧
    (sys_dup2 sample_config sample_ops sample_fs 3 20).2.task.fds 20 = some ⟨7, 0, 0⟩ ∧
    sys_fcntl sample_config sample_ops (sys_dup2 sample_config sample_ops sample_fs 3 20).2 20
        sample_config.F_GETFD 0
      = some (neg_errno sample_config.EBADF, (sys_dup2 sample_config sample_ops sample_fs 3 20).2) ∧
    neg_errno sample_config.EBADF ≠ 0 ∧ neg_errno sample_config.EBADF ≠ 1 ∧
    (sys_dup3 sample_config sample_ops sample_fs 3 20 0).1 = neg_errno sample_config.EBADF := by
  refine ⟨rfl, rfl, rfl, rfl, ?_, rfl, by decide, by decide, rfl⟩
  rfl

/-! ## C12, C13, C14: `sys_fcntl`, `sys_dup`, `sys_dup2` at the failing inputs -/

/-- C12, the code at the failing input: descriptor 3 of task 1 has the flag
word 0, so `F_GETFD` returns 0.  `sys_fcntl(3, F_SETFD, 0)` does not look at its
argument: it sets `O_CLOEXEC`, returns the new flag word 524288, and the
following `F_GETFD` returns 1. -/
theorem C12_setfd_sets_cloexec_for_arg_zero :
    (sys_fcntl sample_config sample_ops sample_fs 3 sample_config.F_GETFD 0).map
      (fun r => r.1) = some 0 ∧
    ∃ s1, sys_fcntl sample_config sample_ops sample_fs 3 sample_config.F_SETFD 0
        = some (524288, s1) ∧
      (sys_fcntl sample_config sample_ops s1 3 sample_config.F_GETFD 0).map
        (fun r => r.1) = some 1 :=
  ⟨rfl, _, rfl, rfl⟩

/-- C13, the code at the failing input: task 1 opens "/a" with bit 40 set in
the flag word and gets descriptor 4; `sys_fcntl(4, F_SETFL, 0)` returns 0 and
leaves the flag word 0, whereas `(f & ~M) | (arg & M)` is `2^40`: the bits from
32 up are cleared by the 32-bit complement of `valid_flags`. -/
theorem C13_setfl_clears_high_bits :
    ∃ s1 s2, sys_open sample_config sample_ops sample_fs "/a" (2 ^ 40) 0 = (4, s1) ∧
      (s1.task.fds 4).map (fun h => h.flags) = some (2 ^ 40) ∧
      sys_fcntl sample_config sample_ops s1 4 sample_config.F_SETFL 0 = some (0, s2) ∧
      (s2.task.fds 4).map (fun h => h.flags) = some 0 ∧
      ((2 ^ 40 &&& not64 (valid_flags sample_config)) ||| (0 &&& valid_flags sample_config))
        = 2 ^ 40 :=
  ⟨_, _, rfl, rfl, rfl, rfl, by decide⟩

/-- C14, the code at the failing inputs, with `MAX_FD_NUM = 16`.
(a) `sys_dup2(3, 20)` makes no range check on `newfd`: it returns 20, not
`-EBADF`, and stores a handle in slot 20, outside the table.
(b) `sys_dup(9)` on the null slot 9 dereferences it (the model's `none`).
(c) `sys_fcntl(16, F_GETFD)` passes the test `fd > MAX_FD_NUM` and reads slot 16:
its result depends on the word behind the table, `-EBADF` when that word is
null and 0 when it is a handle without `O_CLOEXEC`. -/
theorem C14_descriptor_not_validated :
    ((16 : Nat) ≤ sample_config.MAX_FD_NUM ∧
      (sys_dup2 sample_config sample_ops sample_fs 3 20).1 = 20 ∧
      (20 : Nat) ≠ neg_errno sample_config.EBADF ∧
      ((sys_dup2 sample_config sample_ops sample_fs 3 20).2.task.fds 20).isSome = true ∧
      (sample_fs.task.fds 20).isSome = false) ∧
    (sample_fs.task.fds 9 = none ∧ sys_dup sample_config sample_ops sample_fs 9 = none) ∧
    ((sys_fcntl sample_config sample_ops sample_fs 16 sample_config.F_GETFD 0).map
        (fun r => r.1) = some (neg_errno sample_config.EBADF) ∧
      (sys_fcntl sample_config sample_ops
        { sample_fs with task := { sample_fs.task with
            fds := Function.update sample_fs.task.fds 16 (some ⟨7, 0, 0⟩) } }
        16 sample_config.F_GETFD 0).map (fun r => r.1) = some 0) :=
  ⟨⟨by decide, rfl, by decide, rfl, rfl⟩, ⟨rfl, rfl⟩, ⟨rfl, rfl⟩⟩

/-! ## C15: `sys_read` and `sys_write` -/

theorem to_u64_neg (e : Nat) (he : e ≤ 4095) : to_u64 (-(e : Int)) = neg_errno e := by
  unfold to_u64 neg_errno
  by_cases h0 : e = 0
  · subst h0; rfl
  · have h1 : (2 ^ 64 - e) % 2 ^ 64 = 2 ^ 64 - e := Nat.mod_eq_of_lt (by omega)
    rw [h1]
    have h2 : (-(e : Int)) % 2 ^ 64 = ((2 ^ 64 - e : Nat) : Int) := by
      rw [Nat.cast_sub (by omega)]
      push_cast
      omega
    rw [h2, Int.toNat_ofNat]

/-- The common body of `sys_read` and `sys_write` on a live descriptor with a
valid buffer. -/
theorem sys_rw_spec (K : Config) (B : vfs_ops)
    (io : vfs_t → Nat → Nat → Nat → Nat → Int × vfs_t) (s : fs_state) (fd buf len : Nat)
    (h : fd_t) (hE : K.EAGAIN ≤ 4095) (hfd : fd < K.MAX_FD_NUM) (hslot : s.task.fds fd = some h)
    (hbuf : buf ≠ 0) (hov : B.check_user_overflow buf len = false) :
    ((s.vfs.nodes h.node).type &&& K.file_dir = 0 →
      (sys_rw K B io s fd buf len).1 = to_u64 (io s.vfs h.node buf h.offset len).1 ∧
      (sys_rw K B io s fd buf len).2.vfs = (io s.vfs h.node buf h.offset len).2 ∧
      (sys_rw K B io s fd buf len).2.task.fds fd =
        some { h with offset :=
          if 0 < (io s.vfs h.node buf h.offset len).1 then
            (h.offset + (io s.vfs h.node buf h.offset len).1.toNat) % 2 ^ 64
          else h.offset } ∧
      (∀ j, j ≠ fd → (sys_rw K B io s fd buf len).2.task.fds j = s.task.fds j) ∧
      (sys_rw K B io s fd buf len).2.task =
        { s.task with fds := (sys_rw K B io s fd buf len).2.task.fds }) ∧
    ((s.vfs.nodes h.node).type &&& K.file_dir ≠ 0 →
      sys_rw K B io s fd buf len = (neg_errno K.EISDIR, s)) := by
  have g1 : ¬ (buf = 0 ∨ B.check_user_overflow buf len = true) := by
    rintro (h1 | h1)
    · exact hbuf h1
    · rw [hov] at h1; cases h1
  have g2 : ¬ K.MAX_FD_NUM ≤ fd := by omega
  constructor
  · intro hdir
    have g3 : ¬ ((s.vfs.nodes h.node).type &&& K.file_dir ≠ 0) := fun hn => hn hdir
    unfold sys_rw
    rw [if_neg g1, if_neg g2]
    simp only [hslot]
    rw [if_neg g3, if_neg hbuf]
    by_cases hpos : 0 < (io s.vfs h.node buf h.offset len).1
    · have hne : ¬ (io s.vfs h.node buf h.offset len).1 = -(K.EAGAIN : Int) := by omega
      simp only [hpos, if_true, hne, if_false, Function.update_same, true_and]
      exact ⟨fun j hj => Function.update_noteq hj _ _, trivial⟩
    · simp only [hpos, if_false]
      by_cases heq : (io s.vfs h.node buf h.offset len).1 = -(K.EAGAIN : Int)
      · simp only [heq, if_true, hslot, to_u64_neg K.EAGAIN hE, true_and]
        exact ⟨fun _ _ => trivial, trivial⟩
      · simp only [heq, if_false, hslot, true_and]
        exact ⟨fun _ _ => trivial, trivial⟩
  · intro hdir
    unfold sys_rw
    rw [if_neg g1, if_neg g2]
    simp only [hslot]
    rw [if_pos hdir]

/-- C15: for a live descriptor `fd` with handle `h` and a valid buffer.  If the
node is not a directory, `sys_read` and `sys_write` call the VFS at the offset
`h.offset` and return its result `r` (as a 64-bit value); afterwards the handle
offset is `h.offset + r` (in 64-bit arithmetic) if `r > 0` and `h.offset`
otherwise, the other fields of the handle, every other slot and every other
field of the task are unchanged.  If the node is a directory both return
`-EISDIR` and the state, VFS included, is unchanged. -/
theorem C15_read_write_offset (K : Config) (B : vfs_ops) (s : fs_state) (fd buf len : Nat)
    (h : fd_t) (hE : K.EAGAIN ≤ 4095) (hfd : fd < K.MAX_FD_NUM) (hslot : s.task.fds fd = some h)
    (hbuf : buf ≠ 0) (hov : B.check_user_overflow buf len = false) :
    ((s.vfs.nodes h.node).type &&& K.file_dir = 0 →
      ((sys_read K B s fd buf len).1 = to_u64 (B.vfs_read s.vfs h.node buf h.offset len).1 ∧
       (sys_read K B s fd buf len).2.vfs = (B.vfs_read s.vfs h.node buf h.offset len).2 ∧
       (sys_read K B s fd buf len).2.task.fds fd =
        some { h with offset :=
          if 0 < (B.vfs_read s.vfs h.node buf h.offset len).1 then
            (h.offset + (B.vfs_read s.vfs h.node buf h.offset len).1.toNat) % 2 ^ 64
          else h.offset } ∧
       (∀ j, j ≠ fd → (sys_read K B s fd buf len).2.task.fds j = s.task.fds j) ∧
       (sys_read K B s fd buf len).2.task =
        { s.task with fds := (sys_read K B s fd buf len).2.task.fds }) ∧
      ((sys_write K B s fd buf len).1 = to_u64 (B.vfs_write s.vfs h.node buf h.offset len).1 ∧
       (sys_write K B s fd buf len).2.vfs = (B.vfs_write s.vfs h.node buf h.offset len).2 ∧
       (sys_write K B s fd buf len).2.task.fds fd =
        some { h with offset :=
          if 0 < (B.vfs_write s.vfs h.node buf h.offset len).1 then
            (h.offset + (B.vfs_write s.vfs h.node buf h.offset len).1.toNat) % 2 ^ 64
          else h.offset } ∧
       (∀ j, j ≠ fd → (sys_write K B s fd buf len).2.task.fds j = s.task.fds j) ∧
       (sys_write K B s fd buf len).2.task =
        { s.task with fds := (sys_write K B s fd buf len).2.task.fds })) ∧
    ((s.vfs.nodes h.node).type &&& K.file_dir ≠ 0 →
      sys_read K B s fd buf len = (neg_errno K.EISDIR, s) ∧
      sys_write K B s fd buf len = (neg_errno K.EISDIR, s)) :=
  ⟨fun hdir =>
    ⟨(sys_rw_spec K B B.vfs_read s fd buf len h hE hfd hslot hbuf hov).1 hdir,
     (sys_rw_spec K B B.vfs_write s fd buf len h hE hfd hslot hbuf hov).1 hdir⟩,
   fun hdir =>
    ⟨(sys_rw_spec K B B.vfs_read s fd buf len h hE hfd hslot hbuf hov).2 hdir,
     (sys_rw_spec K B B.vfs_write s fd buf len h hE hfd hslot hbuf hov).2 hdir⟩⟩

/-- C15 at a concrete call: task 1 reads 10 bytes through descriptor 3 (a
regular file at offset 0) into the buffer at 4096; the backend transfers all
10. -/
theorem C15_read_write_offset_witness :
    (sys_read sample_config sample_ops sample_fs 3 4096 10).1 = 10 ∧
    (sys_read sample_config sample_ops sample_fs 3 4096 10).2.task.fds 3 = some ⟨7, 10, 0⟩ :=
  ⟨((C15_read_write_offset sample_config sample_ops sample_fs 3 4096 10 ⟨7, 0, 0⟩ (by decide)
      (by decide) rfl (by decide) (by decide)).1 (by decide)).1.1,
   ((C15_read_write_offset sample_config sample_ops sample_fs 3 4096 10 ⟨7, 0, 0⟩ (by decide)
      (by decide) rfl (by decide) (by decide)).1 (by decide)).1.2.2.1⟩

/-! ## C16, C17: `sys_lseek` -/

theorem to_u64_to_int64 (x : Nat) (hx : x < 2 ^ 64) : to_u64 (to_int64 x) = x := by
  unfold to_u64 to_int64
  split
  · have h1 : (x : Int) % 2 ^ 64 = (x : Int) := Int.emod_eq_of_lt (by omega) (by omega)
    rw [h1, Int.toNat_ofNat]
  · have h1 : ((x : Int) - 2 ^ 64) % 2 ^ 64 = (x : Int) := by omega
    rw [h1, Int.toNat_ofNat]

/-- The offsets of `sys_lseek` inside the 64-bit signed range: for a live
descriptor `fd` whose handle has offset `o` on a node of size `sz`, with `off`
the 64-bit argument read as a signed value.
`SEEK_SET` with `off >= 0` sets the offset to `off`.  `SEEK_CUR` sets it to
`o + off` clamped into `[0, sz]`, as long as `o + off` is a 64-bit signed value.
`SEEK_END` with `off >= 0` sets it to `sz - off` in 64-bit arithmetic, which is
the plain difference when `off <= sz`.  In each case the return value is the new
offset and nothing but the offset of this handle changes. -/
theorem lseek_offsets_in_range (K : Config) (s : fs_state) (fd off : Nat) (h : fd_t)
    (hfd : fd < K.MAX_FD_NUM) (hslot : s.task.fds fd = some h) (hoff : off < 2 ^ 64)
    (hsc : K.SEEK_SET ≠ K.SEEK_CUR) (hse : K.SEEK_SET ≠ K.SEEK_END)
    (hce : K.SEEK_CUR ≠ K.SEEK_END) :
    (0 ≤ to_int64 off → sys_lseek K s fd off K.SEEK_SET = lseek_set s fd h off) ∧
    (-(2 : Int) ^ 63 ≤ (h.offset : Int) + to_int64 off →
      (h.offset : Int) + to_int64 off < 2 ^ 63 →
      sys_lseek K s fd off K.SEEK_CUR = lseek_set s fd h
        (if (h.offset : Int) + to_int64 off < 0 then 0
         else if ((s.vfs.nodes h.node).size : Int) < (h.offset : Int) + to_int64 off then
           (s.vfs.nodes h.node).size
         else ((h.offset : Int) + to_int64 off).toNat)) ∧
    (0 ≤ to_int64 off →
      sys_lseek K s fd off K.SEEK_END =
        lseek_set s fd h (((s.vfs.nodes h.node).size + (2 ^ 64 - off)) % 2 ^ 64) ∧
      (off ≤ (s.vfs.nodes h.node).size → (s.vfs.nodes h.node).size < 2 ^ 64 →
        sys_lseek K s fd off K.SEEK_END = lseek_set s fd h ((s.vfs.nodes h.node).size - off))) ∧
    (∀ o, (lseek_set s fd h o).1 = o ∧
      (lseek_set s fd h o).2.task.fds fd = some { h with offset := o } ∧
      (∀ j, j ≠ fd → (lseek_set s fd h o).2.task.fds j = s.task.fds j) ∧
      (lseek_set s fd h o).2.vfs = s.vfs ∧
      (lseek_set s fd h o).2.task = { s.task with fds := (lseek_set s fd h o).2.task.fds }) := by
  have g2 : ¬ K.MAX_FD_NUM ≤ fd := by omega
  have hu := to_u64_to_int64 off hoff
  refine ⟨?_, ?_, ?_, ?_⟩
  · intro hpos
    have g3 : ¬ (to_int64 off < 0 ∧ (s.vfs.nodes h.node).type &&& K.file_none ≠ 0 ∧
        K.SEEK_SET ≠ K.SEEK_CUR) := fun hn => by omega
    unfold sys_lseek
    rw [if_neg g2]
    simp only [hslot]
    rw [if_neg g3, if_pos trivial, hu]
  · intro hlo hhi
    have g3 : ¬ (to_int64 off < 0 ∧ (s.vfs.nodes h.node).type &&& K.file_none ≠ 0 ∧
        K.SEEK_CUR ≠ K.SEEK_CUR) := fun hn => hn.2.2 rfl
    unfold sys_lseek
    rw [if_neg g2]
    simp only [hslot]
    rw [if_neg g3, if_neg (Ne.symm hsc), if_pos trivial, hu]
    have hto : to_int64 off = if off < 2 ^ 63 then (off : Int) else (off : Int) - 2 ^ 64 := rfl
    have ho1 : to_int64 ((h.offset + off) % 2 ^ 64) =
        if (h.offset + off) % 2 ^ 64 < 2 ^ 63 then (((h.offset + off) % 2 ^ 64 : Nat) : Int)
        else (((h.offset + off) % 2 ^ 64 : Nat) : Int) - 2 ^ 64 := rfl
    by_cases hneg : (h.offset : Int) + to_int64 off < 0
    · have hlt : to_int64 ((h.offset + off) % 2 ^ 64) < 0 := by
        rw [ho1]
        split_ifs at hto ⊢ <;> omega
      rw [if_pos hlt, if_pos hneg]
    · have hval : (((h.offset + off) % 2 ^ 64 : Nat) : Int) = (h.offset : Int) + to_int64 off := by
        split_ifs at hto <;> omega
      have hge : ¬ to_int64 ((h.offset + off) % 2 ^ 64) < 0 := by
        rw [ho1]
        split_ifs <;> omega
      rw [if_neg hge, if_neg hneg]
      by_cases hsz : (s.vfs.nodes h.node).size < (h.offset + off) % 2 ^ 64
      · have hsz1 : ((s.vfs.nodes h.node).size : Int) < (h.offset : Int) + to_int64 off := by
          omega
        rw [if_pos hsz, if_pos hsz1]
      · have hsz1 : ¬ ((s.vfs.nodes h.node).size : Int) < (h.offset : Int) + to_int64 off := by
          omega
        rw [if_neg hsz, if_neg hsz1]
        congr 1
        omega
  · intro hpos
    have g3 : ¬ (to_int64 off < 0 ∧ (s.vfs.nodes h.node).type &&& K.file_none ≠ 0 ∧
        K.SEEK_END ≠ K.SEEK_CUR) := fun hn => by omega
    have hend : sys_lseek K s fd off K.SEEK_END =
        lseek_set s fd h (((s.vfs.nodes h.node).size + (2 ^ 64 - off)) % 2 ^ 64) := by
      unfold sys_lseek
      rw [if_neg g2]
      simp only [hslot]
      rw [if_neg g3, if_neg (Ne.symm hse), if_neg (Ne.symm hce), if_pos trivial, hu]
    refine ⟨hend, ?_⟩
    intro hle hsz
    rw [hend]
    congr 1
    omega
  · intro o
    refine ⟨rfl, by simp [lseek_set], fun j hj => by simp [lseek_set, hj], rfl, rfl⟩

/-- At a concrete call, `sys_lseek(3, 5, SEEK_SET)` by task 1 returns 5 and
leaves the handle at offset 5. -/
theorem lseek_offsets_in_range_sample :
    sys_lseek sample_config sample_fs 3 5 sample_config.SEEK_SET = lseek_set sample_fs 3 ⟨7, 0, 0⟩ 5 ∧
    (lseek_set sample_fs 3 ⟨7, 0, 0⟩ 5).1 = 5 :=
  ⟨(lseek_offsets_in_range sample_config sample_fs 3 5 ⟨7, 0, 0⟩ (by decide) rfl (by decide)
      (by decide) (by decide) (by decide)).1 (by decide),
   ((lseek_offsets_in_range sample_config sample_fs 3 5 ⟨7, 0, 0⟩ (by decide) rfl (by decide)
      (by decide) (by decide) (by decide)).2.2.2 5).1⟩

/-- C16, the code at the failing input: descriptor 3 of task 1 is live at
offset 0 on a node of size 100.  `sys_lseek(3, 2^63 - 1, SEEK_SET)` returns
`2^63 - 1` and leaves that offset.  `sys_lseek(3, 1, SEEK_CUR)` then adds 1, the
sum `2^63` read as a signed value is negative, and the call sets the offset to 0
and returns 0, where `o + off = 2^63` clamped into `[0, 100]` is 100.  On the
initial state `sys_lseek(3, 101, SEEK_END)` returns `2^64 - 1`, the difference
`100 - 101` in 64-bit arithmetic. -/
theorem C16_lseek_cur_overflow :
    sample_sized_fs.task.fds 3 = some ⟨7, 0, 0⟩ ∧ (sample_sized_fs.vfs.nodes 7).size = 100 ∧
    (sys_lseek sample_config sample_sized_fs 3 (2 ^ 63 - 1) sample_config.SEEK_SET).1
      = 2 ^ 63 - 1 ∧
    (sys_lseek sample_config sample_sized_fs 3 (2 ^ 63 - 1) sample_config.SEEK_SET).2.task.fds 3
      = some ⟨7, 2 ^ 63 - 1, 0⟩ ∧
    (sys_lseek sample_config
        (sys_lseek sample_config sample_sized_fs 3 (2 ^ 63 - 1) sample_config.SEEK_SET).2
        3 1 sample_config.SEEK_CUR).1 = 0 ∧
    (sys_lseek sample_config
        (sys_lseek sample_config sample_sized_fs 3 (2 ^ 63 - 1) sample_config.SEEK_SET).2
        3 1 sample_config.SEEK_CUR).2.task.fds 3 = some ⟨7, 0, 0⟩ ∧
    max 0 (min (((2 ^ 63 - 1 : Nat) : Int) + to_int64 1) 100) = 100 ∧
    (sys_lseek sample_config sample_sized_fs 3 101 sample_config.SEEK_END).1 = 2 ^ 64 - 1 := by
  refine ⟨rfl, rfl, ?_, ?_, ?_, ?_, by decide, ?_⟩ <;> decide

/-- C17 as stated fails: descriptor 3 of task 1 is live, its node has the
`file_none` type bit, the offset is -1 and the whence 7 is none of the three
known values; `sys_lseek` returns `-EBADF`, which is not `-ENOSYS`. -/
theorem C17_negative_offset_gives_ebadf :
    (sample_fs.task.fds 3 = some ⟨7, 0, 0⟩ ∧
      (7 : Nat) ≠ sample_config.SEEK_SET ∧ (7 : Nat) ≠ sample_config.SEEK_CUR ∧
      (7 : Nat) ≠ sample_config.SEEK_END) ∧
    (sys_lseek sample_config sample_fs 3 (2 ^ 64 - 1) 7).1 = neg_errno sample_config.EBADF ∧
    neg_errno sample_config.EBADF ≠ neg_errno sample_config.ENOSYS :=
  ⟨⟨rfl, by decide, by decide, by decide⟩, rfl, by decide⟩

/-- C17, amended: for every live descriptor, every 64-bit offset value and
every whence outside `{SEEK_SET, SEEK_CUR, SEEK_END}`, `sys_lseek` leaves the
state unchanged and returns `-ENOSYS`, except that a negative offset on a node
with the `file_none` type bit returns `-EBADF`. -/
theorem C17_lseek_bad_whence (K : Config) (s : fs_state) (fd off whence : Nat) (h : fd_t)
    (hfd : fd < K.MAX_FD_NUM) (hslot : s.task.fds fd = some h)
    (hws : whence ≠ K.SEEK_SET) (hwc : whence ≠ K.SEEK_CUR) (hwe : whence ≠ K.SEEK_END) :
    sys_lseek K s fd off whence =
      (if to_int64 off < 0 ∧ (s.vfs.nodes h.node).type &&& K.file_none ≠ 0 then
        neg_errno K.EBADF else neg_errno K.ENOSYS, s) := by
  have g2 : ¬ K.MAX_FD_NUM ≤ fd := by omega
  unfold sys_lseek
  rw [if_neg g2]
  simp only [hslot]
  by_cases hneg : to_int64 off < 0 ∧ (s.vfs.nodes h.node).type &&& K.file_none ≠ 0
  · rw [if_pos ⟨hneg.1, hneg.2, hwc⟩, if_pos hneg]
  · rw [if_neg (fun hn => hneg ⟨hn.1, hn.2.1⟩), if_neg hws, if_neg hwc, if_neg hwe, if_neg hneg]

/-- C17 amended, at a concrete call: `sys_lseek(3, 5, 7)` by task 1 returns
`-ENOSYS` with the state unchanged. -/
theorem C17_lseek_bad_whence_witness :
    sys_lseek sample_config sample_fs 3 5 7 = (neg_errno sample_config.ENOSYS, sample_fs) :=
  (C17_lseek_bad_whence sample_config sample_fs 3 5 7 ⟨7, 0, 0⟩ (by decide) rfl (by decide)
    (by decide) (by decide)).trans (by
      have hn : ¬ (to_int64 5 < 0 ∧
          (sample_fs.vfs.nodes (⟨7, 0, 0⟩ : fd_t).node).type &&& sample_config.file_none ≠ 0) :=
        fun hc => absurd hc.1 (by decide)
      rw [if_neg hn])

/-! ## C18: `sys_getdents` -/

/-- The loop of `sys_getdents` once the local offset has caught up with the
handle offset: it writes records until `max_dents_num` is reached or the list
ends. -/
theorem getdents_loop_emit (K : Config) (v : vfs_t) (cc : Nat) (mx : Int)
    (hD : 0 < K.SIZEOF_DIRENT) :
    ∀ (rest : List Nat) (st : getdents_state), st.offset = st.fd_offset →
      st.fd_offset + rest.length * K.SIZEOF_DIRENT ≤ cc * K.SIZEOF_DIRENT →
      (getdents_loop K v cc mx rest st).fd_offset =
        st.fd_offset + min (mx - st.read_count).toNat rest.length * K.SIZEOF_DIRENT ∧
      (getdents_loop K v cc mx rest st).read_count =
        st.read_count + min (mx - st.read_count).toNat rest.length ∧
      (getdents_loop K v cc mx rest st).dents =
        st.dents ++ getdents_records K v st.fd_offset
          (rest.take (min (mx - st.read_count).toNat rest.length)) := by
  intro rest
  induction rest with
  | nil =>
    intro st _ _
    simp [getdents_loop, getdents_records]
  | cons c rest ih =>
    intro st heq hlen
    have hlen1 : st.fd_offset + (rest.length + 1) * K.SIZEOF_DIRENT ≤ cc * K.SIZEOF_DIRENT := by
      simpa using hlen
    have hmul : (rest.length + 1) * K.SIZEOF_DIRENT
        = rest.length * K.SIZEOF_DIRENT + K.SIZEOF_DIRENT := by ring
    have g1 : ¬ st.offset < st.fd_offset := by omega
    have g2 : ¬ cc * K.SIZEOF_DIRENT ≤ st.fd_offset := by omega
    unfold getdents_loop
    rw [if_neg g1, if_neg g2]
    by_cases hfull : mx ≤ (st.read_count : Int)
    · rw [if_pos hfull]
      have hz : (mx - (st.read_count : Int)).toNat = 0 := by omega
      simp [hz, getdents_records]
    · rw [if_neg hfull]
      obtain ⟨h1, h2, h3⟩ := ih
        { offset := st.offset + K.SIZEOF_DIRENT, fd_offset := st.fd_offset + K.SIZEOF_DIRENT,
          read_count := st.read_count + 1,
          dents := st.dents ++ [getdents_record K (v.nodes c) st.fd_offset] }
        (by simp [heq]) (by simp only; omega)
      simp only at h1 h2 h3
      have hs : (mx - (st.read_count : Int)).toNat
          = (mx - ((st.read_count + 1 : Nat) : Int)).toNat + 1 := by
        push_cast
        omega
      have hmin : min (mx - (st.read_count : Int)).toNat (c :: rest).length
          = min (mx - ((st.read_count + 1 : Nat) : Int)).toNat rest.length + 1 := by
        rw [hs, List.length_cons, Nat.succ_min_succ]
      rw [hmin, h1, h2, h3]
      refine ⟨by ring, by ring, ?_⟩
      simp [List.take_succ_cons, getdents_records]

/-- The loop of `sys_getdents` from list position `j` with the handle at
position `k`: the children before `k` are skipped, then records are written. -/
theorem getdents_loop_skip (K : Config) (v : vfs_t) (cc : Nat) (mx : Int) (k : Nat)
    (hD : 0 < K.SIZEOF_DIRENT) :
    ∀ (rest : List Nat) (st : getdents_state) (j : Nat),
      st.offset = j * K.SIZEOF_DIRENT → st.fd_offset = k * K.SIZEOF_DIRENT → j ≤ k →
      j + rest.length = cc →
      (getdents_loop K v cc mx rest st).fd_offset =
        k * K.SIZEOF_DIRENT +
          min (mx - st.read_count).toNat (rest.drop (k - j)).length * K.SIZEOF_DIRENT ∧
      (getdents_loop K v cc mx rest st).read_count =
        st.read_count + min (mx - st.read_count).toNat (rest.drop (k - j)).length ∧
      (getdents_loop K v cc mx rest st).dents =
        st.dents ++ getdents_records K v (k * K.SIZEOF_DIRENT)
          ((rest.drop (k - j)).take (min (mx - st.read_count).toNat (rest.drop (k - j)).length))
      := by
  intro rest
  induction rest with
  | nil =>
    intro st j _ hfd _ _
    simp [getdents_loop, getdents_records, hfd]
  | cons c rest ih =>
    intro st j hoff hfd hjk hlen
    by_cases hlt : j < k
    · have g1 : st.offset < st.fd_offset := by
        rw [hoff, hfd]
        exact Nat.mul_lt_mul_of_pos_right hlt hD
      unfold getdents_loop
      rw [if_pos g1]
      have hdrop : (c :: rest).drop (k - j) = rest.drop (k - (j + 1)) := by
        have hk : k - j = (k - (j + 1)) + 1 := by omega
        rw [hk, List.drop_succ_cons]
      rw [hdrop]
      exact ih { st with offset := st.offset + K.SIZEOF_DIRENT } (j + 1)
        (by simp only [hoff]; ring) hfd (by omega) (by simp at hlen; omega)
    · have hjk1 : j = k := by omega
      subst hjk1
      have hemit := getdents_loop_emit K v cc mx hD (c :: rest) st (by rw [hoff, hfd])
        (by rw [hfd, ← Nat.add_mul, hlen])
      simp only [Nat.sub_self, List.drop_zero]
      rw [← hfd]
      exact hemit

theorem getdents_records_ino (K : Config) (v : vfs_t) :
    ∀ (cs : List Nat) (off : Nat),
      (getdents_records K v off cs).map (fun d => d.d_ino) = cs.map (fun c => (v.nodes c).inode) ∧
      (getdents_records K v off cs).length = cs.length := by
  intro cs
  induction cs with
  | nil => intro off; simp [getdents_records]
  | cons c cs ih =>
    intro off
    simp [getdents_records, getdents_record, (ih (off + K.SIZEOF_DIRENT)).1,
      (ih (off + K.SIZEOF_DIRENT)).2]

/-- One call of `sys_getdents` on a directory descriptor whose handle offset
is `k * sizeof(dirent)`. -/
theorem sys_getdents_spec (K : Config) (B : vfs_ops) (s : fs_state) (fd buf size k : Nat)
    (h : fd_t) (hfd : fd < K.MAX_FD_NUM) (hslot : s.task.fds fd = some h)
    (hdir : (s.vfs.nodes h.node).type &&& K.file_dir ≠ 0)
    (hov : B.check_user_overflow buf size = false) (hD : 0 < K.SIZEOF_DIRENT)
    (hsize : size / K.SIZEOF_DIRENT < 2 ^ 63) (hoff : h.offset = k * K.SIZEOF_DIRENT) :
    sys_getdents K B s fd buf size =
      (min (size / K.SIZEOF_DIRENT) ((s.vfs.nodes h.node).child.length - k) * K.SIZEOF_DIRENT,
       getdents_records K s.vfs (k * K.SIZEOF_DIRENT)
        (((s.vfs.nodes h.node).child.drop k).take
          (min (size / K.SIZEOF_DIRENT) ((s.vfs.nodes h.node).child.length - k))),
       { s with task := { s.task with
          fds := Function.update s.task.fds fd (some { h with offset :=
            (k + min (size / K.SIZEOF_DIRENT) ((s.vfs.nodes h.node).child.length - k))
              * K.SIZEOF_DIRENT }) } }) := by
  have g1 : ¬ B.check_user_overflow buf size = true := by rw [hov]; simp
  have g2 : ¬ K.MAX_FD_NUM ≤ fd := by omega
  have hmx : to_int64 (size / K.SIZEOF_DIRENT) = ((size / K.SIZEOF_DIRENT : Nat) : Int) := by
    unfold to_int64
    rw [if_pos hsize]
  obtain ⟨h1, h2, h3⟩ := getdents_loop_skip K s.vfs (s.vfs.nodes h.node).child.length
    (to_int64 (size / K.SIZEOF_DIRENT)) k hD (s.vfs.nodes h.node).child
    { offset := 0, fd_offset := h.offset, read_count := 0, dents := [] } 0
    (by simp) hoff (Nat.zero_le k) (by simp)
  simp only [hmx, Nat.cast_zero, sub_zero, Int.toNat_ofNat, Nat.sub_zero, List.length_drop,
    List.nil_append, Nat.zero_add] at h1 h2 h3
  unfold sys_getdents
  rw [if_neg g1, if_neg g2]
  simp only [hslot]
  rw [if_neg hdir]
  simp only [hmx, h1, h2, h3]
  rw [Nat.add_mul]

/-- Repeated calls with room for at least one record enumerate the children
from the position of the handle to the end of the list. -/
theorem getdents_repeat_spec (K : Config) (B : vfs_ops) (fd buf size : Nat)
    (hov : B.check_user_overflow buf size = false) (hD : 0 < K.SIZEOF_DIRENT)
    (hsize : size / K.SIZEOF_DIRENT < 2 ^ 63) (hroom : K.SIZEOF_DIRENT ≤ size)
    (hfd : fd < K.MAX_FD_NUM) :
    ∀ (fuel k : Nat) (s : fs_state) (h : fd_t), s.task.fds fd = some h →
      (s.vfs.nodes h.node).type &&& K.file_dir ≠ 0 → h.offset = k * K.SIZEOF_DIRENT →
      (s.vfs.nodes h.node).child.length - k ≤ fuel →
      (getdents_repeat K B fd buf size fuel s).map (fun d => d.d_ino) =
        ((s.vfs.nodes h.node).child.drop k).map (fun c => (s.vfs.nodes c).inode) := by
  have hone : 1 ≤ size / K.SIZEOF_DIRENT := (Nat.one_le_div_iff hD).mpr hroom
  intro fuel
  induction fuel with
  | zero =>
    intro k s h _ _ _ hlen
    have hnil : (s.vfs.nodes h.node).child.drop k = [] :=
      List.drop_eq_nil_of_le (by omega)
    simp [getdents_repeat, hnil]
  | succ fuel ih =>
    intro k s h hslot hdir hoff hlen
    have hspec := sys_getdents_spec K B s fd buf size k h hfd hslot hdir hov hD hsize hoff
    unfold getdents_repeat
    rw [hspec]
    simp only
    by_cases hm : min (size / K.SIZEOF_DIRENT) ((s.vfs.nodes h.node).child.length - k) = 0
    · have hnk : (s.vfs.nodes h.node).child.length - k = 0 := by
        rcases Nat.min_eq_zero_iff.mp hm with h0 | h0
        · omega
        · exact h0
      have hnil : (s.vfs.nodes h.node).child.drop k = [] :=
        List.drop_eq_nil_of_le (by omega)
      simp [hm, hnil]
    · have hne : ¬ min (size / K.SIZEOF_DIRENT) ((s.vfs.nodes h.node).child.length - k)
          * K.SIZEOF_DIRENT = 0 := by
        intro h0
        rcases Nat.mul_eq_zero.mp h0 with h1 | h1
        · exact hm h1
        · omega
      rw [if_neg hne, List.map_append, (getdents_records_ino K s.vfs _ _).1]
      have hih := ih
        (k + min (size / K.SIZEOF_DIRENT) ((s.vfs.nodes h.node).child.length - k))
        { s with task := { s.task with
            fds := Function.update s.task.fds fd (some { h with offset :=
              (k + min (size / K.SIZEOF_DIRENT) ((s.vfs.nodes h.node).child.length - k))
                * K.SIZEOF_DIRENT }) } }
        { h with offset :=
            (k + min (size / K.SIZEOF_DIRENT) ((s.vfs.nodes h.node).child.length - k))
              * K.SIZEOF_DIRENT }
        (by simp) hdir rfl
        (by
          have : 1 ≤ min (size / K.SIZEOF_DIRENT) ((s.vfs.nodes h.node).child.length - k) :=
            Nat.one_le_iff_ne_zero.mpr hm
          simp only
          omega)
      rw [hih]
      simp only
      rw [← List.map_append]
      congr 1
      have hdd : List.drop (k + min (size / K.SIZEOF_DIRENT)
            ((s.vfs.nodes h.node).child.length - k)) (s.vfs.nodes h.node).child
          = List.drop (min (size / K.SIZEOF_DIRENT) ((s.vfs.nodes h.node).child.length - k))
              (List.drop k (s.vfs.nodes h.node).child) := by
        rw [List.drop_drop, Nat.add_comm]
      rw [hdd, List.take_append_drop]

/-- C18: for a directory descriptor `fd` whose node has the child list `cs` of
length `n` and whose handle offset is `k * sizeof(dirent)`, with
`m = min(size / sizeof(dirent), n - k)`: `sys_getdents` returns
`m * sizeof(dirent)`, writes the records of the children `k, ..., k + m - 1` in
list order, advances the handle offset by the returned value and changes
nothing else.  Hence `size < sizeof(dirent)` returns 0 with the handle
unchanged, `k >= n` returns 0, and repeated calls with room for a record
enumerate the children from position `k` on, each once and in order. -/
theorem C18_getdents_enumerates (K : Config) (B : vfs_ops) (s : fs_state)
    (fd buf size k : Nat) (h : fd_t) (hfd : fd < K.MAX_FD_NUM) (hslot : s.task.fds fd = some h)
    (hdir : (s.vfs.nodes h.node).type &&& K.file_dir ≠ 0)
    (hov : B.check_user_overflow buf size = false) (hD : 0 < K.SIZEOF_DIRENT)
    (hsize : size / K.SIZEOF_DIRENT < 2 ^ 63) (hoff : h.offset = k * K.SIZEOF_DIRENT) :
    (sys_getdents K B s fd buf size).1 = min (size / K.SIZEOF_DIRENT) ((s.vfs.nodes h.node).child.length - k) * K.SIZEOF_DIRENT ∧
    (sys_getdents K B s fd buf size).2.1 =
      getdents_records K s.vfs (k * K.SIZEOF_DIRENT)
        (((s.vfs.nodes h.node).child.drop k).take (min (size / K.SIZEOF_DIRENT) ((s.vfs.nodes h.node).child.length - k))) ∧
    (sys_getdents K B s fd buf size).2.1.map (fun d => d.d_ino) =
      (((s.vfs.nodes h.node).child.drop k).take (min (size / K.SIZEOF_DIRENT) ((s.vfs.nodes h.node).child.length - k))).map (fun c => (s.vfs.nodes c).inode) ∧
    (sys_getdents K B s fd buf size).2.1.length = min (size / K.SIZEOF_DIRENT) ((s.vfs.nodes h.node).child.length - k) ∧
    (sys_getdents K B s fd buf size).2.2.task.fds fd =
      some { h with offset := h.offset + (sys_getdents K B s fd buf size).1 } ∧
    (∀ j, j ≠ fd → (sys_getdents K B s fd buf size).2.2.task.fds j = s.task.fds j) ∧
    (sys_getdents K B s fd buf size).2.2.vfs = s.vfs ∧
    (size < K.SIZEOF_DIRENT →
      (sys_getdents K B s fd buf size).1 = 0 ∧
      (sys_getdents K B s fd buf size).2.2.task.fds fd = some h) ∧
    ((s.vfs.nodes h.node).child.length ≤ k → (sys_getdents K B s fd buf size).1 = 0) ∧
    (K.SIZEOF_DIRENT ≤ size → ∀ fuel, (s.vfs.nodes h.node).child.length - k ≤ fuel →
      (getdents_repeat K B fd buf size fuel s).map (fun d => d.d_ino) =
        ((s.vfs.nodes h.node).child.drop k).map (fun c => (s.vfs.nodes c).inode)) := by
  have hspec := sys_getdents_spec K B s fd buf size k h hfd hslot hdir hov hD hsize hoff
  have hlenm : (((s.vfs.nodes h.node).child.drop k).take (min (size / K.SIZEOF_DIRENT) ((s.vfs.nodes h.node).child.length - k))).length = min (size / K.SIZEOF_DIRENT) ((s.vfs.nodes h.node).child.length - k) := by
    rw [List.length_take, List.length_drop]
    exact Nat.min_eq_left (Nat.min_le_right _ _)
  rw [hspec]
  refine ⟨rfl, rfl, (getdents_records_ino K s.vfs _ _).1,
    by rw [(getdents_records_ino K s.vfs _ _).2, hlenm], ?_, ?_, rfl, ?_, ?_, ?_⟩
  · simp only [Function.update_same, hoff, Nat.add_mul]
  · intro j hj
    simp only [Function.update_noteq hj]
  · intro hsmall
    have hz : size / K.SIZEOF_DIRENT = 0 := Nat.div_eq_of_lt hsmall
    simp only [hz, Nat.zero_min, Nat.zero_mul, Nat.add_zero, Function.update_same, true_and]
    rw [← hoff]
  · intro hk
    have hz : (s.vfs.nodes h.node).child.length - k = 0 := by omega
    simp only [hz, Nat.min_zero, Nat.zero_mul]
  · intro hroom fuel hfuel
    exact getdents_repeat_spec K B fd buf size hov hD hsize hroom hfd fuel k s h hslot hdir hoff
      hfuel

/-- C18 at a concrete directory: descriptor 3 of task 1 is the directory 50
with the children 51, 52, 53; a buffer with room for two records gets the
records of 51 and 52, and repeated calls list 51, 52, 53. -/
theorem C18_getdents_enumerates_witness :
    (sys_getdents sample_config sample_ops sample_dir_fs 3 4096 2096).1 = 2 * 1048 ∧
    (sys_getdents sample_config sample_ops sample_dir_fs 3 4096 2096).2.1.map (fun d => d.d_ino)
      = [51, 52] ∧
    (getdents_repeat sample_config sample_ops 3 4096 2096 3 sample_dir_fs).map (fun d => d.d_ino)
      = [51, 52, 53] := by
  have hw := C18_getdents_enumerates sample_config sample_ops sample_dir_fs 3 4096 2096 0
    ⟨50, 0, 0⟩ (by decide) rfl (by decide) (by decide) (by decide) (by decide) rfl
  refine ⟨hw.1.trans (by decide), hw.2.2.1.trans (by decide), ?_⟩
  exact (hw.2.2.2.2.2.2.2.2.2 (by decide) 3 (by decide)).trans (by decide)

/-! ## C19: the records of `sys_getdents` at the failing input -/

/-- C19, the code at the failing input: descriptor 3 of task 1 is the
directory 50 at offset 0 with the children 51 (regular file), 52 (symlink) and
53 (directory), and the buffer has room for three records.  `d_ino`,
`d_reclen` and `d_type` are as claimed, but `d_off` of the record at list
position `j` is `j * sizeof(dirent)`, the cursor of the entry itself (0, 1048,
2096), not the cursor `(j + 1) * sizeof(dirent)` of the next entry. -/
theorem C19_d_off_is_own_cursor :
    (sys_getdents sample_config sample_ops sample_dir_fs 3 4096 4096).2.1.map
        (fun d => (d.d_ino, d.d_off, d.d_reclen, d.d_type))
      = [(51, 0, 1048, sample_config.DT_REG), (52, 1048, 1048, sample_config.DT_LNK),
         (53, 2096, 1048, sample_config.DT_DIR)] ∧
    (0 + 1) * sample_config.SIZEOF_DIRENT = 1048 := by
  decide

/-! ## C20: `sys_flock` with `LOCK_EX | LOCK_NB` on a held lock -/

theorem or_and_not64 (x o : Nat) (hx : x < 2 ^ 64) (ho : o < 2 ^ 64) (hd : x &&& o = 0) :
    (x ||| o) &&& not64 o = x := by
  have hnot : not64 o = 2 ^ 64 - (o + 1) := by unfold not64; omega
  apply Nat.eq_of_testBit_eq
  intro i
  rw [Nat.testBit_and, Nat.testBit_or, hnot, Nat.testBit_two_pow_sub_succ ho]
  have hdi : (x &&& o).testBit i = false := by rw [hd]; exact Nat.zero_testBit i
  rw [Nat.testBit_and] at hdi
  by_cases hi : i < 64
  · cases hxi : x.testBit i <;> cases hoi : o.testBit i <;> simp_all
  · have hlt : x < 2 ^ i := lt_of_lt_of_le hx (Nat.pow_le_pow_right (by decide) (by omega))
    rw [Nat.testBit_lt_two_pow hlt]
    simp [hi]

/-- C20: for a live descriptor whose node's lock is held, shared or exclusive
(whoever holds it, so also by a PID different from the caller's),
`sys_flock(fd, LOCK_EX | LOCK_NB)` returns `-EWOULDBLOCK` and leaves the state,
the lock's type and owner included, unchanged; it returns without entering a
waiting loop (the result does not depend on the fuel, 0 included).  `LOCK_EX`
and `LOCK_NB` are disjoint non-zero 64-bit masks, and the held lock types
differ from `F_UNLCK`. -/
theorem C20_flock_ex_nb_would_block (K : Config) (env : fs_state → fs_state) (fuel : Nat)
    (s : fs_state) (fd : Int) (h : fd_t)
    (hfd0 : 0 ≤ fd) (hfd : fd < (K.MAX_FD_NUM : Int)) (hslot : s.task.fds fd.toNat = some h)
    (hEX : K.LOCK_EX < 2 ^ 64) (hNB : K.LOCK_NB < 2 ^ 64) (hdisj : K.LOCK_EX &&& K.LOCK_NB = 0)
    (hEX0 : K.LOCK_EX ≠ 0) (hNB0 : K.LOCK_NB ≠ 0)
    (hR : K.F_RDLCK ≠ K.F_UNLCK) (hW : K.F_WRLCK ≠ K.F_UNLCK)
    (hheld : ((s.vfs.nodes h.node).lock).l_type = K.F_RDLCK ∨
      ((s.vfs.nodes h.node).lock).l_type = K.F_WRLCK) :
    sys_flock K env fuel s fd (K.LOCK_EX ||| K.LOCK_NB) = some (neg_errno K.EWOULDBLOCK, s) := by
  have g1 : ¬ (fd < 0 ∨ (K.MAX_FD_NUM : Int) ≤ fd) := by omega
  have hop : (K.LOCK_EX ||| K.LOCK_NB) &&& not64 K.LOCK_NB = K.LOCK_EX :=
    or_and_not64 K.LOCK_EX K.LOCK_NB hEX hNB hdisj
  have hnb : (K.LOCK_EX ||| K.LOCK_NB) &&& K.LOCK_NB ≠ 0 := by
    rw [or_and_self]; exact hNB0
  have hex : (K.LOCK_EX ||| K.LOCK_NB) &&& K.LOCK_EX ≠ 0 := by
    rw [Nat.lor_comm, or_and_self]; exact hEX0
  have hne : ((s.vfs.nodes h.node).lock).l_type ≠ K.F_UNLCK := by
    rcases hheld with hh | hh <;> rw [hh]
    · exact hR
    · exact hW
  have g2 : ¬ ¬ (K.LOCK_EX = K.LOCK_SH ∨ True ∨ K.LOCK_EX = K.LOCK_UN) :=
    fun hn => hn (Or.inr (Or.inl trivial))
  unfold sys_flock
  rw [if_neg g1]
  simp only [hslot, hop]
  rw [if_neg g2]
  by_cases hsh : (K.LOCK_EX ||| K.LOCK_NB) &&& K.LOCK_NB ≠ 0 ∧
      (K.LOCK_EX ||| K.LOCK_NB) &&& K.LOCK_SH ≠ 0 ∧
      ((s.vfs.nodes h.node).lock).l_type = K.F_WRLCK
  · rw [if_pos hsh]
  · rw [if_neg hsh, if_pos ⟨hnb, hex, hne⟩]

/-- C20 at a concrete state: the node of descriptor 3 of task 1 is locked
exclusively by PID 9. -/
theorem C20_flock_ex_nb_would_block_witness :
    sys_flock sample_config id 0
      { sample_fs with vfs := { sample_fs.vfs with nodes := fun _ =>
          { type := 1, refcount := 1, lock := { l_type := 1, l_pid := 9, lock := 0 },
            inode := 0, size := 0, name := "", child := [] } } }
      3 (sample_config.LOCK_EX ||| sample_config.LOCK_NB) =
    some (neg_errno sample_config.EWOULDBLOCK,
      { sample_fs with vfs := { sample_fs.vfs with nodes := fun _ =>
          { type := 1, refcount := 1, lock := { l_type := 1, l_pid := 9, lock := 0 },
            inode := 0, size := 0, name := "", child := [] } } }) :=
  C20_flock_ex_nb_would_block sample_config id 0 _ 3 ⟨7, 0, 0⟩ (by decide) (by decide) rfl
    (by decide) (by decide) (by decide) (by decide) (by decide) (by decide) (by decide)
    (Or.inr rfl)

/-! ## C21: a shared request against a lock shared by another PID -/

/-- C21 fails in the code: descriptor 3 of task 1 is live and the lock of its
node is held in shared mode (`F_RDLCK`) by PID 9, no writer holds it; yet
`sys_flock(3, LOCK_SH | LOCK_NB)` returns `-EWOULDBLOCK` rather than 0, whatever
the number of steps allowed, and the lock stays with PID 9. -/
theorem C21_flock_sh_nb_blocked_by_reader :
    sample_shared_fs.task.pid = 1 ∧
    sample_shared_fs.task.fds 3 = some ⟨7, 0, 0⟩ ∧
    ((sample_shared_fs.vfs.nodes 7).lock).l_type = sample_config.F_RDLCK ∧
    ((sample_shared_fs.vfs.nodes 7).lock).l_type ≠ sample_config.F_WRLCK ∧
    ((sample_shared_fs.vfs.nodes 7).lock).l_pid = 9 ∧
    ∀ fuel : Nat, sys_flock sample_config id (fuel + 1) sample_shared_fs 3
        (sample_config.LOCK_SH ||| sample_config.LOCK_NB) =
      some (neg_errno sample_config.EWOULDBLOCK, sample_shared_fs) :=
  ⟨rfl, rfl, rfl, by decide, rfl, fun _ => rfl⟩

/-! ## C22, C23, C24: futex -/

/-- C22 fails in the code: with the three waiters of `sample_futex` on the
address 4096 and `val = 1`, `sys_futex(4096, FUTEX_WAKE, 1)` unblocks one task
(task 2 becomes READY, tasks 3 and 4 stay BLOCKING) but returns 3, the number
of matching records, not 1. -/
theorem C22_wake_returns_match_count :
    ∃ s1 : futex_state,
      sys_futex sample_config sample_ops id 10 0 sample_futex 4096 sample_config.FUTEX_WAKE 1 0 =
        some (3, s1) ∧
      (s1.k.tasks 2).map (fun t => t.state) = some TASK_READY ∧
      (s1.k.tasks 3).map (fun t => t.state) = some TASK_BLOCKING ∧
      (s1.k.tasks 4).map (fun t => t.state) = some TASK_BLOCKING :=
  ⟨_, rfl, rfl, rfl, rfl⟩

/-- C23 fails in the code: with the adjacent matching records 101, 102, 103 of
`sample_futex` and `val = 2`, `sys_futex(4096, FUTEX_WAKE, 2)` sets the tasks 2
and 3 READY and frees the records 101 and 102, but the freed record 102 of the
woken task 3 is still reachable from the list head: the list is 102, 103 and
not 103 alone. -/
theorem C23_woken_record_stays_linked :
    futex_records sample_futex 10 = [101, 102, 103] ∧
    ∃ s1 : futex_state,
      sys_futex sample_config sample_ops id 10 0 sample_futex 4096 sample_config.FUTEX_WAKE 2 0 =
        some (3, s1) ∧
      (s1.k.tasks 2).map (fun t => t.state) = some TASK_READY ∧
      (s1.k.tasks 3).map (fun t => t.state) = some TASK_READY ∧
      (s1.k.tasks 4).map (fun t => t.state) = some TASK_BLOCKING ∧
      s1.freed = [102, 101] ∧
      (s1.mem 102).task = some (.task 3) ∧
      futex_records s1 10 = [102, 103] :=
  ⟨rfl, _, rfl, rfl, rfl, rfl, rfl, rfl, rfl⟩

/-- C24 fails in the code: the address 4096 and the non-null timeout pointer
8192 both lie inside the user range, yet `sys_futex` returns `-EFAULT` for every
operation and value and changes nothing, while the same wake call with a null
timeout returns 3. -/
theorem C24_valid_timeout_gives_efault :
    sample_ops.check_user_overflow 4096 4 = false ∧
    sample_ops.check_user_overflow 8192 16 = false ∧
    (∀ (env : futex_state → futex_state) (fuel blk op : Nat) (val : Int),
      sys_futex sample_config sample_ops env fuel blk sample_futex 4096 op val 8192 =
        some (-(sample_config.EFAULT : Int), sample_futex)) ∧
    (sys_futex sample_config sample_ops id 10 0 sample_futex 4096 sample_config.FUTEX_WAKE 1
      0).map Prod.fst = some 3 :=
  ⟨rfl, rfl, fun _ _ _ _ _ => rfl, rfl⟩

/-! ## C25, C26: timer round trips -/

/-- C25 fails in the code: with `jiffies = 5`, after `sys_setitimer(0, &V, NULL)`
for the all-zero `V` (whole milliseconds, `it_value = 0`), the value read back
at the same `jiffies` through the old-value output of a second call is not `V`:
its `it_value` is `18446744073709551 s + 611000 us`, the timeval of
`2^64 - 5` milliseconds. -/
theorem C25_disarmed_timer_reads_back_garbage :
    (sys_setitimer sample_config 5 blank_task 0 (some ⟨⟨0, 0⟩, ⟨0, 0⟩⟩) false).1 = 0 ∧
    (sys_setitimer sample_config 5
        (sys_setitimer sample_config 5 blank_task 0 (some ⟨⟨0, 0⟩, ⟨0, 0⟩⟩) false).2.1 0
        (some ⟨⟨0, 0⟩, ⟨0, 0⟩⟩) true).2.2 =
      some ⟨⟨0, 0⟩, ⟨18446744073709551, 611000⟩⟩ ∧
    (sys_setitimer sample_config 5
        (sys_setitimer sample_config 5 blank_task 0 (some ⟨⟨0, 0⟩, ⟨0, 0⟩⟩) false).2.1 0
        (some ⟨⟨0, 0⟩, ⟨0, 0⟩⟩) true).2.2 ≠
      some ⟨⟨0, 0⟩, ⟨0, 0⟩⟩ := by
  refine ⟨rfl, ?_, ?_⟩ <;> decide

/-- C26 fails in the code: timer 0 is the id that `sys_timer_create` returns for
a task without timers; after `sys_timer_settime(0, &V, NULL)` with
`V.it_value = 0 s + 500000 us` and `V.it_interval = 0`, the value read back at
the same `jiffies` (7) through the old-value output of a second call has
`it_value = 0 s + 0 us`, not `V.it_value`. -/
theorem C26_half_second_reads_back_zero :
    (sys_timer_create sample_config true blank_task 0 none).1 = 0 ∧
    (sys_timer_create sample_config true blank_task 0 none).2.2 = some 0 ∧
    ((sys_timer_settime sample_config 7
        (sys_timer_create sample_config true blank_task 0 none).2.1 0
        ⟨⟨0, 0⟩, ⟨0, 500000⟩⟩ false).bind
      (fun r => sys_timer_settime sample_config 7 r.2.1 0 ⟨⟨0, 0⟩, ⟨0, 500000⟩⟩ true)).map
        (fun r => (r.1, r.2.2)) =
      some (0, some ⟨⟨0, 0⟩, ⟨0, 0⟩⟩) :=
  ⟨rfl, rfl, rfl⟩

/-! ## C27: the argument vector of a `#!` re-entry -/

/-- C27 fails in the code: for the script "./s" called with the vector
"./s", "a" (n = 2), the array handed to the re-entered call holds "/bin/sh",
"./s" and then `NULL`: the two original arguments are cut off.  The exec goes
through, and the command line recorded for the task is "/bin/sh ./s " instead
of "/bin/sh ./s ./s a ". -/
theorem C27_shebang_cuts_vector :
    count_args sample_argv 128 0 = some 2 ∧
    (sample_exec_ops.vfs_image sample_exec_vfs 61).byte0 = 35 ∧
    (sample_exec_ops.vfs_image sample_exec_vfs 61).byte1 = 33 ∧
    count_args (shebang_argv "./s" sample_argv 2) 128 0 = some 2 ∧
    arg_list (shebang_argv "./s" sample_argv 2) 2 = ["/bin/sh", "./s"] ∧
    ((exec_kernel (task_execve sample_config sample_exec_ops id 2 sample_exec_kernel "./s"
        (some sample_argv) none)).bind (fun k => k.tasks 1)).map (fun t => t.cmdline) =
      some "/bin/sh ./s " := by
  refine ⟨rfl, rfl, rfl, rfl, ?_, ?_⟩
  · decide
  · decide

/-! ## C28: descriptors across exec -/

/-- Dereferencing depends on the two task arrays only. -/
theorem deref_congr (k k1 : Kernel) (p : task_ptr) (h1 : k1.tasks = k.tasks)
    (h2 : k1.idle_tasks = k.idle_tasks) : k1.deref p = k.deref p := by
  cases p <;> simp [Kernel.deref, h1, h2]

/-- A stored task is read back through the same pointer. -/
theorem deref_store (k : Kernel) (p : task_ptr) (t : task_t) :
    (k.store p t).deref p = some t := by
  cases p <;> simp [Kernel.deref, Kernel.store]

/-- Storing a task does not change which task runs. -/
theorem store_current (k : Kernel) (p : task_ptr) (t : task_t) :
    (k.store p t).current_task = k.current_task := by
  cases p <;> rfl

/-- The close-on-exec loop acts on the slots it visits and on no other. -/
theorem execve_close_fds_spec (K : Config) (n : Nat) :
    ∀ (i : Nat) (fds : Nat → Option fd_t) (v : vfs_t) (j : Nat),
      (execve_close_fds K n i fds v).1 j =
        if i ≤ j ∧ j < i + n then after_exec_slot K (fds j) else fds j := by
  induction n with
  | zero =>
    intro i fds v j
    have h0 : ¬ (i ≤ j ∧ j < i + 0) := by omega
    rw [if_neg h0]
    rfl
  | succ n ih =>
    intro i fds v j
    unfold execve_close_fds
    cases hs : fds i with
    | none =>
      simp only []
      rw [ih]
      by_cases hj : j = i
      · subst hj
        have h1 : ¬ (j + 1 ≤ j ∧ j < j + 1 + n) := by omega
        have h2 : j ≤ j ∧ j < j + (n + 1) := by omega
        rw [if_neg h1, if_pos h2, hs]
        rfl
      · by_cases hr : i + 1 ≤ j ∧ j < i + 1 + n
        · have h2 : i ≤ j ∧ j < i + (n + 1) := by omega
          rw [if_pos hr, if_pos h2]
        · have h2 : ¬ (i ≤ j ∧ j < i + (n + 1)) := by omega
          rw [if_neg hr, if_neg h2]
    | some h =>
      simp only []
      by_cases hc : h.flags &&& K.O_CLOEXEC ≠ 0
      · rw [if_pos hc, ih]
        by_cases hj : j = i
        · subst hj
          have h1 : ¬ (j + 1 ≤ j ∧ j < j + 1 + n) := by omega
          have h2 : j ≤ j ∧ j < j + (n + 1) := by omega
          rw [if_neg h1, if_pos h2, hs, Function.update_same]
          simp [after_exec_slot, hc]
        · rw [Function.update_noteq hj]
          by_cases hr : i + 1 ≤ j ∧ j < i + 1 + n
          · have h2 : i ≤ j ∧ j < i + (n + 1) := by omega
            rw [if_pos hr, if_pos h2]
          · have h2 : ¬ (i ≤ j ∧ j < i + (n + 1)) := by omega
            rw [if_neg hr, if_neg h2]
      · rw [if_neg hc, ih]
        by_cases hj : j = i
        · subst hj
          have h1 : ¬ (j + 1 ≤ j ∧ j < j + 1 + n) := by omega
          have h2 : j ≤ j ∧ j < j + (n + 1) := by omega
          rw [if_neg h1, if_pos h2, hs]
          simp [after_exec_slot, hc]
        · by_cases hr : i + 1 ≤ j ∧ j < i + 1 + n
          · have h2 : i ≤ j ∧ j < i + (n + 1) := by omega
            rw [if_pos hr, if_pos h2]
          · have h2 : ¬ (i ≤ j ∧ j < i + (n + 1)) := by omega
            rw [if_neg hr, if_neg h2]

/-- When the loading part of `task_execve` enters user mode, the descriptor
table of the running task is the result of the close-on-exec loop. -/
theorem execve_load_fds (K : Config) (B : vfs_ops) (k : Kernel) (img : exec_image)
    (fullpath : String) (new_argv : List String) (entry : Nat) (k1 : Kernel) (t : task_t)
    (hcur : k.deref k.current_task = some t)
    (h : execve_load K B k img fullpath new_argv = some (.user_mode entry k1)) :
    k1.current_task = k.current_task ∧
    ∃ (t1 : task_t) (v : vfs_t), k1.deref k1.current_task = some t1 ∧
      t1.fds = (execve_close_fds K (K.MAX_FD_NUM - 3) 3 t.fds v).1 := by
  unfold execve_load at h
  split at h
  · cases h
  · split at h
    · cases h
    · split at h
      · cases h
      · rename_i st hst
        rw [hcur] at h
        simp only [] at h
        split at h
        · cases h
        · simp only [Option.some.injEq, exec_result.user_mode.injEq] at h
          obtain ⟨_, hk⟩ := h
          subst hk
          refine ⟨store_current k _ _,
            { t with name := fullpath.take K.TASK_NAME_MAX,
                     fds := (execve_close_fds K (K.MAX_FD_NUM - 3) 3 t.fds st.vfs).1,
                     cmdline := String.join (new_argv.map (fun a => a ++ " ")),
                     load_start := st.load_start, load_end := st.load_end }, st.vfs, ?_, rfl⟩
          cases hp : k.current_task <;> simp [Kernel.store, Kernel.deref, hp]

/-- The same for `task_execve` as a whole, through any number of `#!`
re-entries. -/
theorem task_execve_fds (K : Config) (B : vfs_ops) (env : Kernel → Kernel) :
    ∀ (fuel : Nat) (k : Kernel) (path : String) (argv envp : Option (Nat → Option String))
      (entry : Nat) (k1 : Kernel) (t : task_t),
      k.execve_lock = false → k.deref k.current_task = some t →
      task_execve K B env fuel k path argv envp = some (.user_mode entry k1) →
      k1.current_task = k.current_task ∧
      ∃ (t1 : task_t) (v : vfs_t), k1.deref k1.current_task = some t1 ∧
        t1.fds = (execve_close_fds K (K.MAX_FD_NUM - 3) 3 t.fds v).1 := by
  intro fuel
  induction fuel with
  | zero =>
    intro k path argv envp entry k1 t _ _ h
    simp [task_execve] at h
  | succ fuel ih =>
    intro k path argv envp entry k1 t hlock hcur h
    have hw : execve_wait env (fuel + 1) k = some k := by
      simp [execve_wait, hlock]
    unfold task_execve at h
    rw [hw] at h
    simp only [] at h
    unfold execve_body at h
    simp only [] at h
    split at h
    · cases h
    · split at h
      · split at h
        · split at h
          · cases h
          · have hr := ih _ _ _ _ _ _ t (by rfl)
              (by exact (deref_congr _ k _ rfl rfl).trans hcur) h
            exact hr
        · have hr := execve_load_fds K B _ _ _ _ entry k1 t
            (by exact (deref_congr _ k _ rfl rfl).trans hcur) h
          exact hr
      · cases h

/-- C28 as stated fails: descriptor 1 of `sample_exec_kernel` carries
`O_CLOEXEC`, and after the successful exec of "/bin/sh" slot 1 still holds the
same handle; descriptor 5 (marked) is null and descriptor 6 (unmarked) is kept,
as in the example of the specification. -/
theorem C28_cloexec_in_standard_slot_survives :
    ∃ (entry : Nat) (k1 : Kernel),
      task_execve sample_config sample_exec_ops id 1 sample_exec_kernel "/bin/sh" none none =
        some (.user_mode entry k1) ∧
      (sample_exec_kernel.tasks 1).map (fun t => t.fds 1) =
        some (some ⟨7, 0, sample_config.O_CLOEXEC⟩) ∧
      (k1.tasks 1).map (fun t => t.fds 1) = some (some ⟨7, 0, sample_config.O_CLOEXEC⟩) ∧
      (k1.tasks 1).map (fun t => t.fds 5) = some none ∧
      (k1.tasks 1).map (fun t => t.fds 6) = some (some ⟨7, 0, 0⟩) :=
  ⟨_, _, rfl, rfl, rfl, rfl, rfl⟩

/-- C28, amended: when `task_execve`, called while no exec is in progress,
enters user mode, the running task is the same and, for every index `i`: if
`3 ≤ i < MAX_FD_NUM`, slot `i` is null when it was null or its handle had
`O_CLOEXEC` set and holds the same handle otherwise; every other slot (0, 1, 2
and those from `MAX_FD_NUM` on) is unchanged, marked or not. -/
theorem C28_exec_closes_marked_slots_from_three (K : Config) (B : vfs_ops) (env : Kernel → Kernel)
    (fuel : Nat) (k : Kernel) (path : String) (argv envp : Option (Nat → Option String))
    (entry : Nat) (k1 : Kernel) (t : task_t)
    (hlock : k.execve_lock = false) (hcur : k.deref k.current_task = some t)
    (hexec : task_execve K B env fuel k path argv envp = some (.user_mode entry k1)) :
    k1.current_task = k.current_task ∧
    ∃ t1 : task_t, k1.deref k1.current_task = some t1 ∧
      ∀ i : Nat,
        (3 ≤ i ∧ i < K.MAX_FD_NUM → t1.fds i = after_exec_slot K (t.fds i)) ∧
        (i < 3 ∨ K.MAX_FD_NUM ≤ i → t1.fds i = t.fds i) := by
  obtain ⟨h1, t1, v, hd, hf⟩ := task_execve_fds K B env fuel k path argv envp entry k1 t hlock hcur hexec
  refine ⟨h1, t1, hd, fun i => ⟨fun hi => ?_, fun hi => ?_⟩⟩
  · rw [hf, execve_close_fds_spec]
    have hr : 3 ≤ i ∧ i < 3 + (K.MAX_FD_NUM - 3) := by omega
    rw [if_pos hr]
  · rw [hf, execve_close_fds_spec]
    have hr : ¬ (3 ≤ i ∧ i < 3 + (K.MAX_FD_NUM - 3)) := by omega
    rw [if_neg hr]

/-- C28, amended, at the exec of "/bin/sh" by task 1 of `sample_exec_kernel`. -/
theorem C28_exec_closes_marked_slots_from_three_witness :
    ∃ (entry : Nat) (k1 : Kernel),
      task_execve sample_config sample_exec_ops id 1 sample_exec_kernel "/bin/sh" none none =
        some (.user_mode entry k1) ∧
      k1.current_task = sample_exec_kernel.current_task ∧
      ∃ t1 : task_t, k1.deref k1.current_task = some t1 ∧
        ∀ i : Nat,
          (3 ≤ i ∧ i < sample_config.MAX_FD_NUM →
            t1.fds i = after_exec_slot sample_config
              (if i = 1 ∨ i = 5 then some ⟨7, 0, 524288⟩
               else if i = 6 then some ⟨7, 0, 0⟩ else none)) ∧
          (i < 3 ∨ sample_config.MAX_FD_NUM ≤ i →
            t1.fds i = if i = 1 ∨ i = 5 then some ⟨7, 0, 524288⟩
                       else if i = 6 then some ⟨7, 0, 0⟩ else none) :=
  ⟨_, _, rfl,
    C28_exec_closes_marked_slots_from_three sample_config sample_exec_ops id 1 sample_exec_kernel
      "/bin/sh" none none _ _ _ rfl rfl rfl⟩

/-! ## C29, C30: task creation -/

/-- Storing through one pointer leaves the task behind another pointer. -/
theorem deref_store_ne (k : Kernel) (p q : task_ptr) (t : task_t) (h : q ≠ p) :
    (k.store p t).deref q = k.deref q := by
  cases p <;> cases q <;> simp [Kernel.deref, Kernel.store]
  · exact Function.update_noteq (fun e => h (congrArg task_ptr.task e)) _ _
  · exact Function.update_noteq (fun e => h (congrArg task_ptr.idle e)) _ _

/-- The slot that `slot_scan` finds is null. -/
theorem slot_scan_null (a : Nat → Option task_t) (n : Nat) :
    ∀ (i j : Nat), slot_scan a n i = some j → a j = none := by
  induction n with
  | zero =>
    intro i j h
    simp [slot_scan] at h
  | succ n ih =>
    intro i j h
    unfold slot_scan at h
    split at h
    · rename_i hn
      cases h
      exact hn
    · exact ih _ _ h

/-- When `get_free_task` returns a pointer, its slot was null and now holds a
task without descriptors. -/
theorem get_free_task_some (K : Config) (k : Kernel) (p : task_ptr)
    (h : (get_free_task K k).1 = some p) :
    k.deref p = none ∧ ∃ z : task_t, z.fds = (fun _ => none) ∧
      get_free_task K k = (some p, k.store p z) := by
  unfold get_free_task at h ⊢
  cases h1 : slot_scan k.idle_tasks k.cpu_count 0 with
  | some i =>
    rw [h1] at h
    simp only [Option.some.injEq] at h
    subst h
    exact ⟨slot_scan_null _ _ _ _ h1, _, rfl, rfl⟩
  | none =>
    rw [h1] at h
    simp only [] at h ⊢
    cases h2 : slot_scan k.tasks (K.MAX_TASK_NUM - 1) 1 with
    | some i =>
      rw [h2] at h
      simp only [Option.some.injEq] at h
      subst h
      exact ⟨slot_scan_null _ _ _ _ h2, _, rfl, rfl⟩
    | none =>
      rw [h2] at h
      cases h

/-- The descriptor loop of `task_fork` puts the `vfs_dup` of the parent's
handle in every slot it visits and touches no other. -/
theorem fork_dup_fds_spec (B : vfs_ops) (v : vfs_t) (parent : Nat → Option fd_t) (n : Nat) :
    ∀ (i : Nat) (fds : Nat → Option fd_t) (j : Nat),
      fork_dup_fds B v parent n i fds j =
        if i ≤ j ∧ j < i + n then (parent j).bind (B.vfs_dup v) else fds j := by
  induction n with
  | zero =>
    intro i fds j
    have h0 : ¬ (i ≤ j ∧ j < i + 0) := by omega
    rw [if_neg h0]
    rfl
  | succ n ih =>
    intro i fds j
    unfold fork_dup_fds
    rw [ih]
    by_cases hj : j = i
    · subst hj
      have h1 : ¬ (j + 1 ≤ j ∧ j < j + 1 + n) := by omega
      have h2 : j ≤ j ∧ j < j + (n + 1) := by omega
      rw [if_neg h1, if_pos h2, Function.update_same]
      cases parent j <;> rfl
    · rw [Function.update_noteq hj]
      by_cases hr : i + 1 ≤ j ∧ j < i + 1 + n
      · have h2 : i ≤ j ∧ j < i + (n + 1) := by omega
        rw [if_pos hr, if_pos h2]
      · have h2 : ¬ (i ≤ j ∧ j < i + (n + 1)) := by omega
        rw [if_neg hr, if_neg h2]

/-- The standard table is null from slot 3 on. -/
theorem std_fds_high (B : vfs_ops) (v : vfs_t) (i : Nat) (hi : 3 ≤ i) : std_fds B v i = none := by
  unfold std_fds
  rw [Function.update_noteq (by omega), Function.update_noteq (by omega),
    Function.update_noteq (by omega)]

/-- C29, amended: when a task slot is free, `task_fork` returns the PID of the
child stored in that slot; the child's slots 0, 1 and 2 hold fresh handles on
the nodes `vfs_open` gives for the three device names, with offset 0 and flags
0; when `vfork` is false, slot `i` with `3 ≤ i < MAX_FD_NUM` holds the `vfs_dup`
of the parent's handle, so it is null when the parent's slot is null or when
`vfs_dup` yields no handle; when `vfork` is true every slot from 3 on is null;
the parent task, its descriptor table included, is unchanged. -/
theorem C29_fork_descriptors (K : Config) (B : vfs_ops) (k : Kernel) (vfork : Bool) (t : task_t)
    (p : task_ptr)
    (hcur : k.deref k.current_task = some t)
    (hfree : (get_free_task K { k with can_schedule := false }).1 = some p) :
    ∃ (child : task_t) (k1 : Kernel),
      task_fork K B k vfork = some (child.pid, k1) ∧
      k.deref p = none ∧ k1.deref p = some child ∧
      child.fds 0 = some ⟨(B.vfs_open k.vfs "/dev/stdin").getD 0, 0, 0⟩ ∧
      child.fds 1 = some ⟨(B.vfs_open k.vfs "/dev/stdout").getD 0, 0, 0⟩ ∧
      child.fds 2 = some ⟨(B.vfs_open k.vfs "/dev/stderr").getD 0, 0, 0⟩ ∧
      (vfork = false → ∀ i : Nat, 3 ≤ i → i < K.MAX_FD_NUM →
        child.fds i = (t.fds i).bind (B.vfs_dup k.vfs)) ∧
      (vfork = true → ∀ i : Nat, 3 ≤ i → child.fds i = none) ∧
      k1.deref k.current_task = some t := by
  obtain ⟨hnull, z, hz, hg⟩ := get_free_task_some K _ p hfree
  have hnull1 : k.deref p = none := (deref_congr _ k p rfl rfl).symm.trans hnull
  have hne : k.current_task ≠ p := by
    intro e
    rw [e, hnull1] at hcur
    cases hcur
  have hc1 : (Kernel.store { k with can_schedule := false } p z).deref
      (Kernel.store { k with can_schedule := false } p z).current_task = some t := by
    rw [store_current, deref_store_ne _ _ _ _ hne]
    exact (deref_congr _ k _ rfl rfl).trans hcur
  have hc2 : (Kernel.store { k with can_schedule := false } p z).deref p = some z :=
    deref_store _ _ _
  unfold task_fork
  have hv : (alloc_cpu_id (Kernel.store { k with can_schedule := false } p z)).2.vfs = k.vfs := by
    cases p <;> rfl
  have hi : (alloc_cpu_id (Kernel.store { k with can_schedule := false } p z)).1 = k.cpu_idx := by
    cases p <;> rfl
  simp only [hg, hc1, hc2, hv, hi]
  refine ⟨{ z with name := t.name.take K.TASK_NAME_MAX, state := TASK_READY, cpu_id := k.cpu_idx,
                   ppid := t.pid, pgid := t.pgid, jiffies := t.jiffies, cmdline := t.cmdline,
                   load_start := t.load_start, load_end := t.load_end,
                   fds := if vfork = true then std_fds B k.vfs
                          else fork_dup_fds B k.vfs t.fds (K.MAX_FD_NUM - 3) 3 (std_fds B k.vfs),
                   signal := t.signal }, _, rfl, hnull1, ?_, ?_, ?_, ?_, ?_, ?_, ?_⟩
  · exact (deref_congr _ (Kernel.store _ p _) p rfl rfl).trans (deref_store _ _ _)
  · cases vfork
    · simp only [Bool.false_eq_true, if_false]
      rw [fork_dup_fds_spec, if_neg (by omega)]
      rfl
    · rfl
  · cases vfork
    · simp only [Bool.false_eq_true, if_false]
      rw [fork_dup_fds_spec, if_neg (by omega)]
      rfl
    · rfl
  · cases vfork
    · simp only [Bool.false_eq_true, if_false]
      rw [fork_dup_fds_spec, if_neg (by omega)]
      rfl
    · rfl
  · intro hvf i h3 hm
    subst hvf
    simp only [Bool.false_eq_true, if_false]
    rw [fork_dup_fds_spec, if_pos (by omega)]
  · intro hvf i h3
    subst hvf
    simp only [if_true]
    exact std_fds_high B k.vfs i h3
  · refine (deref_congr _ (Kernel.store _ p _) _ rfl rfl).trans ?_
    refine (deref_store_ne _ _ _ _ hne).trans ?_
    refine (deref_congr _ (Kernel.store { k with can_schedule := false } p z) _ rfl rfl).trans ?_
    refine (deref_store_ne _ _ _ _ hne).trans ?_
    exact (deref_congr _ k _ rfl rfl).trans hcur

/-- C29, amended, at the fork of task 1 of `sample_fork_kernel` (descriptors 0
to 3 open, slot 2 of the task table free). -/
theorem C29_fork_descriptors_witness :
    ∃ (child : task_t) (k1 : Kernel),
      task_fork sample_config sample_ops sample_fork_kernel false = some (child.pid, k1) ∧
      sample_fork_kernel.deref (.task 2) = none ∧ k1.deref (.task 2) = some child ∧
      child.fds 0 =
        some ⟨(sample_ops.vfs_open sample_fork_kernel.vfs "/dev/stdin").getD 0, 0, 0⟩ ∧
      child.fds 1 =
        some ⟨(sample_ops.vfs_open sample_fork_kernel.vfs "/dev/stdout").getD 0, 0, 0⟩ ∧
      child.fds 2 =
        some ⟨(sample_ops.vfs_open sample_fork_kernel.vfs "/dev/stderr").getD 0, 0, 0⟩ ∧
      (false = false → ∀ i : Nat, 3 ≤ i → i < sample_config.MAX_FD_NUM →
        child.fds i =
          (if i ≤ 3 then some ⟨7, 0, 0⟩ else none).bind
            (sample_ops.vfs_dup sample_fork_kernel.vfs)) ∧
      (false = true → ∀ i : Nat, 3 ≤ i → child.fds i = none) ∧
      k1.deref sample_fork_kernel.current_task =
        some { blank_task with
                 pid := 1, ppid := 1, state := TASK_RUNNING,
                 fds := fun i => if i ≤ 3 then some ⟨7, 0, 0⟩ else none } :=
  C29_fork_descriptors sample_config sample_ops sample_fork_kernel false _ (.task 2) rfl rfl

/-- C29 as stated fails: with a backend whose `vfs_dup` yields no handle, the
parent's slot 3 is live and `task_fork(regs, false)` succeeds with child PID 2,
but the child's slot 3 is null. -/
theorem C29_child_slot_null_when_dup_fails :
    (sample_fork_kernel.tasks 1).map (fun t => t.fds 3) = some (some ⟨7, 0, 0⟩) ∧
    ∃ k1 : Kernel,
      task_fork sample_config failing_dup_ops sample_fork_kernel false = some (2, k1) ∧
      (k1.tasks 2).map (fun t => t.fds 3) = some none ∧
      (k1.tasks 2).map (fun t => t.ppid) = some 1 :=
  ⟨rfl, _, rfl, rfl, rfl⟩

/-- C30 fails in the code: in the full table `sample_full_kernel`
`get_free_task` returns `NULL`; `task_create` then dereferences the missing
task (no result, whatever the name), while `task_fork` and `sys_clone` both
return `-ENOMEM` with the task table as it was. -/
theorem C30_task_create_uses_missing_task :
    (∀ c : Nat, c < sample_full_kernel.cpu_count → (sample_full_kernel.idle_tasks c).isSome) ∧
    (∀ i : Nat, 1 ≤ i → i < sample_config.MAX_TASK_NUM → (sample_full_kernel.tasks i).isSome) ∧
    (get_free_task sample_config { sample_full_kernel with can_schedule := false }).1 = none ∧
    (∀ name : String, task_create sample_config sample_ops sample_full_kernel name = none) ∧
    (task_fork sample_config sample_ops sample_full_kernel false).map Prod.fst =
      some (neg_errno sample_config.ENOMEM) ∧
    (sys_clone sample_config sample_ops sample_full_kernel 0).map Prod.fst =
      some (neg_errno sample_config.ENOMEM) := by
  refine ⟨?_, ?_, rfl, fun _ => rfl, rfl, rfl⟩
  · intro c hc
    have h0 : c = 0 := by
      have : c < 1 := hc
      omega
    subst h0
    rfl
  · intro i h1 h2
    have h3 : i < 16 := h2
    simp [sample_full_kernel, h1, h3]

/-! ## C35: `task_search` on a table with a hole -/

/-- C35 fails in the code: in `sample_hole_kernel` task 3 is READY on CPU 0 and
is not the running task, and task 4 is BLOCKING on CPU 0, but both sit behind the
null slot 2: `task_search(TASK_READY, 0)` returns the idle task of CPU 0 and
`task_search(TASK_BLOCKING, 0)` returns `NULL`. -/
theorem C35_search_stops_at_null_slot :
    sample_hole_kernel.tasks 2 = none ∧
    (sample_hole_kernel.tasks 3).map (fun t => (t.state, t.cpu_id)) = some (TASK_READY, 0) ∧
    (sample_hole_kernel.tasks 4).map (fun t => (t.state, t.cpu_id)) = some (TASK_BLOCKING, 0) ∧
    sample_hole_kernel.current_task = .task 1 ∧
    task_search sample_config sample_hole_kernel TASK_READY 0 = some (.idle 0) ∧
    task_search sample_config sample_hole_kernel TASK_BLOCKING 0 = none := by
  refine ⟨rfl, rfl, rfl, rfl, ?_, ?_⟩ <;> decide

/-! ## C38, C39: bookkeeping of `task_execve`, `task_fork` and `sys_clone` -/

/-- C38 fails in the code: for the single `PT_LOAD` segment at 4194304 with
`p_memsz` 8192 the page-aligned start is 4194304 and the page-aligned end is
4202496, but the program-header loop leaves `load_end` at 0, so that
`load_start < load_end` is false; the exec of "/bin/sh", whose file has this one
segment, records the same two values in the task. -/
theorem C38_single_segment_leaves_load_end_zero :
    (execve_phdrs sample_config sample_exec_ops (sample_exec_ops.vfs_image sample_exec_vfs 60)
        [{ p_type := sample_config.PT_LOAD, p_offset := 0, p_vaddr := 4194304, p_filesz := 4096,
           p_memsz := 8192 }]
        { load_start := 2 ^ 64 - 1, load_end := 0, interpreter_entry := 0,
          vfs := sample_exec_vfs }).toOption.map (fun st => (st.load_start, st.load_end)) =
      some (4194304, 0) ∧
    ((exec_kernel (task_execve sample_config sample_exec_ops id 1 sample_exec_kernel "/bin/sh"
        none none)).bind (fun k => k.tasks 1)).map (fun t => (t.load_start, t.load_end)) =
      some (4194304, 0) := by
  refine ⟨?_, ?_⟩ <;> decide

/-- C39 fails in the code: on the full table `sample_full_kernel` both calls
return `-ENOMEM`, `task_fork` with `can_schedule` true again but `sys_clone` with
`can_schedule` still false; when a slot is free (`sample_fork_kernel`) both
return the child PID 2 with `can_schedule` true. -/
theorem C39_clone_failure_leaves_gate_closed :
    (task_fork sample_config sample_ops sample_full_kernel false).map
        (fun r => (r.1, r.2.can_schedule)) = some (neg_errno sample_config.ENOMEM, true) ∧
    (sys_clone sample_config sample_ops sample_full_kernel 0).map
        (fun r => (r.1, r.2.can_schedule)) = some (neg_errno sample_config.ENOMEM, false) ∧
    (task_fork sample_config sample_ops sample_fork_kernel false).map
        (fun r => (r.1, r.2.can_schedule)) = some (2, true) ∧
    (sys_clone sample_config sample_ops sample_fork_kernel 0).map
        (fun r => (r.1, r.2.can_schedule)) = some (2, true) := by
  refine ⟨?_, ?_, ?_, ?_⟩ <;> decide

/-! ## C40: milliseconds and `timeval` -/

/-- C40: for every 64-bit `ms` (so `ms / 1000` fits the signed `tv_sec`),
`ms_to_timeval(ms)` has `0 ≤ tv_usec < 1000000`, and `timeval_to_ms` of it is
`ms` again. -/
theorem C40_ms_timeval_round_trip (ms : Nat) (hms : ms < 2 ^ 64) :
    0 ≤ (ms_to_timeval ms).tv_usec ∧ (ms_to_timeval ms).tv_usec < 1000000 ∧
    timeval_to_ms (ms_to_timeval ms) = ms := by
  have h1 : ms / 1000 < 2 ^ 63 := by omega
  have h2 : ms % 1000 * 1000 < 2 ^ 63 := by omega
  have e1 : to_int64 (ms / 1000) = ((ms / 1000 : Nat) : Int) := by
    unfold to_int64
    rw [if_pos h1]
  have e2 : to_int64 (ms % 1000 * 1000) = ((ms % 1000 * 1000 : Nat) : Int) := by
    unfold to_int64
    rw [if_pos h2]
  have e3 : to_u64 ((ms / 1000 : Nat) : Int) = ms / 1000 := by
    unfold to_u64
    omega
  have e4 : Int.tdiv ((ms % 1000 * 1000 : Nat) : Int) 1000 = ((ms % 1000 : Nat) : Int) := by
    rw [Int.tdiv_eq_ediv (Int.ofNat_nonneg _) (by decide)]
    omega
  have e5 : to_u64 ((ms % 1000 : Nat) : Int) = ms % 1000 := by
    unfold to_u64
    omega
  unfold timeval_to_ms ms_to_timeval
  simp only [e1, e2, e3, e4, e5]
  refine ⟨Int.ofNat_nonneg _, ?_, ?_⟩
  · omega
  · omega

/-- C40 at 1500 ms, which is 1 s + 500000 us. -/
theorem C40_ms_timeval_round_trip_witness :
    0 ≤ (ms_to_timeval 1500).tv_usec ∧ (ms_to_timeval 1500).tv_usec < 1000000 ∧
    timeval_to_ms (ms_to_timeval 1500) = 1500 :=
  C40_ms_timeval_round_trip 1500 (by decide)

/-! ## C36, C37: the timer tick and the DIED state -/

/-- C36 fails in the code: in `sample_hole_kernel` task 4 is live and BLOCKING
with `itimer_real.at = 5`, and slot 2 before it is null; after
`sched_update_itimer` at jiffies 10 its pending signals, its state and its timer
are as before (0, BLOCKING, 5): SIGALRM is not raised and the task is not
unblocked. -/
theorem C36_tick_stops_at_null_slot :
    sample_hole_kernel.tasks 2 = none ∧
    (sample_hole_kernel.tasks 4).map (fun t => (t.signal, t.state, t.itimer_real.at_)) =
      some (0, TASK_BLOCKING, 5) ∧
    ((sched_update_itimer sample_config 10 sample_hole_kernel).bind (fun k => k.tasks 4)).map
        (fun t => (t.signal, t.state, t.itimer_real.at_)) =
      some (0, TASK_BLOCKING, 5) := by
  refine ⟨rfl, ?_, ?_⟩ <;> decide

/-- C37 fails in the code.  From `sample_trace_start`: task 2 calls
`sys_futex(4096, FUTEX_WAIT, 0)` and blocks; the timer tick at jiffies 1 unblocks
it, so the call returns 0 with its wait record 101 still in the list; task 2
calls `task_exit(0)` and is DIED, task 1 runs; task 1 calls
`sys_futex(4096, FUTEX_WAKE, 1)`, which returns 1 and sets task 2, still in the
table and not reaped, to READY. -/
theorem C37_wake_revives_died_task :
    ∃ (s1 : futex_state) (k2 : Kernel) (s3 : futex_state),
      sys_futex sample_config sample_ops sample_tick 5 101 sample_trace_start 4096
        sample_config.FUTEX_WAIT 0 0 = some (0, s1) ∧
      futex_records s1 5 = [101] ∧
      task_exit sample_config s1.k 0 = some k2 ∧
      (k2.tasks 2).map (fun t => t.state) = some TASK_DIED ∧
      k2.current_task = .task 1 ∧
      sys_futex sample_config sample_ops id 5 0 { s1 with k := k2 } 4096
        sample_config.FUTEX_WAKE 1 0 = some (1, s3) ∧
      (s3.k.tasks 2).map (fun t => t.state) = some TASK_READY :=
  ⟨_, _, _, rfl, rfl, rfl, rfl, rfl, rfl, rfl⟩

/-! ## C33: `get_free_task` -/

/-- The search loop finds `j` exactly when `j` is the first null slot of its
range. -/
theorem slot_scan_some_iff (a : Nat → Option task_t) (n : Nat) :
    ∀ (i j : Nat), slot_scan a n i = some j ↔
      (i ≤ j ∧ j < i + n ∧ a j = none ∧ ∀ j1 : Nat, i ≤ j1 → j1 < j → a j1 ≠ none) := by
  induction n with
  | zero =>
    intro i j
    constructor
    · intro h
      simp [slot_scan] at h
    · intro h
      omega
  | succ n ih =>
    intro i j
    unfold slot_scan
    cases hi : a i with
    | none =>
      simp only [Option.some.injEq]
      constructor
      · intro h
        subst h
        exact ⟨le_refl _, by omega, hi, fun j1 h1 h2 => by omega⟩
      · intro h
        by_contra hne
        have hlt : i < j := by
          rcases Nat.lt_or_ge i j with h1 | h1
          · exact h1
          · exact absurd (Nat.le_antisymm h1 h.1).symm hne
        exact h.2.2.2 i (le_refl _) hlt hi
    | some t =>
      simp only []
      rw [ih]
      constructor
      · intro h
        refine ⟨by omega, by omega, h.2.2.1, fun j1 h1 h2 => ?_⟩
        by_cases e : j1 = i
        · subst e
          rw [hi]
          exact Option.some_ne_none t
        · exact h.2.2.2 j1 (by omega) h2
      · intro h
        have hne : j ≠ i := by
          intro e
          subst e
          rw [hi] at h
          exact Option.some_ne_none t h.2.2.1
        exact ⟨by omega, by omega, h.2.2.1, fun j1 h1 h2 => h.2.2.2 j1 (by omega) h2⟩

/-- The search loop finds nothing exactly when its range has no null slot. -/
theorem slot_scan_none_iff (a : Nat → Option task_t) (n : Nat) :
    ∀ (i : Nat), slot_scan a n i = none ↔ ∀ j : Nat, i ≤ j → j < i + n → a j ≠ none := by
  induction n with
  | zero =>
    intro i
    constructor
    · intro _ j h1 h2
      omega
    · intro _
      rfl
  | succ n ih =>
    intro i
    unfold slot_scan
    cases hi : a i with
    | none =>
      simp only []
      constructor
      · intro h
        cases h
      · intro h
        exact absurd hi (h i (le_refl _) (by omega))
    | some t =>
      simp only []
      rw [ih]
      constructor
      · intro h j h1 h2
        by_cases e : j = i
        · subst e
          rw [hi]
          exact Option.some_ne_none t
        · exact h j (by omega) (by omega)
      · intro h j h1 h2
        exact h j (by omega) (by omega)

/-- C33: if some `idle_tasks[c]` with `c < cpu_count` is null, `get_free_task`
returns the lowest such slot filled with a cleared task of PID 0, the rest of
the state (`tasks[]` included) as it was; otherwise, if some `tasks[i]` with
`1 ≤ i < MAX_TASK_NUM` is null, it returns the least such slot filled with a
cleared task of PID `i`, every other slot as it was; it returns `NULL` exactly
when neither exists, and then the state is unchanged. -/
theorem C33_get_free_task (K : Config) (k : Kernel) :
    (∀ c : Nat, c < k.cpu_count → k.idle_tasks c = none →
        (∀ c1 : Nat, c1 < c → k.idle_tasks c1 ≠ none) →
        get_free_task K k =
          (some (.idle c),
           { k with idle_tasks := Function.update k.idle_tasks c (some (zero_task K)) })) ∧
    ((∀ c : Nat, c < k.cpu_count → k.idle_tasks c ≠ none) →
      ∀ i : Nat, 1 ≤ i → i < K.MAX_TASK_NUM → k.tasks i = none →
        (∀ j : Nat, 1 ≤ j → j < i → k.tasks j ≠ none) →
        get_free_task K k =
          (some (.task i),
           { k with tasks := Function.update k.tasks i (some { zero_task K with pid := i }) })) ∧
    ((get_free_task K k).1 = none ↔
      (∀ c : Nat, c < k.cpu_count → k.idle_tasks c ≠ none) ∧
      (∀ i : Nat, 1 ≤ i → i < K.MAX_TASK_NUM → k.tasks i ≠ none)) ∧
    ((get_free_task K k).1 = none → (get_free_task K k).2 = k) := by
  refine ⟨?_, ?_, ?_, ?_⟩
  · intro c hc hnull hmin
    have hs : slot_scan k.idle_tasks k.cpu_count 0 = some c :=
      (slot_scan_some_iff _ _ _ _).2 ⟨Nat.zero_le _, by omega, hnull, fun j1 _ h2 => hmin j1 h2⟩
    unfold get_free_task
    rw [hs]
    rfl
  · intro hidle i h1 h2 hnull hmin
    have hs0 : slot_scan k.idle_tasks k.cpu_count 0 = none :=
      (slot_scan_none_iff _ _ _).2 (fun j _ hj => hidle j (by omega))
    have hs : slot_scan k.tasks (K.MAX_TASK_NUM - 1) 1 = some i :=
      (slot_scan_some_iff _ _ _ _).2 ⟨h1, by omega, hnull, fun j1 g1 g2 => hmin j1 g1 g2⟩
    unfold get_free_task
    rw [hs0]
    simp only []
    rw [hs]
    rfl
  · unfold get_free_task
    cases hs0 : slot_scan k.idle_tasks k.cpu_count 0 with
    | some c =>
      simp only []
      have h := (slot_scan_some_iff _ _ _ _).1 hs0
      constructor
      · intro e
        cases e
      · intro e
        exact absurd h.2.2.1 (e.1 c (by omega))
    | none =>
      simp only []
      have h0 := (slot_scan_none_iff _ _ _).1 hs0
      cases hs : slot_scan k.tasks (K.MAX_TASK_NUM - 1) 1 with
      | some i =>
        simp only []
        have h := (slot_scan_some_iff _ _ _ _).1 hs
        constructor
        · intro e
          cases e
        · intro e
          exact absurd h.2.2.1 (e.2 i h.1 (by omega))
      | none =>
        simp only []
        have h := (slot_scan_none_iff _ _ _).1 hs
        constructor
        · intro _
          exact ⟨fun c hc => h0 c (Nat.zero_le _) (by omega), fun i g1 g2 => h i g1 (by omega)⟩
        · intro _
          trivial
  · unfold get_free_task
    cases hs0 : slot_scan k.idle_tasks k.cpu_count 0 with
    | some c =>
      intro e
      cases e
    | none =>
      simp only []
      cases hs : slot_scan k.tasks (K.MAX_TASK_NUM - 1) 1 with
      | some i =>
        intro e
        cases e
      | none =>
        intro _
        rfl

/-- C33 at three states: the idle slot 0 of `sample_exec_kernel` is null and
gets filled; in `sample_fork_kernel` the idle slot is taken and slot 2 is the
least free one; `sample_full_kernel` has no free slot. -/
theorem C33_get_free_task_witness :
    get_free_task sample_config sample_exec_kernel =
      (some (.idle 0),
       { sample_exec_kernel with
         idle_tasks := Function.update sample_exec_kernel.idle_tasks 0
           (some (zero_task sample_config)) }) ∧
    get_free_task sample_config sample_fork_kernel =
      (some (.task 2),
       { sample_fork_kernel with
         tasks := Function.update sample_fork_kernel.tasks 2
           (some { zero_task sample_config with pid := 2 }) }) ∧
    (get_free_task sample_config sample_full_kernel).2 = sample_full_kernel :=
  ⟨(C33_get_free_task sample_config sample_exec_kernel).1 0 (by decide) rfl
      (fun c1 h => absurd h (Nat.not_lt_zero c1)),
   (C33_get_free_task sample_config sample_fork_kernel).2.1
      (fun c hc => by
        have h0 : c = 0 := by
          have : c < 1 := hc
          omega
        subst h0
        exact Option.some_ne_none _)
      2 (by decide) (by decide) rfl
      (fun j h1 h2 => by
        have h0 : j = 1 := by omega
        subst h0
        exact Option.some_ne_none _),
   (C33_get_free_task sample_config sample_full_kernel).2.2.2 rfl⟩

/-! ## C34: the task-table invariant -/

/-- The invariant, read through pointers. -/
theorem table_inv_iff (k : Kernel) :
    table_inv k ↔ ∀ (p : task_ptr) (t : task_t), k.deref p = some t → slot_ok p t := by
  constructor
  · intro h p t hd
    cases p with
    | task i => exact h.1 i t hd
    | idle c => exact h.2.2 c t hd
  · intro h
    refine ⟨fun i t hi => h (.task i) t hi, ?_, fun c t hc => h (.idle c) t hc⟩
    cases h0 : k.tasks 0 with
    | none => rfl
    | some t =>
      have := (h (.task 0) t h0).1
      omega

/-- The invariant depends on the two task arrays only. -/
theorem table_inv_congr (k k1 : Kernel) (h1 : k1.tasks = k.tasks)
    (h2 : k1.idle_tasks = k.idle_tasks) (h : table_inv k) : table_inv k1 := by
  unfold table_inv at h ⊢
  rw [h1, h2]
  exact h

/-- Storing a task that suits its slot keeps the invariant. -/
theorem table_inv_store (k : Kernel) (p : task_ptr) (t : task_t) (h : table_inv k)
    (hs : slot_ok p t) : table_inv (k.store p t) := by
  rw [table_inv_iff] at h ⊢
  intro q u hq
  by_cases e : q = p
  · subst e
    rw [deref_store] at hq
    cases hq
    exact hs
  · rw [deref_store_ne _ _ _ _ e] at hq
    exact h q u hq

/-- Overwriting a task by one of the same PID keeps the invariant. -/
theorem table_inv_store_pid (k : Kernel) (p : task_ptr) (t t1 : task_t) (h : table_inv k)
    (hd : k.deref p = some t) (hp : t1.pid = t.pid) : table_inv (k.store p t1) := by
  apply table_inv_store k p t1 h
  have hs := (table_inv_iff k).1 h p t hd
  cases p with
  | task i => exact ⟨hs.1, hp.trans hs.2⟩
  | idle c => exact hp.trans hs

/-- Clearing a slot of `tasks[]` keeps the invariant. -/
theorem table_inv_clear (k : Kernel) (i : Nat) (h : table_inv k) :
    table_inv { k with tasks := Function.update k.tasks i none } := by
  refine ⟨fun j t hj => ?_, ?_, h.2.2⟩
  · by_cases e : j = i
    · subst e
      simp at hj
    · simp only [Function.update_noteq e] at hj
      exact h.1 j t hj
  · by_cases e : (0 : Nat) = i
    · subst e
      simp
    · simp only [Function.update_noteq e]
      exact h.2.1

/-- What `get_free_task` returns: nothing and the same state, or a pointer and
the state with a suitable task stored behind it. -/
theorem get_free_task_cases (K : Config) (k : Kernel) :
    get_free_task K k = (none, k) ∨
    ∃ (p : task_ptr) (z : task_t), get_free_task K k = (some p, k.store p z) ∧ slot_ok p z := by
  unfold get_free_task
  cases hs0 : slot_scan k.idle_tasks k.cpu_count 0 with
  | some c => exact Or.inr ⟨.idle c, _, rfl, rfl⟩
  | none =>
    cases hs : slot_scan k.tasks (K.MAX_TASK_NUM - 1) 1 with
    | some i =>
      have h := (slot_scan_some_iff _ _ _ _).1 hs
      exact Or.inr ⟨.task i, _, rfl, ⟨h.1, rfl⟩⟩
    | none => exact Or.inl rfl

/-- `task_create` keeps the invariant. -/
theorem task_create_inv (K : Config) (B : vfs_ops) (k : Kernel) (name : String) (p : task_ptr)
    (k1 : Kernel) (h : table_inv k) (hc : task_create K B k name = some (p, k1)) :
    table_inv k1 := by
  have h0 : table_inv { k with can_schedule := false } := table_inv_congr k _ rfl rfl h
  unfold task_create at hc
  rcases get_free_task_cases K { k with can_schedule := false } with hg | ⟨q, z, hg, hz⟩
  · simp only [hg] at hc
    cases hc
  · simp only [hg] at hc
    split at hc
    · cases hc
    · rename_i task htask
      simp only [Option.some.injEq, Prod.mk.injEq] at hc
      obtain ⟨_, hk⟩ := hc
      subst hk
      have h1 : table_inv (Kernel.store { k with can_schedule := false } q z) :=
        table_inv_store _ _ _ h0 hz
      have h2 : table_inv (alloc_cpu_id (Kernel.store { k with can_schedule := false } q z)).2 :=
        table_inv_congr _ _ rfl rfl h1
      exact table_inv_congr _ _ rfl rfl (table_inv_store_pid _ q task _ h2 htask rfl)

/-- `task_fork` keeps the invariant. -/
theorem task_fork_inv (K : Config) (B : vfs_ops) (k : Kernel) (vfork : Bool) (r : Nat)
    (k1 : Kernel) (h : table_inv k) (hc : task_fork K B k vfork = some (r, k1)) :
    table_inv k1 := by
  have h0 : table_inv { k with can_schedule := false } := table_inv_congr k _ rfl rfl h
  unfold task_fork at hc
  rcases get_free_task_cases K { k with can_schedule := false } with hg | ⟨q, z, hg, hz⟩
  · simp only [hg, Option.some.injEq, Prod.mk.injEq] at hc
    obtain ⟨_, hk⟩ := hc
    subst hk
    exact table_inv_congr _ _ rfl rfl h0
  · simp only [hg] at hc
    split at hc
    · rename_i cur child hcur hchild
      simp only [Option.some.injEq, Prod.mk.injEq] at hc
      obtain ⟨_, hk⟩ := hc
      subst hk
      have h1 : table_inv (Kernel.store { k with can_schedule := false } q z) :=
        table_inv_store _ _ _ h0 hz
      have h2 : table_inv (alloc_cpu_id (Kernel.store { k with can_schedule := false } q z)).2 :=
        table_inv_congr _ _ rfl rfl h1
      exact table_inv_congr _ _ rfl rfl (table_inv_store_pid _ q child _ h2 hchild rfl)
    · cases hc

/-- `sys_clone` keeps the invariant. -/
theorem sys_clone_inv (K : Config) (B : vfs_ops) (k : Kernel) (flags r : Nat)
    (k1 : Kernel) (h : table_inv k) (hc : sys_clone K B k flags = some (r, k1)) :
    table_inv k1 := by
  have h0 : table_inv { k with can_schedule := false } := table_inv_congr k _ rfl rfl h
  unfold sys_clone at hc
  rcases get_free_task_cases K { k with can_schedule := false } with hg | ⟨q, z, hg, hz⟩
  · simp only [hg, Option.some.injEq, Prod.mk.injEq] at hc
    obtain ⟨_, hk⟩ := hc
    subst hk
    exact h0
  · simp only [hg] at hc
    split at hc
    · rename_i cur child hcur hchild
      simp only [Option.some.injEq, Prod.mk.injEq] at hc
      obtain ⟨_, hk⟩ := hc
      subst hk
      have h1 : table_inv (Kernel.store { k with can_schedule := false } q z) :=
        table_inv_store _ _ _ h0 hz
      have h2 : table_inv (alloc_cpu_id (Kernel.store { k with can_schedule := false } q z)).2 :=
        table_inv_congr _ _ rfl rfl h1
      exact table_inv_congr _ _ rfl rfl (table_inv_store_pid _ q child _ h2 hchild rfl)
    · cases hc

/-- `task_exit` keeps the invariant. -/
theorem task_exit_inv (K : Config) (k : Kernel) (code : Int) (k1 : Kernel) (h : table_inv k)
    (hc : task_exit K k code = some k1) : table_inv k1 := by
  unfold task_exit at hc
  cases hcur : k.deref k.current_task with
  | none =>
    simp only [hcur] at hc
    cases hc
  | some task =>
    simp only [hcur] at hc
    have h1 : table_inv
        { k.store k.current_task
            { task with status := (code % 2 ^ 64).toNat,
                        fds := (exit_close_fds K.MAX_FD_NUM 0 task.fds k.vfs).1 } with
          vfs := (exit_close_fds K.MAX_FD_NUM 0 task.fds k.vfs).2 } :=
      table_inv_congr _ _ rfl rfl (table_inv_store_pid k _ task _ h hcur rfl)
    split at hc
    · cases hc
    · rename_i task2 htask2
      have h2 : table_inv
          (if task.waitpid ≠ 0 then
            match
              ({ k.store k.current_task
                  { task with status := (code % 2 ^ 64).toNat,
                              fds := (exit_close_fds K.MAX_FD_NUM 0 task.fds k.vfs).1 } with
                vfs := (exit_close_fds K.MAX_FD_NUM 0 task.fds k.vfs).2 } : Kernel).tasks
                task.waitpid with
            | some waiter =>
              Kernel.store
                { k.store k.current_task
                    { task with status := (code % 2 ^ 64).toNat,
                                fds := (exit_close_fds K.MAX_FD_NUM 0 task.fds k.vfs).1 } with
                  vfs := (exit_close_fds K.MAX_FD_NUM 0 task.fds k.vfs).2 }
                (.task task.waitpid) (task_unblock waiter K.EOK)
            | none =>
              { k.store k.current_task
                  { task with status := (code % 2 ^ 64).toNat,
                              fds := (exit_close_fds K.MAX_FD_NUM 0 task.fds k.vfs).1 } with
                vfs := (exit_close_fds K.MAX_FD_NUM 0 task.fds k.vfs).2 }
          else
            { k.store k.current_task
                { task with status := (code % 2 ^ 64).toNat,
                            fds := (exit_close_fds K.MAX_FD_NUM 0 task.fds k.vfs).1 } with
              vfs := (exit_close_fds K.MAX_FD_NUM 0 task.fds k.vfs).2 }) := by
        split
        · split
          · rename_i waiter hw
            exact table_inv_store_pid _ (.task task.waitpid) waiter _ h1 hw rfl
          · exact h1
        · exact h1
      have h3 := table_inv_store_pid _ _ task2 { task2 with state := TASK_DIED } h2 htask2 rfl
      split at hc
      · simp only [Option.some.injEq] at hc
        subst hc
        exact table_inv_congr _ _ rfl rfl h3
      · simp only [Option.some.injEq] at hc
        subst hc
        exact table_inv_congr _ _ rfl rfl h3

/-- A pass through the body of `sys_waitpid` that returns keeps the invariant. -/
theorem waitpid_rollback_inv (K : Config) (k : Kernel) (child : Option Nat) (status : Bool)
    (options ret : Nat) (out : Option Nat) (k1 : Kernel) (h : table_inv k)
    (hc : waitpid_rollback K k child status options = .returned ret out k1) : table_inv k1 := by
  unfold waitpid_rollback at hc
  split at hc
  · split at hc
    · cases hc
    · cases hc
      exact table_inv_clear k _ h
  · split at hc
    · cases hc
      exact h
    · cases hc
      exact h

/-- The code after the label `rollback` never blocks. -/
theorem waitpid_rollback_not_blocked (K : Config) (k : Kernel) (child : Option Nat)
    (status : Bool) (options c : Nat) (k1 : Kernel) :
    waitpid_rollback K k child status options ≠ .blocked c k1 := by
  intro hc
  unfold waitpid_rollback at hc
  split at hc
  · split at hc <;> cases hc
  · split at hc <;> cases hc

/-- Every pass through the body of `sys_waitpid` keeps the invariant. -/
theorem sys_waitpid_pass_inv (K : Config) (k : Kernel) (child : Option Nat) (pid : Nat)
    (status : Bool) (options : Nat) (r : pass_result) (h : table_inv k)
    (hr : sys_waitpid_pass K k child pid status options = r) :
    (∀ (ret : Nat) (out : Option Nat) (k1 : Kernel), r = .returned ret out k1 → table_inv k1) ∧
    (∀ (c : Nat) (k1 : Kernel), r = .blocked c k1 → table_inv k1) := by
  unfold sys_waitpid_pass at hr
  split at hr
  · subst hr
    exact ⟨fun _ _ _ hc => (by cases hc), fun _ _ hc => (by cases hc)⟩
  · rename_i cur hcur
    split at hr
    · subst hr
      exact ⟨fun ret out k1 hc => waitpid_rollback_inv K k _ status options ret out k1 h hc,
        fun c k1 hc => absurd hc (waitpid_rollback_not_blocked K k _ status options c k1)⟩
    · split at hr
      · subst hr
        refine ⟨fun ret out k1 hc => ?_, fun _ _ hc => (by cases hc)⟩
        cases hc
        exact h
      · subst hr
        exact ⟨fun ret out k1 hc => waitpid_rollback_inv K k _ status options ret out k1 h hc,
          fun c k1 hc => absurd hc (waitpid_rollback_not_blocked K k _ status options c k1)⟩
    · rename_i c hscan
      split at hr
      · subst hr
        exact ⟨fun _ _ _ hc => (by cases hc), fun _ _ hc => (by cases hc)⟩
      · rename_i ch hch
        have h1 : table_inv
            { k with tasks := Function.update k.tasks c (some { ch with waitpid := cur.pid }) } :=
          table_inv_congr _ (k.store (.task c) { ch with waitpid := cur.pid }) rfl rfl
            (table_inv_store_pid k (.task c) ch _ h hch rfl)
        simp only [] at hr
        split at hr
        · subst hr
          exact ⟨fun _ _ _ hc => (by cases hc), fun _ _ hc => (by cases hc)⟩
        · rename_i cur1 hcur1
          subst hr
          refine ⟨fun _ _ _ hc => (by cases hc), fun c1 k1 hc => ?_⟩
          cases hc
          exact table_inv_store_pid _ _ cur1 _ h1 hcur1 rfl

/-- With a null idle slot `c` below `cpu_count` and none before it,
`get_free_task` fills that slot. -/
theorem get_free_task_idle (K : Config) (k : Kernel) (c : Nat) (hc : c < k.cpu_count)
    (hnull : k.idle_tasks c = none) (hmin : ∀ c1 : Nat, c1 < c → k.idle_tasks c1 ≠ none) :
    get_free_task K k = (some (.idle c), k.store (.idle c) { zero_task K with pid := 0 }) := by
  have hs : slot_scan k.idle_tasks k.cpu_count 0 = some c :=
    (slot_scan_some_iff _ _ _ _).2 ⟨Nat.zero_le _, by omega, hnull, fun j1 _ h2 => hmin j1 h2⟩
  unfold get_free_task
  rw [hs]

/-- In that situation `task_create` returns the slot `c` and touches no other
slot. -/
theorem task_create_idle (K : Config) (B : vfs_ops) (k : Kernel) (name : String) (c : Nat)
    (p : task_ptr) (k1 : Kernel) (hc : c < k.cpu_count) (hnull : k.idle_tasks c = none)
    (hmin : ∀ c1 : Nat, c1 < c → k.idle_tasks c1 ≠ none)
    (h : task_create K B k name = some (p, k1)) :
    p = .idle c ∧ k1.cpu_count = k.cpu_count ∧
    ∀ c1 : Nat, c1 ≠ c → k1.idle_tasks c1 = k.idle_tasks c1 := by
  have hg := get_free_task_idle K { k with can_schedule := false } c hc hnull hmin
  unfold task_create at h
  simp only [hg] at h
  split at h
  · cases h
  · cases h
    refine ⟨rfl, rfl, fun c1 hne => ?_⟩
    show Function.update (Function.update k.idle_tasks c _) c _ c1 = _
    rw [Function.update_noteq hne, Function.update_noteq hne]

/-- The loop of `task_init` keeps the invariant. -/
theorem task_init_loop_inv (K : Config) (B : vfs_ops) :
    ∀ (n cpu : Nat) (k k1 : Kernel), table_inv k → cpu + n = k.cpu_count →
      (∀ c : Nat, c < cpu → k.idle_tasks c ≠ none) →
      (∀ c : Nat, cpu ≤ c → k.idle_tasks c = none) →
      task_init_loop K B n cpu k = some k1 → table_inv k1 := by
  intro n
  induction n with
  | zero =>
    intro cpu k k1 h _ _ _ hl
    unfold task_init_loop at hl
    cases hl
    exact h
  | succ n ih =>
    intro cpu k k1 h hn hlow hhigh hl
    unfold task_init_loop at hl
    cases hc : task_create K B k "idle" with
    | none =>
      simp only [hc] at hl
      cases hl
    | some r =>
      obtain ⟨p, ka⟩ := r
      simp only [hc] at hl
      have hinv := task_create_inv K B k "idle" p ka h hc
      obtain ⟨hp, hcount, hother⟩ :=
        task_create_idle K B k "idle" cpu p ka (by omega) (hhigh cpu (le_refl _)) hlow hc
      subst hp
      split at hl
      · cases hl
      · rename_i t ht
        refine ih (cpu + 1) _ k1 (by exact table_inv_store_pid ka (.idle cpu) t _ hinv ht rfl)
          ?_ ?_ ?_ hl
        · show cpu + 1 + n = ka.cpu_count
          omega
        · intro c hlt
          show Function.update ka.idle_tasks cpu _ c ≠ none
          by_cases e : c = cpu
          · subst e
            rw [Function.update_same]
            exact Option.some_ne_none _
          · rw [Function.update_noteq e, hother c e]
            exact hlow c (by omega)
        · intro c hle
          show Function.update ka.idle_tasks cpu _ c = none
          have e : c ≠ cpu := by omega
          rw [Function.update_noteq e, hother c e]
          exact hhigh c (by omega)

/-- `task_init` establishes the invariant. -/
theorem task_init_inv (K : Config) (B : vfs_ops) (k0 k : Kernel)
    (h : task_init K B k0 = some k) : table_inv k := by
  unfold task_init at h
  simp only [] at h
  split at h
  · cases h
  · rename_i ka hka
    have h0 : table_inv
        ({ k0 with tasks := fun _ => none, idle_tasks := fun _ => none } : Kernel) :=
      ⟨fun i t hi => (by cases hi), rfl, fun c t hc => (by cases hc)⟩
    have h1 : table_inv ka :=
      task_init_loop_inv K B _ 0 _ ka h0 (Nat.zero_add _)
        (fun c hc => absurd hc (Nat.not_lt_zero c)) (fun c _ => rfl) hka
    split at h
    · cases h
    · rename_i r hr
      cases h
      obtain ⟨p, kb⟩ := r
      exact table_inv_congr _ _ rfl rfl
        (task_create_inv K B _ "init" p kb (by exact table_inv_congr _ _ rfl rfl h1) hr)

/-- `sys_waitpid` as a whole stays inside the reachable states when the rest of
the system does. -/
theorem sys_waitpid_loop_reachable (K : Config) (B : vfs_ops) (env : Kernel → Kernel)
    (pid : Nat) (status : Bool) (options : Nat)
    (henv : ∀ a : Kernel, reachable K B a → reachable K B (env a)) :
    ∀ (n : Nat) (paused : Bool) (child : Option Nat) (k : Kernel)
      (r : Nat × Option Nat × Kernel), reachable K B k →
      sys_waitpid_loop K env pid status options n paused child k = some r →
      reachable K B r.2.2 := by
  intro n
  induction n with
  | zero =>
    intro paused child k r _ h
    simp [sys_waitpid_loop] at h
  | succ n ih =>
    intro paused child k r hk h
    cases paused with
    | true =>
      unfold sys_waitpid_loop at h
      simp only [] at h
      have hk1 : reachable K B { env k with current_task := k.current_task } :=
        reachable.schedule _ _ (henv k hk)
      split at h
      · cases h
      · split at h
        · exact ih _ _ _ r hk1 h
        · exact ih _ _ _ r hk1 h
    | false =>
      unfold sys_waitpid_loop at h
      split at h
      · rename_i ret s k1 hp
        cases h
        exact reachable.waitpid_returned k child pid status options ret s k1 hk hp
      · rename_i c k1 hp
        exact ih _ _ _ r (reachable.waitpid_blocked k child pid status options c k1 hk hp) h
      · cases h

/-- C34: every state reachable from `task_init` through `task_create`,
`task_fork`, `sys_clone`, `task_exit`, the passes of `sys_waitpid` and the
scheduler satisfies the table invariant: a non-null `tasks[i]` has `i ≥ 1` and
PID `i`, `tasks[0]` is null, a non-null `idle_tasks[c]` has PID 0; and a whole
call of `sys_waitpid`, run against a rest of the system that stays inside the
reachable states, ends in a reachable state. -/
theorem C34_table_invariant (K : Config) (B : vfs_ops) :
    (∀ k : Kernel, reachable K B k → table_inv k) ∧
    (∀ (env : Kernel → Kernel) (fuel : Nat) (k : Kernel) (pid : Nat) (status : Bool)
        (options : Nat) (r : Nat × Option Nat × Kernel),
      (∀ a : Kernel, reachable K B a → reachable K B (env a)) → reachable K B k →
      sys_waitpid K env fuel k pid status options = some r → reachable K B r.2.2) := by
  constructor
  · intro k hk
    induction hk with
    | init k0 k h => exact task_init_inv K B k0 k h
    | create k name p k1 _ h ih => exact task_create_inv K B k name p k1 ih h
    | fork k vfork r k1 _ h ih => exact task_fork_inv K B k vfork r k1 ih h
    | clone k flags r k1 _ h ih => exact sys_clone_inv K B k flags r k1 ih h
    | exit k code k1 _ h ih => exact task_exit_inv K k code k1 ih h
    | waitpid_returned k child pid status options ret out k1 _ h ih =>
      exact (sys_waitpid_pass_inv K k child pid status options _ ih h).1 ret out k1 rfl
    | waitpid_blocked k child pid status options c k1 _ h ih =>
      exact (sys_waitpid_pass_inv K k child pid status options _ ih h).2 c k1 rfl
    | schedule k p _ ih => exact table_inv_congr _ _ rfl rfl ih
  · intro env fuel k pid status options r henv hk h
    exact sys_waitpid_loop_reachable K B env pid status options henv fuel false none k r hk h

/-- C34 at the state that `task_init` builds on one CPU and at the state after
a `task_fork` from there. -/
theorem C34_table_invariant_witness :
    ∃ (k k1 : Kernel) (r : Nat),
      task_init sample_config sample_ops sample_full_kernel = some k ∧
      task_fork sample_config sample_ops { k with current_task := .task 1 } false =
        some (r, k1) ∧
      table_inv k ∧ table_inv k1 ∧
      (k1.tasks 1).map (fun t => t.pid) = some 1 ∧
      (k1.tasks 2).map (fun t => t.pid) = some 2 ∧
      (k1.idle_tasks 0).map (fun t => t.pid) = some 0 :=
  ⟨_, _, _, rfl, rfl,
    (C34_table_invariant sample_config sample_ops).1 _
      (reachable.init sample_full_kernel _ rfl),
    (C34_table_invariant sample_config sample_ops).1 _
      (reachable.fork _ false _ _
        (reachable.schedule _ (.task 1) (reachable.init sample_full_kernel _ rfl)) rfl),
    rfl, rfl, rfl⟩

/-! ## C32: alignment of the stack pointer handed to user mode -/

/-- The address `push_slice` returns is a multiple of 8, and pushing a multiple
of 8 bytes from a multiple of 8 moves the address by that length modulo 16. -/
theorem push_slice_mod (mem : Nat → Nat) (u : Nat) (sl : List Nat) :
    (push_slice mem u sl).1 % 8 = 0 ∧
    (u % 8 = 0 → sl.length % 8 = 0 →
      (push_slice mem u sl).1 % 16 = (u % 16 + 16 - sl.length % 16) % 16) := by
  unfold push_slice
  simp only []
  generalize sl.length = L
  constructor
  · omega
  · intro h1 h2
    omega

/-- The string loops leave a multiple of 8 when they start from one, and
record one address per string. -/
theorem push_strings_mod :
    ∀ (l : List String) (sp : Nat) (mem : Nat → Nat) (ptrs : List Nat),
      sp % 8 = 0 →
      (push_strings l sp mem ptrs).1 % 8 = 0 ∧
      (push_strings l sp mem ptrs).2.2.length = ptrs.length + l.length := by
  intro l
  induction l with
  | nil =>
    intro sp mem ptrs h
    exact ⟨h, rfl⟩
  | cons s rest ih =>
    intro sp mem ptrs _
    unfold push_strings
    have h := ih (push_slice mem sp (cstring s)).1 (push_slice mem sp (cstring s)).2
      (ptrs ++ [(push_slice mem sp (cstring s)).1]) (push_slice_mod mem sp (cstring s)).1
    refine ⟨h.1, ?_⟩
    rw [h.2, List.length_append, List.length_cons, List.length_nil, List.length_cons]
    omega

/-- A word takes eight bytes. -/
theorem word_bytes_length (w : Nat) : (word_bytes w).length = 8 := by
  simp [word_bytes]

/-- An array of words takes eight bytes per word. -/
theorem words_length (ws : List Nat) : (ws.flatMap word_bytes).length = 8 * ws.length := by
  induction ws with
  | nil => rfl
  | cons w rest ih =>
    rw [List.flatMap_cons, List.length_append, ih, word_bytes_length, List.length_cons]
    omega

/-- A pair of words takes sixteen bytes. -/
theorem pair_length (a b : Nat) : (word_bytes a ++ word_bytes b).length = 16 := by
  rw [List.length_append, word_bytes_length, word_bytes_length]

/-- A run of pushes of slices whose lengths are multiples of 8, from a multiple
of 8, moves the stack pointer down by the bytes pushed modulo 16. -/
theorem push_list_mod :
    ∀ (ls : List (List Nat)) (sp : Nat) (mem : Nat → Nat), sp % 8 = 0 →
      (∀ sl ∈ ls, sl.length % 8 = 0) →
      ((push_list ls sp mem).1 + (ls.map List.length).sum) % 16 = sp % 16 := by
  intro ls
  induction ls with
  | nil =>
    intro sp mem _ _
    rfl
  | cons sl rest ih =>
    intro sp mem h8 hall
    obtain ⟨a1, c1⟩ := push_slice_mod mem sp sl
    have c2 := c1 h8 (hall sl (List.mem_cons_self _ _))
    have h := ih (push_slice mem sp sl).1 (push_slice mem sp sl).2 a1
      (fun x hx => hall x (List.mem_cons_of_mem _ hx))
    unfold push_list
    rw [List.map_cons, List.sum_cons]
    have h8l := hall sl (List.mem_cons_self _ _)
    omega

/-- The lengths of the slices pushed after the alignment. -/
theorem vector_slices_lengths (K : Config) (argvps envps : List Nat)
    (argv_i execfn_ptr e_entry phdr phnum at_base : Nat) :
    (vector_slices K argvps envps argv_i execfn_ptr e_entry phdr phnum at_base).map
        List.length =
      [16, 16, 16, 16, 16, 16, 16, 16, 8, 8 * envps.length, 8, 8 * argvps.length, 8] := by
  simp only [vector_slices, List.map_cons, List.map_nil, pair_length, word_bytes_length,
    words_length]

/-- The pushes after the alignment move the stack pointer down by
`152 + 8 * (number of pointers)` bytes modulo 16. -/
theorem push_vectors_mod (K : Config) (mem : Nat → Nat) (sp : Nat) (argvps envps : List Nat)
    (argv_i execfn_ptr e_entry phdr phnum at_base : Nat) (hsp : sp % 8 = 0) :
    ((push_vectors K mem sp argvps envps argv_i execfn_ptr e_entry phdr phnum at_base).1 +
      152 + 8 * envps.length + 8 * argvps.length) % 16 = sp % 16 := by
  have hl := vector_slices_lengths K argvps envps argv_i execfn_ptr e_entry phdr phnum at_base
  have hall : ∀ sl ∈ vector_slices K argvps envps argv_i execfn_ptr e_entry phdr phnum at_base,
      sl.length % 8 = 0 := by
    intro sl hsl
    have hm : sl.length ∈
        (vector_slices K argvps envps argv_i execfn_ptr e_entry phdr phnum at_base).map
          List.length := List.mem_map_of_mem _ hsl
    rw [hl] at hm
    simp only [List.mem_cons, List.mem_singleton, List.not_mem_nil, or_false] at hm
    omega
  have h := push_list_mod _ sp mem hsp hall
  rw [hl] at h
  simp only [List.sum_cons, List.sum_nil] at h
  unfold push_vectors
  omega

/-- Alignment inside the pointer arrays: for every stack top, task name,
argument list and environment list of at most 128 strings each (the size of the
arrays `envps` and `argvps`), `push_infos` returns, and the stack pointer it
returns is a multiple of 16. -/
theorem push_infos_aligned (K : Config) (mem : Nat → Nat) (task : task_t)
    (current_stack : Nat) (argv envp : List String) (e_entry phdr phnum at_base : Nat)
    (ha : argv.length ≤ 128) (he : envp.length ≤ 128) :
    ∃ r : Nat × (Nat → Nat),
      push_infos K mem task current_stack argv envp e_entry phdr phnum at_base = some r ∧
      r.1 % 16 = 0 := by
  have hn : ¬ (128 < envp.length ∨ 128 < argv.length) := by omega
  unfold push_infos
  rw [if_neg hn]
  refine ⟨_, rfl, ?_⟩
  have h0 := (push_slice_mod mem current_stack (cstring task.name)).1
  have he1 := push_strings_mod envp _ (push_slice mem current_stack (cstring task.name)).2 [] h0
  have ha1 := push_strings_mod argv _
    (push_strings envp (push_slice mem current_stack (cstring task.name)).1
      (push_slice mem current_stack (cstring task.name)).2 []).2.1 [] he1.1
  have hv := push_vectors_mod K
    (push_strings argv
      (push_strings envp (push_slice mem current_stack (cstring task.name)).1
        (push_slice mem current_stack (cstring task.name)).2 []).1
      (push_strings envp (push_slice mem current_stack (cstring task.name)).1
        (push_slice mem current_stack (cstring task.name)).2 []).2.1 []).2.1
  generalize (push_strings envp (push_slice mem current_stack (cstring task.name)).1
        (push_slice mem current_stack (cstring task.name)).2 []) = re at *
  generalize (push_strings argv re.1 re.2.1 []) = ra at *
  have hl1 := he1.2
  have hl2 := ha1.2
  simp only [List.length_nil, Nat.zero_add] at hl1 hl2
  have hal : (ra.1 + 2 ^ 64 - (ra.1 + 2 ^ 64 -
      (2 * 8 + 7 * 2 * 8 + (envp.length + 0) * 8 + 8 + (argv.length + 0) * 8 + 8 + 8)) %
        2 ^ 64 % 16) % 2 ^ 64 % 8 = 0 := by
    have := ha1.1
    omega
  have hv1 := hv _ ra.2.2 re.2.2 argv.length
    (push_slice mem current_stack (cstring task.name)).1 e_entry phdr phnum at_base hal
  rw [hl1, hl2] at hv1
  have := ha1.1
  omega

/-- The sample call, the task "sh" with two arguments and one environment
string, returns an aligned stack pointer. -/
theorem push_infos_aligned_sample :
    ∃ r : Nat × (Nat → Nat), sample_push = some r ∧ r.1 % 16 = 0 :=
  push_infos_aligned sample_config (fun _ => 0) { blank_task with name := "sh" } 65536
    ["sh", "-c"] ["A=1"] 4198400 4194368 1 0 (by decide) (by decide)

/-- C32, the code at the failing input: the task "sh", the stack top 65536
and 129 arguments "a", which with their vectors take 2370 bytes at most and so
fit the stack.  The arrays `envps` and `argvps` of `push_infos` have 1024 bytes,
128 pointers, each, and the loop over `argv` stores `argvps[128]` past the end of
its array: the call yields no stack pointer.  With 128 arguments it returns. -/
theorem C32_push_infos_overrun :
    (List.replicate 129 "a").length = 129 ∧
    stack_need "sh" (List.replicate 129 "a") [] ≤ 65536 ∧
    push_infos sample_config (fun _ => 0) { blank_task with name := "sh" } 65536
      (List.replicate 129 "a") [] 4198400 4194368 1 0 = none ∧
    (push_infos sample_config (fun _ => 0) { blank_task with name := "sh" } 65536
      (List.replicate 128 "a") [] 4198400 4194368 1 0).isSome = true := by
  have hc : (cstring "a").length = 2 := by decide
  have hn : (cstring "sh").length = 3 := by decide
  refine ⟨by simp, ?_, ?_, ?_⟩
  · simp only [stack_need, strings_need, List.map_replicate, List.sum_replicate, hc, hn,
      List.map_nil, List.sum_nil, List.length_replicate, List.length_nil, smul_eq_mul]
    decide
  · simp [push_infos]
  · simp [push_infos]

/-! ## C31: the layout of the initial user stack -/

/-- Bytes just written are read back. -/
theorem read_write_same (mem : Nat → Nat) (a : Nat) (bs : List Nat) :
    read_bytes (write_bytes mem a bs) a bs.length = bs := by
  apply List.ext_getElem
  · simp [read_bytes]
  · intro i h1 h2
    simp only [read_bytes, List.getElem_map, List.getElem_range, write_bytes]
    have hc : a ≤ a + i ∧ a + i < a + bs.length := by omega
    rw [if_pos hc, Nat.add_sub_cancel_left, List.getD_eq_getElem _ _ h2]

/-- A write below the bytes read does not change them. -/
theorem read_write_above (mem : Nat → Nat) (a : Nat) (bs : List Nat) (b n : Nat)
    (h : a + bs.length ≤ b) :
    read_bytes (write_bytes mem a bs) b n = read_bytes mem b n := by
  unfold read_bytes
  apply List.map_congr_left
  intro i _
  unfold write_bytes
  have hc : ¬ (a ≤ b + i ∧ b + i < a + bs.length) := by omega
  rw [if_neg hc]

/-- A push that fits the stack: where the slice lands, that it is read back
there, and that the memory from the old stack pointer upward is untouched. -/
theorem push_slice_fit (mem : Nat → Nat) (u : Nat) (sl : List Nat) (hu : u < 2 ^ 64)
    (hl : sl.length ≤ u) :
    (push_slice mem u sl).1 + sl.length ≤ u ∧ u ≤ (push_slice mem u sl).1 + sl.length + 7 ∧
    (push_slice mem u sl).1 % 8 = 0 ∧
    (u % 8 = 0 → sl.length % 8 = 0 → (push_slice mem u sl).1 + sl.length = u) ∧
    read_bytes (push_slice mem u sl).2 (push_slice mem u sl).1 sl.length = sl ∧
    ∀ b n : Nat, u ≤ b →
      read_bytes (push_slice mem u sl).2 b n = read_bytes mem b n := by
  have h1 : (push_slice mem u sl).1 + sl.length ≤ u ∧
      u ≤ (push_slice mem u sl).1 + sl.length + 7 ∧ (push_slice mem u sl).1 % 8 = 0 ∧
      (u % 8 = 0 → sl.length % 8 = 0 → (push_slice mem u sl).1 + sl.length = u) := by
    unfold push_slice
    simp only []
    generalize sl.length = L at *
    omega
  refine ⟨h1.1, h1.2.1, h1.2.2.1, h1.2.2.2, read_write_same _ _ _, fun b n hb => ?_⟩
  exact read_write_above _ _ _ _ _ (by omega)

/-- The string loops, when the strings fit the stack: one address per string,
each at or above the new stack pointer and holding its string; the memory from
the old stack pointer upward is untouched. -/
theorem push_strings_fit :
    ∀ (l : List String) (sp : Nat) (mem : Nat → Nat) (acc : List Nat),
      sp < 2 ^ 64 → strings_need l ≤ sp →
      ∃ ptrs : List Nat,
        (push_strings l sp mem acc).2.2 = acc ++ ptrs ∧ ptrs.length = l.length ∧
        (push_strings l sp mem acc).1 ≤ sp ∧
        sp ≤ (push_strings l sp mem acc).1 + strings_need l ∧
        (∀ b n : Nat, sp ≤ b →
          read_bytes (push_strings l sp mem acc).2.1 b n = read_bytes mem b n) ∧
        ∀ i : Nat, i < l.length →
          (push_strings l sp mem acc).1 ≤ ptrs.getD i 0 ∧
          read_bytes (push_strings l sp mem acc).2.1 (ptrs.getD i 0)
            (cstring (l.getD i "")).length = cstring (l.getD i "") := by
  intro l
  induction l with
  | nil =>
    intro sp mem acc _ _
    refine ⟨[], (List.append_nil acc).symm, rfl, le_refl _, Nat.le_add_right _ _,
      fun _ _ _ => rfl, fun i hi => ?_⟩
    exact absurd hi (Nat.not_lt_zero i)
  | cons s rest ih =>
    intro sp mem acc hsp hneed
    have hn : strings_need (s :: rest) = (cstring s).length + 7 + strings_need rest := by
      simp [strings_need]
    rw [hn] at hneed ⊢
    obtain ⟨p1, p2, _, _, p5, p6⟩ := push_slice_fit mem sp (cstring s) hsp (by omega)
    obtain ⟨ptrs, q1, q2, q3, q4, q5, q6⟩ :=
      ih (push_slice mem sp (cstring s)).1 (push_slice mem sp (cstring s)).2
        (acc ++ [(push_slice mem sp (cstring s)).1]) (by omega) (by omega)
    unfold push_strings
    refine ⟨(push_slice mem sp (cstring s)).1 :: ptrs, ?_, ?_, ?_, ?_, ?_, ?_⟩
    · rw [q1, List.append_assoc]
      rfl
    · rw [List.length_cons, List.length_cons, q2]
    · omega
    · omega
    · intro b n hb
      rw [q5 b n (by omega), p6 b n hb]
    · intro i hi
      cases i with
      | zero =>
        simp only [List.getD_cons_zero]
        refine ⟨q3, ?_⟩
        rw [q5 _ _ (le_refl _)]
        exact p5
      | succ j =>
        simp only [List.getD_cons_succ]
        exact q6 j (by simpa using hi)

/-- A run of pushes of slices whose lengths are multiples of 8, from a multiple
of 8 and fitting the stack: the stack pointer moves down by exactly the bytes
pushed, every slice is read back above the slices pushed after it, and the
memory from the old stack pointer upward is untouched. -/
theorem push_list_fit :
    ∀ (ls : List (List Nat)) (sp : Nat) (mem : Nat → Nat), sp < 2 ^ 64 → sp % 8 = 0 →
      (∀ sl ∈ ls, sl.length % 8 = 0) → (ls.map List.length).sum ≤ sp →
      (push_list ls sp mem).1 + (ls.map List.length).sum = sp ∧
      (∀ b n : Nat, sp ≤ b → read_bytes (push_list ls sp mem).2 b n = read_bytes mem b n) ∧
      ∀ (pre : List (List Nat)) (sl : List Nat) (post : List (List Nat)),
        ls = pre ++ sl :: post →
        read_bytes (push_list ls sp mem).2
          ((push_list ls sp mem).1 + (post.map List.length).sum) sl.length = sl := by
  intro ls
  induction ls with
  | nil =>
    intro sp mem _ _ _ _
    refine ⟨rfl, fun _ _ _ => rfl, fun pre sl post h => ?_⟩
    cases pre <;> cases h
  | cons sl0 rest ih =>
    intro sp mem hsp h8 hall hfit
    rw [List.map_cons, List.sum_cons] at hfit ⊢
    have h8l := hall sl0 (List.mem_cons_self _ _)
    obtain ⟨_, _, a1, e1, s1, f1⟩ := push_slice_fit mem sp sl0 hsp (by omega)
    have d1 := e1 h8 h8l
    obtain ⟨i1, i2, i3⟩ := ih (push_slice mem sp sl0).1 (push_slice mem sp sl0).2 (by omega) a1
      (fun x hx => hall x (List.mem_cons_of_mem _ hx)) (by omega)
    unfold push_list
    refine ⟨by omega, fun b n hb => ?_, fun pre sl post h => ?_⟩
    · rw [i2 b n (by omega), f1 b n hb]
    · cases pre with
      | nil =>
        simp only [List.nil_append, List.cons.injEq] at h
        obtain ⟨h1, h2⟩ := h
        subst h1
        subst h2
        rw [i1, i2 _ _ (le_refl _)]
        exact s1
      | cons p pre1 =>
        simp only [List.cons_append, List.cons.injEq] at h
        exact i3 pre1 sl post h.2

/-- The pushes after the alignment, when they fit the stack: the stack pointer
moves down by exactly the bytes pushed, each slice is read back at its place,
and the memory from the old stack pointer upward is untouched. -/
theorem push_vectors_fit (K : Config) (mem : Nat → Nat) (sp : Nat) (argvps envps : List Nat)
    (argv_i execfn_ptr e_entry phdr phnum at_base : Nat) (r : Nat × (Nat → Nat))
    (hsp : sp < 2 ^ 64) (h8 : sp % 8 = 0)
    (hfit : 152 + 8 * envps.length + 8 * argvps.length ≤ sp)
    (hr : push_vectors K mem sp argvps envps argv_i execfn_ptr e_entry phdr phnum at_base = r) :
    r.1 + (152 + 8 * envps.length + 8 * argvps.length) = sp ∧
    read_bytes r.2 r.1 8 = word_bytes argv_i ∧
    read_bytes r.2 (r.1 + 8) (8 * argvps.length) = argvps.flatMap word_bytes ∧
    read_bytes r.2 (r.1 + 8 + 8 * argvps.length) 8 = word_bytes 0 ∧
    read_bytes r.2 (r.1 + 16 + 8 * argvps.length) (8 * envps.length) =
      envps.flatMap word_bytes ∧
    read_bytes r.2 (r.1 + 16 + 8 * argvps.length + 8 * envps.length) 8 = word_bytes 0 ∧
    read_bytes r.2 (r.1 + 24 + 8 * argvps.length + 8 * envps.length) 16 =
      word_bytes K.AT_PAGESZ ++ word_bytes K.DEFAULT_PAGE_SIZE ∧
    read_bytes r.2 (r.1 + 40 + 8 * argvps.length + 8 * envps.length) 16 =
      word_bytes K.AT_BASE ++ word_bytes at_base ∧
    read_bytes r.2 (r.1 + 56 + 8 * argvps.length + 8 * envps.length) 16 =
      word_bytes K.AT_EXECFN ++ word_bytes execfn_ptr ∧
    read_bytes r.2 (r.1 + 72 + 8 * argvps.length + 8 * envps.length) 16 =
      word_bytes K.AT_ENTRY ++ word_bytes e_entry ∧
    read_bytes r.2 (r.1 + 88 + 8 * argvps.length + 8 * envps.length) 16 =
      word_bytes K.AT_PHNUM ++ word_bytes phnum ∧
    read_bytes r.2 (r.1 + 104 + 8 * argvps.length + 8 * envps.length) 16 =
      word_bytes K.AT_PHENT ++ word_bytes 56 ∧
    read_bytes r.2 (r.1 + 120 + 8 * argvps.length + 8 * envps.length) 16 =
      word_bytes K.AT_PHDR ++ word_bytes phdr ∧
    read_bytes r.2 (r.1 + 136 + 8 * argvps.length + 8 * envps.length) 16 =
      word_bytes 0 ++ word_bytes 0 ∧
    ∀ b n : Nat, sp ≤ b → read_bytes r.2 b n = read_bytes mem b n := by
  have hl := vector_slices_lengths K argvps envps argv_i execfn_ptr e_entry phdr phnum at_base
  have hall : ∀ sl ∈ vector_slices K argvps envps argv_i execfn_ptr e_entry phdr phnum at_base,
      sl.length % 8 = 0 := by
    intro sl hsl
    have hm : sl.length ∈
        (vector_slices K argvps envps argv_i execfn_ptr e_entry phdr phnum at_base).map
          List.length := List.mem_map_of_mem _ hsl
    rw [hl] at hm
    simp only [List.mem_cons, List.mem_singleton, List.not_mem_nil, or_false] at hm
    omega
  have hsum : ((vector_slices K argvps envps argv_i execfn_ptr e_entry phdr phnum
      at_base).map List.length).sum = 152 + 8 * envps.length + 8 * argvps.length := by
    rw [hl]
    simp only [List.sum_cons, List.sum_nil]
    omega
  obtain ⟨g1, g2, g3⟩ := push_list_fit _ sp mem hsp h8 hall (by rw [hsum]; exact hfit)
  rw [hsum] at g1
  unfold push_vectors at hr
  rw [hr] at g1 g2 g3
  have key : ∀ (pre : List (List Nat)) (sl : List Nat) (post : List (List Nat)) (off len : Nat),
      vector_slices K argvps envps argv_i execfn_ptr e_entry phdr phnum at_base =
        pre ++ sl :: post →
      (post.map List.length).sum = off → sl.length = len →
      read_bytes r.2 (r.1 + off) len = sl := by
    intro pre sl post off len h1 h2 h3
    rw [← h2, ← h3]
    exact g3 pre sl post h1
  have l8 := word_bytes_length
  have l16 := pair_length
  have lw := words_length
  refine ⟨g1, ?_, ?_, ?_, ?_, ?_, ?_, ?_, ?_, ?_, ?_, ?_, ?_, ?_, g2⟩
  · have hx := key
      [word_bytes 0 ++ word_bytes 0,
        word_bytes K.AT_PHDR ++ word_bytes phdr,
        word_bytes K.AT_PHENT ++ word_bytes 56,
        word_bytes K.AT_PHNUM ++ word_bytes phnum,
        word_bytes K.AT_ENTRY ++ word_bytes e_entry,
        word_bytes K.AT_EXECFN ++ word_bytes execfn_ptr,
        word_bytes K.AT_BASE ++ word_bytes at_base,
        word_bytes K.AT_PAGESZ ++ word_bytes K.DEFAULT_PAGE_SIZE,
        word_bytes 0,
        envps.flatMap word_bytes,
        word_bytes 0,
        argvps.flatMap word_bytes]
      (word_bytes argv_i)
      []
      (0) (8) rfl rfl
      (l8 _)
    have ha : r.1 = r.1 + (0) := by omega
    rw [ha]
    exact hx
  · have hx := key
      [word_bytes 0 ++ word_bytes 0,
        word_bytes K.AT_PHDR ++ word_bytes phdr,
        word_bytes K.AT_PHENT ++ word_bytes 56,
        word_bytes K.AT_PHNUM ++ word_bytes phnum,
        word_bytes K.AT_ENTRY ++ word_bytes e_entry,
        word_bytes K.AT_EXECFN ++ word_bytes execfn_ptr,
        word_bytes K.AT_BASE ++ word_bytes at_base,
        word_bytes K.AT_PAGESZ ++ word_bytes K.DEFAULT_PAGE_SIZE,
        word_bytes 0,
        envps.flatMap word_bytes,
        word_bytes 0]
      (argvps.flatMap word_bytes)
      [word_bytes argv_i]
      (8) (8 * argvps.length) rfl
      (by
        simp only [List.map_cons, List.map_nil, List.sum_cons, List.sum_nil, l8, l16, lw]
        omega)
      (lw _)
    have ha : r.1 + 8 = r.1 + (8) := by omega
    rw [ha]
    exact hx
  · have hx := key
      [word_bytes 0 ++ word_bytes 0,
        word_bytes K.AT_PHDR ++ word_bytes phdr,
        word_bytes K.AT_PHENT ++ word_bytes 56,
        word_bytes K.AT_PHNUM ++ word_bytes phnum,
        word_bytes K.AT_ENTRY ++ word_bytes e_entry,
        word_bytes K.AT_EXECFN ++ word_bytes execfn_ptr,
        word_bytes K.AT_BASE ++ word_bytes at_base,
        word_bytes K.AT_PAGESZ ++ word_bytes K.DEFAULT_PAGE_SIZE,
        word_bytes 0,
        envps.flatMap word_bytes]
      (word_bytes 0)
      [argvps.flatMap word_bytes,
        word_bytes argv_i]
      (8 + 8 * argvps.length) (8) rfl
      (by
        simp only [List.map_cons, List.map_nil, List.sum_cons, List.sum_nil, l8, l16, lw]
        omega)
      (l8 _)
    have ha : r.1 + 8 + 8 * argvps.length = r.1 + (8 + 8 * argvps.length) := by omega
    rw [ha]
    exact hx
  · have hx := key
      [word_bytes 0 ++ word_bytes 0,
        word_bytes K.AT_PHDR ++ word_bytes phdr,
        word_bytes K.AT_PHENT ++ word_bytes 56,
        word_bytes K.AT_PHNUM ++ word_bytes phnum,
        word_bytes K.AT_ENTRY ++ word_bytes e_entry,
        word_bytes K.AT_EXECFN ++ word_bytes execfn_ptr,
        word_bytes K.AT_BASE ++ word_bytes at_base,
        word_bytes K.AT_PAGESZ ++ word_bytes K.DEFAULT_PAGE_SIZE,
        word_bytes 0]
      (envps.flatMap word_bytes)
      [word_bytes 0,
        argvps.flatMap word_bytes,
        word_bytes argv_i]
      (16 + 8 * argvps.length) (8 * envps.length) rfl
      (by
        simp only [List.map_cons, List.map_nil, List.sum_cons, List.sum_nil, l8, l16, lw]
        omega)
      (lw _)
    have ha : r.1 + 16 + 8 * argvps.length = r.1 + (16 + 8 * argvps.length) := by omega
    rw [ha]
    exact hx
  · have hx := key
      [word_bytes 0 ++ word_bytes 0,
        word_bytes K.AT_PHDR ++ word_bytes phdr,
        word_bytes K.AT_PHENT ++ word_bytes 56,
        word_bytes K.AT_PHNUM ++ word_bytes phnum,
        word_bytes K.AT_ENTRY ++ word_bytes e_entry,
        word_bytes K.AT_EXECFN ++ word_bytes execfn_ptr,
        word_bytes K.AT_BASE ++ word_bytes at_base,
        word_bytes K.AT_PAGESZ ++ word_bytes K.DEFAULT_PAGE_SIZE]
      (word_bytes 0)
      [envps.flatMap word_bytes,
        word_bytes 0,
        argvps.flatMap word_bytes,
        word_bytes argv_i]
      (16 + 8 * argvps.length + 8 * envps.length) (8) rfl
      (by
        simp only [List.map_cons, List.map_nil, List.sum_cons, List.sum_nil, l8, l16, lw]
        omega)
      (l8 _)
    have ha : r.1 + 16 + 8 * argvps.length + 8 * envps.length = r.1 + (16 + 8 * argvps.length + 8 * envps.length) := by omega
    rw [ha]
    exact hx
  · have hx := key
      [word_bytes 0 ++ word_bytes 0,
        word_bytes K.AT_PHDR ++ word_bytes phdr,
        word_bytes K.AT_PHENT ++ word_bytes 56,
        word_bytes K.AT_PHNUM ++ word_bytes phnum,
        word_bytes K.AT_ENTRY ++ word_bytes e_entry,
        word_bytes K.AT_EXECFN ++ word_bytes execfn_ptr,
        word_bytes K.AT_BASE ++ word_bytes at_base]
      (word_bytes K.AT_PAGESZ ++ word_bytes K.DEFAULT_PAGE_SIZE)
      [word_bytes 0,
        envps.flatMap word_bytes,
        word_bytes 0,
        argvps.flatMap word_bytes,
        word_bytes argv_i]
      (24 + 8 * argvps.length + 8 * envps.length) (16) rfl
      (by
        simp only [List.map_cons, List.map_nil, List.sum_cons, List.sum_nil, l8, l16, lw]
        omega)
      (l16 _ _)
    have ha : r.1 + 24 + 8 * argvps.length + 8 * envps.length = r.1 + (24 + 8 * argvps.length + 8 * envps.length) := by omega
    rw [ha]
    exact hx
  · have hx := key
      [word_bytes 0 ++ word_bytes 0,
        word_bytes K.AT_PHDR ++ word_bytes phdr,
        word_bytes K.AT_PHENT ++ word_bytes 56,
        word_bytes K.AT_PHNUM ++ word_bytes phnum,
        word_bytes K.AT_ENTRY ++ word_bytes e_entry,
        word_bytes K.AT_EXECFN ++ word_bytes execfn_ptr]
      (word_bytes K.AT_BASE ++ word_bytes at_base)
      [word_bytes K.AT_PAGESZ ++ word_bytes K.DEFAULT_PAGE_SIZE,
        word_bytes 0,
        envps.flatMap word_bytes,
        word_bytes 0,
        argvps.flatMap word_bytes,
        word_bytes argv_i]
      (40 + 8 * argvps.length + 8 * envps.length) (16) rfl
      (by
        simp only [List.map_cons, List.map_nil, List.sum_cons, List.sum_nil, l8, l16, lw]
        omega)
      (l16 _ _)
    have ha : r.1 + 40 + 8 * argvps.length + 8 * envps.length = r.1 + (40 + 8 * argvps.length + 8 * envps.length) := by omega
    rw [ha]
    exact hx
  · have hx := key
      [word_bytes 0 ++ word_bytes 0,
        word_bytes K.AT_PHDR ++ word_bytes phdr,
        word_bytes K.AT_PHENT ++ word_bytes 56,
        word_bytes K.AT_PHNUM ++ word_bytes phnum,
        word_bytes K.AT_ENTRY ++ word_bytes e_entry]
      (word_bytes K.AT_EXECFN ++ word_bytes execfn_ptr)
      [word_bytes K.AT_BASE ++ word_bytes at_base,
        word_bytes K.AT_PAGESZ ++ word_bytes K.DEFAULT_PAGE_SIZE,
        word_bytes 0,
        envps.flatMap word_bytes,
        word_bytes 0,
        argvps.flatMap word_bytes,
        word_bytes argv_i]
      (56 + 8 * argvps.length + 8 * envps.length) (16) rfl
      (by
        simp only [List.map_cons, List.map_nil, List.sum_cons, List.sum_nil, l8, l16, lw]
        omega)
      (l16 _ _)
    have ha : r.1 + 56 + 8 * argvps.length + 8 * envps.length = r.1 + (56 + 8 * argvps.length + 8 * envps.length) := by omega
    rw [ha]
    exact hx
  · have hx := key
      [word_bytes 0 ++ word_bytes 0,
        word_bytes K.AT_PHDR ++ word_bytes phdr,
        word_bytes K.AT_PHENT ++ word_bytes 56,
        word_bytes K.AT_PHNUM ++ word_bytes phnum]
      (word_bytes K.AT_ENTRY ++ word_bytes e_entry)
      [word_bytes K.AT_EXECFN ++ word_bytes execfn_ptr,
        word_bytes K.AT_BASE ++ word_bytes at_base,
        word_bytes K.AT_PAGESZ ++ word_bytes K.DEFAULT_PAGE_SIZE,
        word_bytes 0,
        envps.flatMap word_bytes,
        word_bytes 0,
        argvps.flatMap word_bytes,
        word_bytes argv_i]
      (72 + 8 * argvps.length + 8 * envps.length) (16) rfl
      (by
        simp only [List.map_cons, List.map_nil, List.sum_cons, List.sum_nil, l8, l16, lw]
        omega)
      (l16 _ _)
    have ha : r.1 + 72 + 8 * argvps.length + 8 * envps.length = r.1 + (72 + 8 * argvps.length + 8 * envps.length) := by omega
    rw [ha]
    exact hx
  · have hx := key
      [word_bytes 0 ++ word_bytes 0,
        word_bytes K.AT_PHDR ++ word_bytes phdr,
        word_bytes K.AT_PHENT ++ word_bytes 56]
      (word_bytes K.AT_PHNUM ++ word_bytes phnum)
      [word_bytes K.AT_ENTRY ++ word_bytes e_entry,
        word_bytes K.AT_EXECFN ++ word_bytes execfn_ptr,
        word_bytes K.AT_BASE ++ word_bytes at_base,
        word_bytes K.AT_PAGESZ ++ word_bytes K.DEFAULT_PAGE_SIZE,
        word_bytes 0,
        envps.flatMap word_bytes,
        word_bytes 0,
        argvps.flatMap word_bytes,
        word_bytes argv_i]
      (88 + 8 * argvps.length + 8 * envps.length) (16) rfl
      (by
        simp only [List.map_cons, List.map_nil, List.sum_cons, List.sum_nil, l8, l16, lw]
        omega)
      (l16 _ _)
    have ha : r.1 + 88 + 8 * argvps.length + 8 * envps.length = r.1 + (88 + 8 * argvps.length + 8 * envps.length) := by omega
    rw [ha]
    exact hx
  · have hx := key
      [word_bytes 0 ++ word_bytes 0,
        word_bytes K.AT_PHDR ++ word_bytes phdr]
      (word_bytes K.AT_PHENT ++ word_bytes 56)
      [word_bytes K.AT_PHNUM ++ word_bytes phnum,
        word_bytes K.AT_ENTRY ++ word_bytes e_entry,
        word_bytes K.AT_EXECFN ++ word_bytes execfn_ptr,
        word_bytes K.AT_BASE ++ word_bytes at_base,
        word_bytes K.AT_PAGESZ ++ word_bytes K.DEFAULT_PAGE_SIZE,
        word_bytes 0,
        envps.flatMap word_bytes,
        word_bytes 0,
        argvps.flatMap word_bytes,
        word_bytes argv_i]
      (104 + 8 * argvps.length + 8 * envps.length) (16) rfl
      (by
        simp only [List.map_cons, List.map_nil, List.sum_cons, List.sum_nil, l8, l16, lw]
        omega)
      (l16 _ _)
    have ha : r.1 + 104 + 8 * argvps.length + 8 * envps.length = r.1 + (104 + 8 * argvps.length + 8 * envps.length) := by omega
    rw [ha]
    exact hx
  · have hx := key
      [word_bytes 0 ++ word_bytes 0]
      (word_bytes K.AT_PHDR ++ word_bytes phdr)
      [word_bytes K.AT_PHENT ++ word_bytes 56,
        word_bytes K.AT_PHNUM ++ word_bytes phnum,
        word_bytes K.AT_ENTRY ++ word_bytes e_entry,
        word_bytes K.AT_EXECFN ++ word_bytes execfn_ptr,
        word_bytes K.AT_BASE ++ word_bytes at_base,
        word_bytes K.AT_PAGESZ ++ word_bytes K.DEFAULT_PAGE_SIZE,
        word_bytes 0,
        envps.flatMap word_bytes,
        word_bytes 0,
        argvps.flatMap word_bytes,
        word_bytes argv_i]
      (120 + 8 * argvps.length + 8 * envps.length) (16) rfl
      (by
        simp only [List.map_cons, List.map_nil, List.sum_cons, List.sum_nil, l8, l16, lw]
        omega)
      (l16 _ _)
    have ha : r.1 + 120 + 8 * argvps.length + 8 * envps.length = r.1 + (120 + 8 * argvps.length + 8 * envps.length) := by omega
    rw [ha]
    exact hx
  · have hx := key
      []
      (word_bytes 0 ++ word_bytes 0)
      [word_bytes K.AT_PHDR ++ word_bytes phdr,
        word_bytes K.AT_PHENT ++ word_bytes 56,
        word_bytes K.AT_PHNUM ++ word_bytes phnum,
        word_bytes K.AT_ENTRY ++ word_bytes e_entry,
        word_bytes K.AT_EXECFN ++ word_bytes execfn_ptr,
        word_bytes K.AT_BASE ++ word_bytes at_base,
        word_bytes K.AT_PAGESZ ++ word_bytes K.DEFAULT_PAGE_SIZE,
        word_bytes 0,
        envps.flatMap word_bytes,
        word_bytes 0,
        argvps.flatMap word_bytes,
        word_bytes argv_i]
      (136 + 8 * argvps.length + 8 * envps.length) (16) rfl
      (by
        simp only [List.map_cons, List.map_nil, List.sum_cons, List.sum_nil, l8, l16, lw]
        omega)
      (l16 _ _)
    have ha : r.1 + 136 + 8 * argvps.length + 8 * envps.length = r.1 + (136 + 8 * argvps.length + 8 * envps.length) := by omega
    rw [ha]
    exact hx

/-- C31 as stated fails: for the sample call (two arguments, one environment
string) the first pair of the auxiliary vector above the pointer arrays, at
`sp + 48`, is `{AT_PAGESZ, 4096}` and not `{AT_PHDR, phdr}`; the pair
`{AT_PHDR, phdr}` is the last one, at `sp + 144`, just below the terminator. -/
theorem C31_auxv_order_reversed :
    ∃ (sp : Nat) (m : Nat → Nat),
      sample_push = some (sp, m) ∧
      read_bytes m sp 8 = word_bytes 2 ∧
      read_bytes m (sp + 48) 16 =
        word_bytes sample_config.AT_PAGESZ ++ word_bytes sample_config.DEFAULT_PAGE_SIZE ∧
      read_bytes m (sp + 48) 16 ≠ word_bytes sample_config.AT_PHDR ++ word_bytes 4194368 ∧
      read_bytes m (sp + 144) 16 = word_bytes sample_config.AT_PHDR ++ word_bytes 4194368 ∧
      read_bytes m (sp + 160) 16 = word_bytes 0 ++ word_bytes 0 := by
  refine ⟨_, _, rfl, ?_, ?_, ?_, ?_, ?_⟩ <;> decide

/-- C31, amended: for every argument list and environment list of at most 128
strings that, with the task name, fit below the stack top, `push_infos` returns
a stack pointer `sp` from which, reading upward: the word `argc`; `argc`
pointers, the `i`-th at a copy of `argv[i]`; a null word; the `envp` pointers
in order, each at a copy of its string; a null word; the pairs of the auxiliary
vector in the order PAGESZ, BASE, EXECFN (at a copy of the task name), ENTRY,
PHNUM, PHENT (56), PHDR, the reverse of the order of the calls; and the
terminator pair. -/
theorem C31_stack_layout (K : Config) (mem : Nat → Nat) (task : task_t) (current_stack : Nat)
    (argv envp : List String) (e_entry phdr phnum at_base : Nat)
    (hs : current_stack < 2 ^ 64) (hfit : stack_need task.name argv envp ≤ current_stack)
    (ha : argv.length ≤ 128) (he : envp.length ≤ 128) :
    ∃ (r : Nat × (Nat → Nat)) (argvps envps : List Nat) (execfn : Nat),
      push_infos K mem task current_stack argv envp e_entry phdr phnum at_base = some r ∧
      stack_layout K r.2 r.1 task.name argv envp argvps envps execfn e_entry phdr phnum
        at_base := by
  have hn : ¬ (128 < envp.length ∨ 128 < argv.length) := by omega
  unfold stack_need at hfit
  unfold push_infos
  rw [if_neg hn]
  simp only []
  -- the task name
  obtain ⟨n1, n2, n3, _, n5, n6⟩ :=
    push_slice_fit mem current_stack (cstring task.name) hs (by omega)
  generalize push_slice mem current_stack (cstring task.name) = r0 at *
  -- the environment strings
  obtain ⟨envps, e1, e2, e3, e4, e5, e6⟩ :=
    push_strings_fit envp r0.1 r0.2 [] (by omega) (by omega)
  have e7 := (push_strings_mod envp r0.1 r0.2 [] n3).1
  rw [List.nil_append] at e1
  generalize push_strings envp r0.1 r0.2 [] = re at *
  -- the argument strings
  obtain ⟨argvps, a1, a2, a3, a4, a5, a6⟩ :=
    push_strings_fit argv re.1 re.2.1 [] (by omega) (by omega)
  have a7 := (push_strings_mod argv re.1 re.2.1 [] e7).1
  rw [List.nil_append] at a1
  generalize push_strings argv re.1 re.2.1 [] = ra at *
  -- the alignment
  have t1 : (ra.1 + 2 ^ 64 - (ra.1 + 2 ^ 64 -
      (2 * 8 + 7 * 2 * 8 + (envp.length + 0) * 8 + 8 + (argv.length + 0) * 8 + 8 + 8)) %
        2 ^ 64 % 16) % 2 ^ 64 ≤ ra.1 ∧
      152 + 8 * envp.length + 8 * argv.length ≤ (ra.1 + 2 ^ 64 - (ra.1 + 2 ^ 64 -
      (2 * 8 + 7 * 2 * 8 + (envp.length + 0) * 8 + 8 + (argv.length + 0) * 8 + 8 + 8)) %
        2 ^ 64 % 16) % 2 ^ 64 ∧
      (ra.1 + 2 ^ 64 - (ra.1 + 2 ^ 64 -
      (2 * 8 + 7 * 2 * 8 + (envp.length + 0) * 8 + 8 + (argv.length + 0) * 8 + 8 + 8)) %
        2 ^ 64 % 16) % 2 ^ 64 % 8 = 0 := by
    omega
  generalize (ra.1 + 2 ^ 64 - (ra.1 + 2 ^ 64 -
      (2 * 8 + 7 * 2 * 8 + (envp.length + 0) * 8 + 8 + (argv.length + 0) * 8 + 8 + 8)) %
        2 ^ 64 % 16) % 2 ^ 64 = t at *
  obtain ⟨t2, t3, t4⟩ := t1
  -- the vectors
  have hv := push_vectors_fit K ra.2.1 t ra.2.2 re.2.2 argv.length r0.1 e_entry phdr phnum
    at_base _ (by omega) t4 (by rw [e1, a1, e2, a2]; omega) rfl
  rw [e1, a1, e2, a2] at hv
  rw [e1, a1]
  generalize push_vectors K ra.2.1 t argvps envps argv.length r0.1 e_entry phdr phnum
    at_base = r at *
  obtain ⟨v0, v1, v2, v3, v4, v5, v6, v7, v8, v9, v10, v11, v12, v13, vf⟩ := hv
  refine ⟨r, argvps, envps, r0.1, rfl, ?_⟩
  unfold stack_layout
  refine ⟨a2, e2, v1, v2, ?_, v3, v4, ?_, v5, v6, v7, v8, ?_, v9, v10, v11, v12, v13⟩
  · intro i hi
    obtain ⟨q1, q2⟩ := a6 i hi
    rw [vf _ _ (by omega)]
    exact q2
  · intro j hj
    obtain ⟨q1, q2⟩ := e6 j hj
    rw [vf _ _ (by omega), a5 _ _ (by omega)]
    exact q2
  · rw [vf _ _ (by omega), a5 _ _ (by omega), e5 _ _ (le_refl _)]
    exact n5

/-- C31, amended, for the sample call: the task "sh" with the arguments "sh",
"-c" and the environment "A=1", from the stack top 65536. -/
theorem C31_stack_layout_witness :
    ∃ (r : Nat × (Nat → Nat)) (argvps envps : List Nat) (execfn : Nat),
      sample_push = some r ∧
      stack_layout sample_config r.2 r.1 "sh" ["sh", "-c"] ["A=1"] argvps envps execfn
        4198400 4194368 1 0 :=
  C31_stack_layout sample_config (fun _ => 0) { blank_task with name := "sh" } 65536
    ["sh", "-c"] ["A=1"] 4198400 4194368 1 0 (by decide) (by decide) (by decide) (by decide)

end Naos
